import Mathlib

/-!
EVOLVE social platform: the interaction core of `backend/server.cjs`.

A shallow embedding of the route handlers for likes, follows (both registrations of
`POST /api/users/:userId/follow`; the first is the one Express dispatches to), comments,
posts, notifications and messages over an explicit relational store.

* A table is the list of its rows, in insertion order.
* Every table has an `id` column filled by `AUTO_INCREMENT`; the store keeps the
  next value of each counter, and a clock that stamps `created_at`.
* `parseInt(req.params.x, 10)` is `Option Int`: `none` stands for `NaN`.
* Each `pool.query` that writes may reject; `Faults` says which writes reject in a run.
* A handler returns the store it leaves behind and the reply it sends.
* `ORDER BY` without a second key leaves the order of rows with equal keys open. A
  handler, being a function, returns the stable order (rows with equal keys keep the order
  they had); `ThreadAnswer` describes every order the query of the thread view allows.
-/

namespace Evolve

/-! ## Rows and store -/

/-- Row of table `users` (the columns the toggle engine can observe). -/
structure User where
  id : Int
  username : String
deriving DecidableEq, Repr

/-- Row of table `posts`: `user_id` is the author; `content` and `image_url` are
nullable. -/
structure Post where
  id : Int
  user_id : Int
  content : Option String
  image_url : Option String
  created_at : Nat
deriving DecidableEq, Repr

/-- Row of table `likes`. -/
structure Like where
  id : Int
  user_id : Int
  post_id : Int
deriving DecidableEq, Repr

/-- Row of table `followers`: `follower_id` follows `following_id`. -/
structure Follower where
  id : Int
  follower_id : Int
  following_id : Int
deriving DecidableEq, Repr

/-- Values of column `notifications.type`. -/
inductive NotifType where
  | like
  | comment
  | follow
deriving DecidableEq, Repr

/-- Row of table `notifications`: `user_id` is the owner (recipient), `post_id` and
`comment_id` are `NULL` (`none`) when the statement that inserts the row does not
name them, `created_at` is stamped by the store. -/
structure Notification where
  id : Int
  user_id : Int
  actor_id : Int
  type : NotifType
  post_id : Option Int
  comment_id : Option Int
  is_read : Bool
  created_at : Nat
deriving DecidableEq, Repr

/-- Row of table `comments`. -/
structure Comment where
  id : Int
  user_id : Int
  post_id : Int
  content : String
  created_at : Nat
deriving DecidableEq, Repr

/-- Row of table `messages` (the column is spelled `reciever_id` in the source). A row is
inserted unread and stamped by the store. -/
structure Message where
  id : Int
  sender_id : Int
  reciever_id : Int
  message : String
  is_read : Bool
  created_at : Nat
deriving DecidableEq, Repr

/-- The relational store behind `pool`: tables, `AUTO_INCREMENT` counters and the
store's current timestamp. -/
structure Db where
  users : List User
  posts : List Post
  likes : List Like
  followers : List Follower
  notifications : List Notification
  likesAuto : Int
  followersAuto : Int
  notificationsAuto : Int
  clock : Nat
  comments : List Comment := []
  messages : List Message := []
  postsAuto : Int := 1
  commentsAuto : Int := 1
  messagesAuto : Int := 1
deriving DecidableEq, Repr

/-- What a handler sends: `res.json(body)` (status 200), `res.status(201).json(body)` or
`res.status(status).json(message)`. -/
inductive Reply (β : Type) where
  | ok (body : β)
  | error (status : Nat) (message : String)
  | created (body : β)
deriving DecidableEq, Repr

/-- The HTTP status of a reply. -/
def Reply.status {β : Type} : Reply β → Nat
  | Reply.ok _ => 200
  | Reply.error status _ => status
  | Reply.created _ => 201

/-- Body of a successful like toggle. -/
structure LikeBody where
  liked : Bool
  likeCount : Nat
deriving DecidableEq, Repr

/-- Body of a successful follow toggle. -/
structure FollowBody where
  following : Bool
deriving DecidableEq, Repr

/-- Which writes of one request reject: the write to the table the request is about
(`likes`, `followers`, `comments`) and the write to `notifications`. -/
structure Faults where
  relationWrite : Bool
  notificationWrite : Bool
deriving DecidableEq, Repr

/-- The run in which every query resolves. -/
def noFaults : Faults := ⟨false, false⟩

/-! ## Queries -/

/-- The rows of `SELECT id, user_id FROM posts WHERE id = ?`. -/
def selectPost (db : Db) (postId : Int) : List Post :=
  db.posts.filter (fun p => p.id = postId)

/-- The rows of `SELECT id FROM likes WHERE user_id = ? AND post_id = ?`. -/
def selectLike (db : Db) (userId postId : Int) : List Like :=
  db.likes.filter (fun l => l.user_id = userId ∧ l.post_id = postId)

/-- The value of `SELECT COUNT(*) AS count FROM likes WHERE post_id = ?`. -/
def countLikes (db : Db) (postId : Int) : Nat :=
  (db.likes.filter (fun l => l.post_id = postId)).length

/-- The statement `DELETE FROM likes WHERE id = ?`. -/
def deleteLikeById (db : Db) (id : Int) : Db :=
  { db with likes := db.likes.filter (fun l => l.id ≠ id) }

/-- The statement `INSERT INTO likes (user_id, post_id) VALUES (?, ?)`. -/
def insertLike (db : Db) (userId postId : Int) : Db :=
  { db with
    likes := db.likes ++ [⟨db.likesAuto, userId, postId⟩]
    likesAuto := db.likesAuto + 1 }

/-- The statement
`DELETE FROM notifications WHERE type = 'like' AND actor_id = ? AND post_id = ?`. -/
def deleteLikeNotifications (db : Db) (actorId postId : Int) : Db :=
  { db with
    notifications := db.notifications.filter
      (fun n => ¬ (n.type = NotifType.like ∧ n.actor_id = actorId ∧ n.post_id = some postId)) }

/-- The statement `INSERT INTO notifications (user_id, actor_id, type, post_id, is_read)
VALUES (?, ?, 'like', ?, FALSE)`. -/
def insertLikeNotification (db : Db) (ownerId actorId postId : Int) : Db :=
  { db with
    notifications := db.notifications ++
      [⟨db.notificationsAuto, ownerId, actorId, NotifType.like, some postId, none, false,
        db.clock⟩]
    notificationsAuto := db.notificationsAuto + 1 }

/-- The rows of `SELECT id FROM followers WHERE follower_id = ? AND following_id = ?`. -/
def selectFollow (db : Db) (followerId followingId : Int) : List Follower :=
  db.followers.filter (fun f => f.follower_id = followerId ∧ f.following_id = followingId)

/-- The statement `DELETE FROM followers WHERE id = ?`. -/
def deleteFollowById (db : Db) (id : Int) : Db :=
  { db with followers := db.followers.filter (fun f => f.id ≠ id) }

/-- The statement `INSERT INTO followers (follower_id, following_id) VALUES (?, ?)`. -/
def insertFollow (db : Db) (followerId followingId : Int) : Db :=
  { db with
    followers := db.followers ++ [⟨db.followersAuto, followerId, followingId⟩]
    followersAuto := db.followersAuto + 1 }

/-- The statement
`DELETE FROM notifications WHERE type = 'follow' AND actor_id = ? AND user_id = ?`. -/
def deleteFollowNotifications (db : Db) (actorId ownerId : Int) : Db :=
  { db with
    notifications := db.notifications.filter
      (fun n => ¬ (n.type = NotifType.follow ∧ n.actor_id = actorId ∧ n.user_id = ownerId)) }

/-- The statement `INSERT INTO notifications (user_id, actor_id, type, is_read)
VALUES (?, ?, 'follow', FALSE)`. -/
def insertFollowNotification (db : Db) (ownerId actorId : Int) : Db :=
  { db with
    notifications := db.notifications ++
      [⟨db.notificationsAuto, ownerId, actorId, NotifType.follow, none, none, false,
        db.clock⟩]
    notificationsAuto := db.notificationsAuto + 1 }

/-! ## Handlers -/

/-- The handler of `POST /api/posts/:postId/like`, called by `currentUserId` with
`postId = parseInt(req.params.postId, 10)`.

The notification write sits in its own `try`/`catch`: when it rejects, the handler logs
and goes on. Any other rejected query lands in the outer `catch` (status 500). -/
def toggleLike (db : Db) (fl : Faults) (currentUserId : Int) (postId : Option Int) :
    Db × Reply LikeBody :=
  match postId with
  | none => (db, Reply.error 400 "Invalid post id")
  | some pid =>
    if pid = 0 then (db, Reply.error 400 "Invalid post id")
    else
      match selectPost db pid with
      | [] => (db, Reply.error 404 "Post not found")
      | post :: _ =>
        match selectLike db currentUserId pid with
        | r :: _ =>
          if fl.relationWrite then (db, Reply.error 500 "Error toggling like")
          else
            let db1 := deleteLikeById db r.id
            let db2 :=
              if fl.notificationWrite then db1
              else deleteLikeNotifications db1 currentUserId pid
            (db2, Reply.ok ⟨false, countLikes db2 pid⟩)
        | [] =>
          if fl.relationWrite then (db, Reply.error 500 "Error toggling like")
          else
            let db1 := insertLike db currentUserId pid
            let db2 :=
              if fl.notificationWrite then db1
              else insertLikeNotification db1 post.user_id currentUserId pid
            (db2, Reply.ok ⟨true, countLikes db2 pid⟩)

/-- The first handler registered for `POST /api/users/:userId/follow`, called by
`currentUserId` with `targetUserId = parseInt(req.params.userId, 10)`.

Here the notification write has no `try`/`catch` of its own: when it rejects, control
goes to the outer `catch` (status 500) after the relation write has been done. -/
def toggleFollow (db : Db) (fl : Faults) (currentUserId : Int) (targetUserId : Option Int) :
    Db × Reply FollowBody :=
  match targetUserId with
  | none => (db, Reply.error 400 "Invalid target user")
  | some target =>
    if target = 0 ∨ target = currentUserId then (db, Reply.error 400 "Invalid target user")
    else
      match selectFollow db currentUserId target with
      | r :: _ =>
        if fl.relationWrite then (db, Reply.error 500 "Error toggling follow")
        else
          let db1 := deleteFollowById db r.id
          if fl.notificationWrite then (db1, Reply.error 500 "Error toggling follow")
          else (deleteFollowNotifications db1 currentUserId target, Reply.ok ⟨false⟩)
      | [] =>
        if fl.relationWrite then (db, Reply.error 500 "Error toggling follow")
        else
          let db1 := insertFollow db currentUserId target
          if fl.notificationWrite then (db1, Reply.error 500 "Error toggling follow")
          else (insertFollowNotification db1 target currentUserId, Reply.ok ⟨true⟩)

/-! ## Observations and store constraints -/

/-- Whether a `Like(userId, postId)` row exists (the `EXISTS` sub-query of the feed). -/
def isLiked (db : Db) (userId postId : Int) : Bool :=
  db.likes.any (fun l => l.user_id = userId ∧ l.post_id = postId)

/-- Whether a `Follow(followerId, followingId)` row exists. -/
def isFollowing (db : Db) (followerId followingId : Int) : Bool :=
  db.followers.any (fun f => f.follower_id = followerId ∧ f.following_id = followingId)

/-- Whether some user row has this id. -/
def userExists (db : Db) (userId : Int) : Bool :=
  db.users.any (fun u => u.id = userId)

/-- Whether some post row has this id. -/
def postExists (db : Db) (postId : Int) : Bool :=
  db.posts.any (fun p => p.id = postId)

/-- Modelled from the spec: the schema of table `likes` is not among the sources. Its
`id` is a primary key issued by `AUTO_INCREMENT` (all issued ids are below the counter)
and, as the data model says, there is at most one row per `(user, post)`. -/
def LikesConstraint (db : Db) : Prop :=
  (db.likes.map (fun l => l.id)).Nodup ∧
  (∀ l ∈ db.likes, l.id < db.likesAuto) ∧
  (db.likes.map (fun l => (l.user_id, l.post_id))).Nodup

instance (db : Db) : Decidable (LikesConstraint db) := by
  unfold LikesConstraint; infer_instance

/-- Modelled from the spec: the schema of table `followers` is not among the sources.
Its `id` is a primary key issued by `AUTO_INCREMENT` and there is at most one row per
ordered `(follower, followee)`. -/
def FollowersConstraint (db : Db) : Prop :=
  (db.followers.map (fun f => f.id)).Nodup ∧
  (∀ f ∈ db.followers, f.id < db.followersAuto) ∧
  (db.followers.map (fun f => (f.follower_id, f.following_id))).Nodup

instance (db : Db) : Decidable (FollowersConstraint db) := by
  unfold FollowersConstraint; infer_instance

/-! ## Texts -/

/-- The characters `String.prototype.trim` strips: ECMAScript white space and line
terminators, by code point. -/
def isTrimmed (c : Char) : Bool :=
  c.toNat ∈ [9, 10, 11, 12, 13, 32, 160, 5760, 8192, 8193, 8194, 8195, 8196, 8197, 8198, 8199,
    8200, 8201, 8202, 8232, 8233, 8239, 8287, 12288, 65279]

/-- The method `trim()` of a JavaScript string. -/
def trim (s : String) : String :=
  String.mk ((s.data.dropWhile isTrimmed).reverse.dropWhile isTrimmed).reverse

/-- The test `!message || !message.trim()` on a text of the request body (an absent
field behaves as the empty text). -/
def blank (message : String) : Bool :=
  message = "" ∨ trim message = ""

/-! ## Messages -/

/-- The condition `(sender_id = me AND reciever_id = other) OR
(sender_id = other AND reciever_id = me)`. -/
def betweenUsers (me other : Int) (m : Message) : Bool :=
  (m.sender_id = me ∧ m.reciever_id = other) ∨ (m.sender_id = other ∧ m.reciever_id = me)

/-- The rows of `SELECT ... FROM messages WHERE id = ?`. -/
def selectMessage (db : Db) (id : Int) : List Message :=
  db.messages.filter (fun m => m.id = id)

/-- The rows of `SELECT id FROM users WHERE id = ?`. -/
def selectUser (db : Db) (id : Int) : List User :=
  db.users.filter (fun u => u.id = id)

/-- The statement `INSERT INTO messages (sender_id, reciever_id, message) VALUES (?, ?, ?)`:
`is_read` and `created_at` take the defaults of the table (unread, now). -/
def insertMessage (db : Db) (senderId recieverId : Int) (text : String) : Db :=
  { db with
    messages := db.messages ++ [⟨db.messagesAuto, senderId, recieverId, text, false, db.clock⟩]
    messagesAuto := db.messagesAuto + 1 }

/-- The statement `UPDATE messages SET is_read = TRUE WHERE sender_id = ? AND
reciever_id = ? AND is_read = FALSE` of the thread view. -/
def markUnreadAsRead (db : Db) (senderId recieverId : Int) : Db :=
  { db with
    messages := db.messages.map (fun m =>
      if m.sender_id = senderId ∧ m.reciever_id = recieverId ∧ m.is_read = false
      then { m with is_read := true } else m) }

/-- The statement `UPDATE messages SET is_read = TRUE WHERE sender_id = ? AND
reciever_id = ?` of the mark-read route. -/
def markAsRead (db : Db) (senderId recieverId : Int) : Db :=
  { db with
    messages := db.messages.map (fun m =>
      if m.sender_id = senderId ∧ m.reciever_id = recieverId
      then { m with is_read := true } else m) }

/-- The statement `UPDATE messages SET message = ? WHERE id = ?`. -/
def updateMessageText (db : Db) (id : Int) (text : String) : Db :=
  { db with
    messages := db.messages.map (fun m => if m.id = id then { m with message := text } else m) }

/-- The statement `DELETE FROM messages WHERE id = ?`. -/
def deleteMessageById (db : Db) (id : Int) : Db :=
  { db with messages := db.messages.filter (fun m => m.id ≠ id) }

/-- The statement `DELETE FROM messages WHERE (sender_id = ? AND reciever_id = ?) OR
(sender_id = ? AND reciever_id = ?)`. -/
def deleteMessagesBetween (db : Db) (me other : Int) : Db :=
  { db with messages := db.messages.filter (fun m => ¬ betweenUsers me other m) }

/-- One row of the conversations query. -/
structure ConversationRow where
  user_id : Int
  username : String
  last_message : String
  last_message_time : Nat
  unread_count : Nat
deriving DecidableEq, Repr

/-- The expression `CASE WHEN sender_id = ? THEN reciever_id ELSE sender_id END`. -/
def partnerId (me : Int) (m : Message) : Int :=
  if m.sender_id = me then m.reciever_id else m.sender_id

/-- The rows of `FROM messages WHERE sender_id = ? OR reciever_id = ?`. -/
def messagesOf (db : Db) (me : Int) : List Message :=
  db.messages.filter (fun m => m.sender_id = me ∨ m.reciever_id = me)

/-- The aggregate `MAX(created_at)` over a non-empty group. -/
def maxCreatedAt (group : List Message) : Nat :=
  (group.map (fun m => m.created_at)).foldr max 0

/-- The derived table `conv`: one row `(partner_id, last_time)` per group of
`GROUP BY partner_id`. -/
def conv (db : Db) (me : Int) : List (Int × Nat) :=
  ((messagesOf db me).map (partnerId me)).dedup.map (fun p =>
    (p, maxCreatedAt ((messagesOf db me).filter (fun m => partnerId me m = p))))

/-- The correlated sub-query `SELECT COUNT(*) FROM messages m2 WHERE m2.sender_id = u.id
AND m2.reciever_id = ? AND m2.is_read = FALSE`. -/
def unreadCount (db : Db) (me partner : Int) : Nat :=
  (db.messages.filter
    (fun m => m.sender_id = partner ∧ m.reciever_id = me ∧ m.is_read = false)).length

/-- The joins of the conversations query, before `ORDER BY`: each row of `conv` joined
with the users row of the partner and with every message of the pair whose `created_at`
equals `last_time`. -/
def conversationJoin (db : Db) (me : Int) : List ConversationRow :=
  (conv db me).flatMap (fun c =>
    (db.users.filter (fun u => u.id = c.1)).flatMap (fun u =>
      (db.messages.filter (fun lm =>
          ((lm.sender_id = me ∧ lm.reciever_id = u.id) ∨
            (lm.sender_id = u.id ∧ lm.reciever_id = me)) ∧ lm.created_at = c.2)).map
        (fun lm => ⟨u.id, u.username, lm.message, lm.created_at, unreadCount db me u.id⟩)))

/-- The handler of `GET /api/messages/conversations`: the join ordered by
`last_message_time DESC`. The query names no second key; of the orders the store may
return, this is the one in which rows with equal times keep the order of the join. -/
def listConversations (db : Db) (currentUserId : Int) : Reply (List ConversationRow) :=
  Reply.ok ((conversationJoin db currentUserId).insertionSort
    (fun a b => a.last_message_time ≥ b.last_message_time))

/-- The query of the thread view: the messages of the pair `ORDER BY created_at ASC`.
The query names no second key, so the store may return rows with equal times in any
order (`ThreadAnswer` below); this function is the answer that keeps them in the order of
the table. -/
def selectThread (db : Db) (me other : Int) : List Message :=
  (db.messages.filter (betweenUsers me other)).insertionSort
    (fun a b => a.created_at ≤ b.created_at)

/-- The answers the query of the thread view may give: `rows` holds the selected rows,
each as often as the table does, and `ORDER BY created_at ASC` is all that constrains
their order. -/
def ThreadAnswer (db : Db) (me other : Int) (rows : List Message) : Prop :=
  List.Perm rows (db.messages.filter (betweenUsers me other)) ∧
  List.Sorted (fun a b : Message => a.created_at ≤ b.created_at) rows

instance (db : Db) (me other : Int) (rows : List Message) :
    Decidable (ThreadAnswer db me other rows) := by
  unfold ThreadAnswer; infer_instance

/-- The handler of `GET /api/messages/:userId`, with
`otherUserId = parseInt(req.params.userId, 10)`: it selects the thread, then marks as read
what the caller received in it, and sends the rows it selected. -/
def getThread (db : Db) (currentUserId : Int) (otherUserId : Option Int) :
    Db × Reply (List Message) :=
  match otherUserId with
  | none => (db, Reply.error 400 "Invalid user id")
  | some other =>
    (markUnreadAsRead db other currentUserId, Reply.ok (selectThread db currentUserId other))

/-- The handler of `POST /api/messages`; `reciever_id` and `message` come from the request
body (`none` is an absent `reciever_id`). The reply carries `rows[0]` of the re-select by
`insertId`. -/
def sendMessage (db : Db) (currentUserId : Int) (reciever_id : Option Int) (message : String) :
    Db × Reply (Option Message) :=
  match reciever_id with
  | none => (db, Reply.error 400 "reciever_id and message required")
  | some rid =>
    if rid = 0 ∨ blank message = true then
      (db, Reply.error 400 "reciever_id and message required")
    else if rid = currentUserId then
      (db, Reply.error 400 "Cannot send a message to yourself")
    else
      match selectUser db rid with
      | [] => (db, Reply.error 404 "Receiver not found")
      | _ :: _ =>
        let db1 := insertMessage db currentUserId rid (trim message)
        (db1, Reply.created (selectMessage db1 db.messagesAuto).head?)

/-- The handler of `PATCH /api/messages/:userId/read`. -/
def markMessagesRead (db : Db) (currentUserId : Int) (otherUserId : Option Int) :
    Db × Reply String :=
  match otherUserId with
  | none => (db, Reply.error 400 "Invalid user id")
  | some other => (markAsRead db other currentUserId, Reply.ok "Messages marked as read")

/-- The handler of `PUT /api/messages/:id`, with `messageId = parseInt(req.params.id, 10)`.
The reply carries `updatedRows[0]`. -/
def editMessage (db : Db) (currentUserId : Int) (messageId : Option Int) (message : String) :
    Db × Reply (Option Message) :=
  match messageId with
  | none => (db, Reply.error 400 "Invalid message id")
  | some mid =>
    if blank message = true then (db, Reply.error 400 "Message text required")
    else
      match selectMessage db mid with
      | [] => (db, Reply.error 404 "Message not found")
      | msg :: _ =>
        if msg.sender_id ≠ currentUserId then
          (db, Reply.error 403 "Not allowed to edit this message")
        else
          let db1 := updateMessageText db mid (trim message)
          (db1, Reply.ok (selectMessage db1 mid).head?)

/-- The handler of `DELETE /api/messages/:id`. -/
def deleteMessage (db : Db) (currentUserId : Int) (messageId : Option Int) :
    Db × Reply String :=
  match messageId with
  | none => (db, Reply.error 400 "Invalid message id")
  | some mid =>
    match selectMessage db mid with
    | [] => (db, Reply.error 404 "Message not found")
    | msg :: _ =>
      if msg.sender_id ≠ currentUserId then
        (db, Reply.error 403 "Not allowed to delete this message")
      else (deleteMessageById db mid, Reply.ok "Message deleted")

/-- The handler of `DELETE /api/messages/chat/:userId`. -/
def deleteThread (db : Db) (currentUserId : Int) (otherUserId : Option Int) :
    Db × Reply String :=
  match otherUserId with
  | none => (db, Reply.error 400 "Invalid user id")
  | some other => (deleteMessagesBetween db currentUserId other, Reply.ok "Chat deleted")

/-! ## Comments, posts, notifications, accounts -/

/-- A comment joined with its author, as `FROM comments c JOIN users u ON c.user_id = u.id`
selects it. -/
structure CommentView where
  id : Int
  user_id : Int
  username : String
  content : String
  created_at : Nat
deriving DecidableEq, Repr

/-- Body `{ message, commentId }` of a successful comment deletion. -/
structure DeletedComment where
  message : String
  commentId : Int
deriving DecidableEq, Repr

/-- Body `{ message, id }` of a successful mark-read. -/
structure MarkedRead where
  message : String
  id : Int
deriving DecidableEq, Repr

/-- Body `{ message, updated }` of mark-all-read. -/
structure MarkedAllRead where
  message : String
  updated : Nat
deriving DecidableEq, Repr

/-- The statement `INSERT INTO comments (user_id, post_id, content) VALUES (?, ?, ?)`. -/
def insertComment (db : Db) (userId postId : Int) (content : String) : Db :=
  { db with
    comments := db.comments ++ [⟨db.commentsAuto, userId, postId, content, db.clock⟩]
    commentsAuto := db.commentsAuto + 1 }

/-- The statement `INSERT INTO notifications (user_id, actor_id, type, post_id, comment_id,
is_read) VALUES (?, ?, 'comment', ?, ?, FALSE)`. -/
def insertCommentNotification (db : Db) (ownerId actorId postId commentId : Int) : Db :=
  { db with
    notifications := db.notifications ++
      [⟨db.notificationsAuto, ownerId, actorId, NotifType.comment, some postId, some commentId,
        false, db.clock⟩]
    notificationsAuto := db.notificationsAuto + 1 }

/-- The rows of `SELECT ... FROM comments c JOIN users u ON c.user_id = u.id
WHERE c.id = ?`. -/
def selectCommentView (db : Db) (commentId : Int) : List CommentView :=
  (db.comments.filter (fun c => c.id = commentId)).flatMap (fun c =>
    (db.users.filter (fun u => u.id = c.user_id)).map (fun u =>
      ⟨c.id, c.user_id, u.username, c.content, c.created_at⟩))

/-- The handler of `POST /api/posts/:postId/comments`; `content` comes from the request
body (an absent field behaves as the empty text). The notification write has its own
`try`/`catch`. -/
def addComment (db : Db) (fl : Faults) (currentUserId : Int) (postId : Option Int)
    (content : String) : Db × Reply CommentView :=
  match postId with
  | none => (db, Reply.error 400 "Invalid post id")
  | some pid =>
    if pid = 0 then (db, Reply.error 400 "Invalid post id")
    else if trim content = "" then (db, Reply.error 400 "Comment content is required")
    else
      match selectPost db pid with
      | [] => (db, Reply.error 404 "Post not found")
      | post :: _ =>
        if fl.relationWrite then (db, Reply.error 500 "Error adding comment")
        else
          let db1 := insertComment db currentUserId pid (trim content)
          let db2 :=
            if fl.notificationWrite then db1
            else insertCommentNotification db1 post.user_id currentUserId pid db.commentsAuto
          match selectCommentView db2 db.commentsAuto with
          | [] => (db2, Reply.error 500 "Comment created but could not be fetched")
          | row :: _ => (db2, Reply.created row)

/-- The rows of `SELECT c.id, c.user_id AS comment_user_id, c.post_id FROM comments c
WHERE c.id = ? AND c.post_id = ?`. -/
def selectComment (db : Db) (commentId postId : Int) : List Comment :=
  db.comments.filter (fun c => c.id = commentId ∧ c.post_id = postId)

/-- The statement `DELETE FROM comments WHERE id = ?`. -/
def deleteCommentById (db : Db) (id : Int) : Db :=
  { db with comments := db.comments.filter (fun c => c.id ≠ id) }

/-- The handler of `DELETE /api/posts/:postId/comments/:commentId`. -/
def deleteComment (db : Db) (currentUserId : Int) (postId commentId : Option Int) :
    Db × Reply DeletedComment :=
  match postId, commentId with
  | some pid, some cid =>
    if pid = 0 ∨ cid = 0 then (db, Reply.error 400 "Invalid post or comment id")
    else
      match selectComment db cid pid with
      | [] => (db, Reply.error 404 "Comment not found")
      | comment :: _ =>
        if comment.user_id ≠ currentUserId then
          (db, Reply.error 403 "You are not allowed to delete this comment")
        else (deleteCommentById db cid, Reply.ok ⟨"Comment deleted successfully", cid⟩)
  | _, _ => (db, Reply.error 400 "Invalid post or comment id")

/-- The value of `x || null` for a text of the request body. -/
def orNull (x : Option String) : Option String :=
  match x with
  | some t => if t = "" then none else some t
  | none => none

/-- The statement `INSERT INTO posts (user_id, content, image_url) VALUES (?, ?, ?)`. -/
def insertPost (db : Db) (userId : Int) (content image_url : Option String) : Db :=
  { db with
    posts := db.posts ++ [⟨db.postsAuto, userId, content, image_url, db.clock⟩]
    postsAuto := db.postsAuto + 1 }

/-- The handler of `POST /api/posts`; `content` and `image_url` come from the request body
(`none` is an absent field). The reply carries `rows[0]` of the re-select. -/
def createPost (db : Db) (currentUserId : Int) (content image_url : Option String) :
    Db × Reply (Option Post) :=
  if orNull content = none ∧ orNull image_url = none then
    (db, Reply.error 400 "Post must have text or an image")
  else
    let db1 := insertPost db currentUserId (orNull content) (orNull image_url)
    (db1, Reply.created (selectPost db1 db.postsAuto).head?)

/-- The statement `UPDATE posts SET content = ? WHERE id = ?`. -/
def updatePostContent (db : Db) (id : Int) (content : String) : Db :=
  { db with
    posts := db.posts.map (fun p => if p.id = id then { p with content := some content } else p) }

/-- The handler of `PUT /api/posts/:postId`. The route parameter is handed to the store
as it is; `postId` is the number the store compares with `posts.id`. -/
def updatePost (db : Db) (currentUserId : Int) (postId : Int) (content : String) :
    Db × Reply (Option Post) :=
  if trim content = "" then (db, Reply.error 400 "Content is required")
  else
    match selectPost db postId with
    | [] => (db, Reply.error 404 "Post not found")
    | post :: _ =>
      if post.user_id ≠ currentUserId then
        (db, Reply.error 403 "You are not allowed to edit this post")
      else
        let db1 := updatePostContent db postId (trim content)
        (db1, Reply.ok (selectPost db1 postId).head?)

/-- Modelled from the spec: the schema is not among the sources. The statement
`DELETE FROM posts WHERE id = ?` together with the cascade the spec assumes of the store:
the likes, comments and notifications that reference the post go with it. -/
def deletePostRows (db : Db) (id : Int) : Db :=
  { db with
    posts := db.posts.filter (fun p => p.id ≠ id)
    likes := db.likes.filter (fun l => l.post_id ≠ id)
    comments := db.comments.filter (fun c => c.post_id ≠ id)
    notifications := db.notifications.filter (fun n => n.post_id ≠ some id) }

/-- The handler of `DELETE /api/posts/:postId`. -/
def deletePost (db : Db) (currentUserId : Int) (postId : Int) : Db × Reply String :=
  match selectPost db postId with
  | [] => (db, Reply.error 404 "Post not found")
  | post :: _ =>
    if post.user_id ≠ currentUserId then
      (db, Reply.error 403 "You are not allowed to delete this post")
    else (deletePostRows db postId, Reply.ok "Post deleted successfully")

/-- The rows the statement `UPDATE notifications SET is_read = TRUE WHERE id = ? AND
user_id = ?` matches. -/
def selectOwnNotification (db : Db) (id userId : Int) : List Notification :=
  db.notifications.filter (fun n => n.id = id ∧ n.user_id = userId)

/-- The statement `UPDATE notifications SET is_read = TRUE WHERE id = ? AND user_id = ?`. -/
def markNotificationRead (db : Db) (id userId : Int) : Db :=
  { db with
    notifications := db.notifications.map (fun n =>
      if n.id = id ∧ n.user_id = userId then { n with is_read := true } else n) }

/-- The handler of `PATCH /api/notifications/:id/read`. `affectedRows` is the number of
rows the statement matches (the driver connects with the found-rows flag). -/
def markRead (db : Db) (currentUserId : Int) (notifId : Option Int) : Db × Reply MarkedRead :=
  match notifId with
  | none => (db, Reply.error 400 "Invalid notification id")
  | some nid =>
    if nid = 0 then (db, Reply.error 400 "Invalid notification id")
    else if (selectOwnNotification db nid currentUserId).length = 0 then
      (markNotificationRead db nid currentUserId,
        Reply.error 404 "Notification not found or not yours")
    else
      (markNotificationRead db nid currentUserId,
        Reply.ok ⟨"Notification marked as read", nid⟩)

/-- The statement `UPDATE notifications SET is_read = TRUE WHERE user_id = ? AND
is_read = FALSE`. -/
def markAllNotificationsRead (db : Db) (userId : Int) : Db :=
  { db with
    notifications := db.notifications.map (fun n =>
      if n.user_id = userId ∧ n.is_read = false then { n with is_read := true } else n) }

/-- The handler of `PATCH /api/notifications/mark-all-read`. -/
def markAllRead (db : Db) (currentUserId : Int) : Db × Reply MarkedAllRead :=
  (markAllNotificationsRead db currentUserId,
    Reply.ok ⟨"All notifications marked as read",
      (db.notifications.filter
        (fun n => n.user_id = currentUserId ∧ n.is_read = false)).length⟩)

/-- Modelled from the spec: the schema is not among the sources. The statement
`DELETE FROM users WHERE id = ?` together with the cascade the handler counts on
(`ON DELETE CASCADE should clean related rows`): the posts of the user with what hangs on
them, and every like, follow edge, comment, notification and message that references the
user. -/
def deleteUserRows (db : Db) (id : Int) : Db :=
  { db with
    users := db.users.filter (fun u => u.id ≠ id)
    posts := db.posts.filter (fun p => p.user_id ≠ id)
    likes := db.likes.filter (fun l =>
      l.user_id ≠ id ∧ ¬ (db.posts.any (fun p => p.id = l.post_id ∧ p.user_id = id)))
    followers := db.followers.filter (fun f => f.follower_id ≠ id ∧ f.following_id ≠ id)
    comments := db.comments.filter (fun c =>
      c.user_id ≠ id ∧ ¬ (db.posts.any (fun p => p.id = c.post_id ∧ p.user_id = id)))
    notifications := db.notifications.filter (fun n =>
      n.user_id ≠ id ∧ n.actor_id ≠ id ∧
        ¬ (db.posts.any (fun p => some p.id = n.post_id ∧ p.user_id = id)))
    messages := db.messages.filter (fun m => m.sender_id ≠ id ∧ m.reciever_id ≠ id) }

/-- The handler of `DELETE /api/me`. -/
def deleteAccount (db : Db) (currentUserId : Int) : Db × Reply String :=
  if currentUserId = 0 then (db, Reply.error 400 "Invalid user id")
  else
    match selectUser db currentUserId with
    | [] => (db, Reply.error 404 "User not found")
    | _ :: _ => (deleteUserRows db currentUserId, Reply.ok "Account deleted successfully")

/-! ## Sequential execution -/

/-- The requests that write to the tables of the model, with their parameters; the
caller is given apart. (The routes under `/api/auth` and `PUT /api/profile/me` write
credential and profile columns of `users` only and are left out; the second handler
registered for the follow route is never reached.) -/
inductive Op where
  | toggleLike (fl : Faults) (postId : Option Int)
  | toggleFollow (fl : Faults) (targetUserId : Option Int)
  | addComment (fl : Faults) (postId : Option Int) (content : String)
  | deleteComment (postId commentId : Option Int)
  | createPost (content image_url : Option String)
  | updatePost (postId : Int) (content : String)
  | deletePost (postId : Int)
  | markRead (notifId : Option Int)
  | markAllRead
  | getThread (otherUserId : Option Int)
  | sendMessage (reciever_id : Option Int) (message : String)
  | markMessagesRead (otherUserId : Option Int)
  | editMessage (messageId : Option Int) (message : String)
  | deleteMessage (messageId : Option Int)
  | deleteThread (otherUserId : Option Int)
  | deleteAccount
deriving DecidableEq, Repr

/-- The store one request of `currentUserId` leaves behind. -/
def step (db : Db) (currentUserId : Int) : Op → Db
  | Op.toggleLike fl postId => (toggleLike db fl currentUserId postId).1
  | Op.toggleFollow fl targetUserId => (toggleFollow db fl currentUserId targetUserId).1
  | Op.addComment fl postId content => (addComment db fl currentUserId postId content).1
  | Op.deleteComment postId commentId => (deleteComment db currentUserId postId commentId).1
  | Op.createPost content image_url => (createPost db currentUserId content image_url).1
  | Op.updatePost postId content => (updatePost db currentUserId postId content).1
  | Op.deletePost postId => (deletePost db currentUserId postId).1
  | Op.markRead notifId => (markRead db currentUserId notifId).1
  | Op.markAllRead => (markAllRead db currentUserId).1
  | Op.getThread otherUserId => (getThread db currentUserId otherUserId).1
  | Op.sendMessage reciever_id message => (sendMessage db currentUserId reciever_id message).1
  | Op.markMessagesRead otherUserId => (markMessagesRead db currentUserId otherUserId).1
  | Op.editMessage messageId message => (editMessage db currentUserId messageId message).1
  | Op.deleteMessage messageId => (deleteMessage db currentUserId messageId).1
  | Op.deleteThread otherUserId => (deleteThread db currentUserId otherUserId).1
  | Op.deleteAccount => (deleteAccount db currentUserId).1

/-- The uniqueness predicate of the toggle relations: at most one like row per
`(user, post)`, at most one follow row per ordered `(follower, followee)`, no follow row
from a user to themself. -/
def ToggleInvariant (db : Db) : Prop :=
  (db.likes.map (fun l => (l.user_id, l.post_id))).Nodup ∧
  (db.followers.map (fun f => (f.follower_id, f.following_id))).Nodup ∧
  ∀ f ∈ db.followers, f.follower_id ≠ f.following_id

instance (db : Db) : Decidable (ToggleInvariant db) := by
  unfold ToggleInvariant; infer_instance

/-! ## Two concurrent follow requests -/

/-- The part of the follow handler that comes after its `SELECT`: what it writes and
sends, given the rows the `SELECT` returned. -/
def followWrite (db : Db) (fl : Faults) (currentUserId target : Int) (rows : List Follower) :
    Db × Reply FollowBody :=
  match rows with
  | r :: _ =>
    if fl.relationWrite then (db, Reply.error 500 "Error toggling follow")
    else
      let db1 := deleteFollowById db r.id
      if fl.notificationWrite then (db1, Reply.error 500 "Error toggling follow")
      else (deleteFollowNotifications db1 currentUserId target, Reply.ok ⟨false⟩)
  | [] =>
    if fl.relationWrite then (db, Reply.error 500 "Error toggling follow")
    else
      let db1 := insertFollow db currentUserId target
      if fl.notificationWrite then (db1, Reply.error 500 "Error toggling follow")
      else (insertFollowNotification db1 target currentUserId, Reply.ok ⟨true⟩)

/-- Modelled from the spec: the schema is not among the sources. The unique index on
`followers (follower_id, following_id)` which the spec makes the authority: the store
rejects the `INSERT` of a pair that is already there. -/
def insertFollowRejected (db : Db) (followerId followingId : Int) : Bool :=
  isFollowing db followerId followingId

/-- Where one of the two requests stands: before its `SELECT`, between its `SELECT` and
its write (holding the rows it saw), or done (holding the reply it sent). -/
inductive Progress where
  | start
  | checked (rows : List Follower)
  | finished (reply : Reply FollowBody)
deriving DecidableEq, Repr

/-- One step of one request against the current store: the check step runs the `SELECT`,
the write step runs the rest of the handler on the rows the check saw, its `INSERT`
rejecting also when the unique index says so. A finished request does nothing. -/
def advance (db : Db) (fl : Faults) (currentUserId target : Int) : Progress → Db × Progress
  | Progress.start => (db, Progress.checked (selectFollow db currentUserId target))
  | Progress.checked rows =>
    let res := followWrite db
      ⟨fl.relationWrite || (rows.isEmpty && insertFollowRejected db currentUserId target),
        fl.notificationWrite⟩ currentUserId target rows
    (res.1, Progress.finished res.2)
  | Progress.finished reply => (db, Progress.finished reply)

/-- The store and the two requests in flight. -/
structure Race where
  db : Db
  first : Progress
  second : Progress
deriving DecidableEq, Repr

/-- The scheduler lets the first (`true`) or the second (`false`) request take its next
step. -/
def Race.move (s : Race) (fl1 fl2 : Faults) (currentUserId target : Int) (who : Bool) : Race :=
  if who then
    ⟨(advance s.db fl1 currentUserId target s.first).1,
      (advance s.db fl1 currentUserId target s.first).2, s.second⟩
  else
    ⟨(advance s.db fl2 currentUserId target s.second).1, s.first,
      (advance s.db fl2 currentUserId target s.second).2⟩

/-- Two requests `toggleFollow(currentUserId, target)` started on `db` and run under a
schedule. -/
def runRace (db : Db) (fl1 fl2 : Faults) (currentUserId target : Int) (schedule : List Bool) :
    Race :=
  schedule.foldl (fun s who => s.move fl1 fl2 currentUserId target who)
    ⟨db, Progress.start, Progress.start⟩

/-- The number of follow rows of an ordered pair. -/
def edgeCount (db : Db) (followerId followingId : Int) : Nat :=
  (selectFollow db followerId followingId).length

/-! ## Observations on conversations -/

/-- The rows a reply to the conversations request shows for one partner. -/
def rowsFor (reply : Reply (List ConversationRow)) (partner : Int) : List ConversationRow :=
  match reply with
  | Reply.ok rows => rows.filter (fun r => r.user_id = partner)
  | _ => []

/-- Time passes: the clock of the store moves on by `d` ticks. -/
def tick (db : Db) (d : Nat) : Db :=
  { db with clock := db.clock + d }

/-- The scenario: `a` sends "hello" to `b`, `d1` ticks later `b` sends "hi back" to `a`,
`d2` ticks later `a` sends "cool" to `b`. -/
def helloHiCool (db : Db) (a b : Int) (d1 d2 : Nat) : Db :=
  (sendMessage
    (tick (sendMessage (tick (sendMessage db a (some b) "hello").1 d1) b (some a) "hi back").1 d2)
    a (some b) "cool").1

/-- Modelled from the spec: the schema of table `messages` is not among the sources.
Its `id` is a primary key issued by `AUTO_INCREMENT`: no two rows share an id and every
issued id is below the counter. -/
def MessagesConstraint (db : Db) : Prop :=
  (db.messages.map (fun m => m.id)).Nodup ∧ ∀ m ∈ db.messages, m.id < db.messagesAuto

instance (db : Db) : Decidable (MessagesConstraint db) := by
  unfold MessagesConstraint; infer_instance

/-- How the message rows after a request of `u` relate to the rows before it: a row is
either the one just inserted (it takes the next id and is unread) or has the id of a row
that was there, with the same read flag or, when `u` is the recipient of that row, with
the flag set. -/
def MessageTrace (db after : Db) (u : Int) : Prop :=
  ∀ m2 ∈ after.messages,
    (m2.id = db.messagesAuto ∧ m2.is_read = false) ∨
      ∃ m ∈ db.messages, m2.id = m.id ∧
        (m2.is_read = m.is_read ∨ (m2.is_read = true ∧ m.reciever_id = u))

/-! ## The notification list -/

/-- One row of the notifications query: the columns of the notification and, from the
`LEFT JOIN`s, the actor (`a.id AS actor_id`, `a.username`), the post (`p.content`,
`p.image_url`) and the comment (`c.content`); a column of a missing join partner is `NULL`
(`none`). The profile columns of the actor that the model of `users` does not carry are
left out. -/
structure NotificationView where
  id : Int
  type : NotifType
  post_id : Option Int
  comment_id : Option Int
  is_read : Bool
  created_at : Nat
  actor_id : Option Int
  actor_username : Option String
  post_content : Option String
  post_image_url : Option String
  comment_content : Option String
deriving DecidableEq, Repr

/-- The partners a `LEFT JOIN` offers a row: the matching rows, or one `NULL` partner when
none matches. -/
def leftJoin {β : Type} (rows : List β) : List (Option β) :=
  match rows with
  | [] => [none]
  | _ :: _ => rows.map some

/-- The select list of the notifications query on one joined row. -/
def notificationView (n : Notification) (a : Option User) (p : Option Post) (c : Option Comment) :
    NotificationView :=
  { id := n.id
    type := n.type
    post_id := n.post_id
    comment_id := n.comment_id
    is_read := n.is_read
    created_at := n.created_at
    actor_id := a.map (fun x => x.id)
    actor_username := a.map (fun x => x.username)
    post_content := p.bind (fun x => x.content)
    post_image_url := p.bind (fun x => x.image_url)
    comment_content := c.map (fun x => x.content) }

/-- The joins of the notifications query under `WHERE n.user_id = ?`, before `ORDER BY`
and `LIMIT`. -/
def notificationJoin (db : Db) (userId : Int) : List NotificationView :=
  (db.notifications.filter (fun n => n.user_id = userId)).flatMap (fun n =>
    (leftJoin (db.users.filter (fun a => a.id = n.actor_id))).flatMap (fun a =>
      (leftJoin (db.posts.filter (fun p => some p.id = n.post_id))).flatMap (fun p =>
        (leftJoin (db.comments.filter (fun c => some c.id = n.comment_id))).map (fun c =>
          notificationView n a p c))))

/-- The handler of `GET /api/notifications`: the join `ORDER BY n.created_at DESC
LIMIT 100`. -/
def listNotifications (db : Db) (currentUserId : Int) : Reply (List NotificationView) :=
  Reply.ok (((notificationJoin db currentUserId).insertionSort
    (fun x y => x.created_at ≥ y.created_at)).take 100)

/-! ## The second follow handler -/

/-- The second handler registered for `POST /api/users/:userId/follow` (Express never
reaches it, the first one answers): the same guard, check and write of the follow row,
and no statement on `notifications`. -/
def toggleFollowSecond (db : Db) (fl : Faults) (currentUserId : Int)
    (targetUserId : Option Int) : Db × Reply FollowBody :=
  match targetUserId with
  | none => (db, Reply.error 400 "Invalid target user")
  | some target =>
    if target = 0 ∨ target = currentUserId then (db, Reply.error 400 "Invalid target user")
    else
      match selectFollow db currentUserId target with
      | r :: _ =>
        if fl.relationWrite then (db, Reply.error 500 "Error toggling follow")
        else (deleteFollowById db r.id, Reply.ok ⟨false⟩)
      | [] =>
        if fl.relationWrite then (db, Reply.error 500 "Error toggling follow")
        else (insertFollow db currentUserId target, Reply.ok ⟨true⟩)

/-! ## Content predicates and keys -/

/-- The predicate: every comment and every message of the store has a non-empty text
that equals its own trimmed form. -/
def TextsTrimmed (db : Db) : Prop :=
  (∀ c ∈ db.comments, c.content ≠ "" ∧ trim c.content = c.content) ∧
  (∀ m ∈ db.messages, m.message ≠ "" ∧ trim m.message = m.message)

instance (db : Db) : Decidable (TextsTrimmed db) := by
  unfold TextsTrimmed; infer_instance

/-- A post row has a non-empty text or a non-empty image. -/
def hasContent (p : Post) : Bool :=
  (p.content ≠ none ∧ p.content ≠ some "") ∨ (p.image_url ≠ none ∧ p.image_url ≠ some "")

/-- The predicate: every post of the store has a non-empty text or a non-empty image. -/
def PostsHaveContent (db : Db) : Prop :=
  ∀ p ∈ db.posts, hasContent p = true

instance (db : Db) : Decidable (PostsHaveContent db) := by
  unfold PostsHaveContent; infer_instance

/-- Modelled from the spec: the schema is not among the sources. The `id` columns of
`users`, `posts` and `comments` are primary keys: no two rows of a table share an id. -/
def JoinKeys (db : Db) : Prop :=
  (db.users.map (fun u => u.id)).Nodup ∧
  (db.posts.map (fun p => p.id)).Nodup ∧
  (db.comments.map (fun c => c.id)).Nodup

instance (db : Db) : Decidable (JoinKeys db) := by
  unfold JoinKeys; infer_instance

/-- Modelled from the spec: the schema is not among the sources. The `id` of `comments`
is issued by `AUTO_INCREMENT`: every issued id is below the counter. -/
def CommentsConstraint (db : Db) : Prop :=
  ∀ c ∈ db.comments, c.id < db.commentsAuto

instance (db : Db) : Decidable (CommentsConstraint db) := by
  unfold CommentsConstraint; infer_instance

/-- What the notifications query shows of one notification when the ids of the joined
tables are keys: the notification with the first (and only) matching actor, post and
comment, if any. -/
def enrich (db : Db) (n : Notification) : NotificationView :=
  notificationView n
    (db.users.filter (fun a => a.id = n.actor_id)).head?
    (db.posts.filter (fun p => some p.id = n.post_id)).head?
    (db.comments.filter (fun c => some c.id = n.comment_id)).head?

/-! ## Sample stores -/

/-- Users 1 and 2, post 10 by user 2, nothing else. -/
def db0 : Db :=
  { users := [⟨1, "u1"⟩, ⟨2, "u2"⟩]
    posts := [⟨10, 2, some "first post", none, 0⟩]
    likes := []
    followers := []
    notifications := []
    likesAuto := 1
    followersAuto := 1
    notificationsAuto := 1
    clock := 0 }

/-- Users 1, 2, 3; posts 10 (by 2) and 11 (by 1); likes and a follow edge with their
notifications. -/
def db1 : Db :=
  { users := [⟨1, "u1"⟩, ⟨2, "u2"⟩, ⟨3, "u3"⟩]
    posts := [⟨10, 2, some "first post", none, 1⟩, ⟨11, 1, none, some "/img/a.png", 2⟩]
    likes := [⟨1, 1, 10⟩, ⟨2, 3, 10⟩, ⟨3, 3, 11⟩]
    followers := [⟨1, 1, 2⟩, ⟨2, 3, 2⟩]
    notifications :=
      [⟨1, 2, 1, NotifType.like, some 10, none, false, 5⟩,
       ⟨2, 2, 3, NotifType.like, some 10, none, true, 6⟩,
       ⟨3, 1, 3, NotifType.like, some 11, none, false, 7⟩,
       ⟨4, 2, 1, NotifType.follow, none, none, false, 8⟩,
       ⟨5, 2, 3, NotifType.follow, none, none, false, 9⟩,
       ⟨6, 2, 1, NotifType.comment, some 10, some 1, false, 9⟩]
    likesAuto := 4
    followersAuto := 3
    notificationsAuto := 7
    clock := 20 }

/-- Users 1, 2, 3 with a message log: a thread between 1 and 2 and a thread between
1 and 3; the two messages of the first thread that carry time 5 were sent within one tick
of the clock. -/
def db2 : Db :=
  { users := [⟨1, "u1"⟩, ⟨2, "u2"⟩, ⟨3, "u3"⟩]
    posts := [⟨10, 2, some "first post", none, 1⟩]
    likes := []
    followers := []
    notifications := []
    likesAuto := 1
    followersAuto := 1
    notificationsAuto := 1
    clock := 9
    comments := [⟨1, 1, 10, "nice", 3⟩]
    messages :=
      [⟨1, 1, 2, "hello", true, 4⟩,
       ⟨2, 2, 1, "hi back", false, 5⟩,
       ⟨3, 1, 2, "cool", false, 5⟩,
       ⟨4, 3, 1, "ping", false, 7⟩]
    postsAuto := 11
    commentsAuto := 2
    messagesAuto := 5 }

/-- Users 1 and 2, post 10 by user 2 with comment 1 by user 1, and the notifications of
user 2: one for a like of a post that is gone, one by an actor who is gone, one for the
comment. -/
def db3 : Db :=
  { users := [⟨1, "u1"⟩, ⟨2, "u2"⟩]
    posts := [⟨10, 2, some "first post", none, 1⟩]
    likes := []
    followers := []
    notifications :=
      [⟨1, 2, 1, NotifType.like, some 9, none, false, 2⟩,
       ⟨2, 2, 7, NotifType.follow, none, none, true, 3⟩,
       ⟨3, 2, 1, NotifType.comment, some 10, some 1, false, 4⟩,
       ⟨4, 1, 2, NotifType.follow, none, none, false, 5⟩]
    likesAuto := 1
    followersAuto := 1
    notificationsAuto := 5
    clock := 9
    comments := [⟨1, 1, 10, "nice", 4⟩]
    messages := []
    postsAuto := 11
    commentsAuto := 2
    messagesAuto := 1 }

/-! ## List lemmas -/

theorem filter_key_ne_self {α : Type} (key : α → Int) (k : Int) (l : List α)
    (h : ∀ x ∈ l, key x ≠ k) : l.filter (fun x => decide (key x ≠ k)) = l := by
  rw [List.filter_eq_self]
  intro x hx
  simpa using h x hx

theorem length_filter_drop_key {α : Type} (key : α → Int) (q : α → Bool) (r : α) :
    ∀ l : List α, (l.map key).Nodup → r ∈ l → q r = true →
      ((l.filter (fun x => decide (key x ≠ key r))).filter q).length + 1
        = (l.filter q).length := by
  intro l
  induction l with
  | nil => intro _ hr; simp at hr
  | cons a l ih =>
    intro hnd hr hq
    rw [List.map_cons, List.nodup_cons] at hnd
    obtain ⟨ha, hnd⟩ := hnd
    rcases List.mem_cons.mp hr with rfl | hr
    · have hself : l.filter (fun x => decide (key x ≠ key r)) = l := by
        apply filter_key_ne_self
        intro x hx hxr
        exact ha (hxr ▸ List.mem_map_of_mem key hx)
      have hP : ¬ (decide (key r ≠ key r) = true) := by simp
      rw [@List.filter_cons_of_neg α (fun x => decide (key x ≠ key r)) r l hP, hself,
        List.filter_cons_of_pos hq, List.length_cons]
    · have hne : key a ≠ key r := by
        intro h
        exact ha (h ▸ List.mem_map_of_mem key hr)
      have hrec := ih hnd hr hq
      have hP : decide (key a ≠ key r) = true := by simpa using hne
      rw [@List.filter_cons_of_pos α (fun x => decide (key x ≠ key r)) a l hP]
      by_cases hqa : q a = true
      · rw [List.filter_cons_of_pos hqa, List.filter_cons_of_pos hqa, List.length_cons,
          List.length_cons, hrec]
      · rw [List.filter_cons_of_neg hqa, List.filter_cons_of_neg hqa, hrec]

/-! ## Unfolding the like handler -/

theorem exists_selectPost (db : Db) (pid : Int) (h : postExists db pid = true) :
    ∃ post ps, selectPost db pid = post :: ps := by
  unfold postExists at h
  rw [List.any_eq_true] at h
  obtain ⟨p, hp, hpid⟩ := h
  have hmem : p ∈ selectPost db pid := by
    unfold selectPost
    rw [List.mem_filter]
    exact ⟨hp, hpid⟩
  cases hs : selectPost db pid with
  | nil => rw [hs] at hmem; simp at hmem
  | cons post ps => exact ⟨post, ps, rfl⟩

theorem countLikes_insertLike (db : Db) (u pid : Int) :
    countLikes (insertLike db u pid) pid = countLikes db pid + 1 := by
  simp [countLikes, insertLike, List.filter_append]

theorem toggleLike_like (db : Db) (u pid : Int) (post : Post) (ps : List Post) (nf : Bool)
    (hpid : pid ≠ 0) (hp : selectPost db pid = post :: ps)
    (hl : selectLike db u pid = []) :
    toggleLike db ⟨false, nf⟩ u (some pid) =
      (if nf then insertLike db u pid
        else insertLikeNotification (insertLike db u pid) post.user_id u pid,
       Reply.ok ⟨true, countLikes db pid + 1⟩) := by
  unfold toggleLike
  simp only [hpid, if_false, hp, hl]
  cases nf
  · simp [countLikes, insertLike, insertLikeNotification, List.filter_append]
  · simp [countLikes, insertLike, List.filter_append]

theorem toggleLike_unlike (db : Db) (u pid : Int) (post : Post) (ps : List Post)
    (r : Like) (rs : List Like) (nf : Bool)
    (hpid : pid ≠ 0) (hp : selectPost db pid = post :: ps)
    (hl : selectLike db u pid = r :: rs) :
    toggleLike db ⟨false, nf⟩ u (some pid) =
      (if nf then deleteLikeById db r.id
        else deleteLikeNotifications (deleteLikeById db r.id) u pid,
       Reply.ok ⟨false, countLikes (deleteLikeById db r.id) pid⟩) := by
  unfold toggleLike
  simp only [hpid, if_false, hp, hl]
  cases nf
  · simp [countLikes, deleteLikeNotifications]
  · simp

theorem isLiked_iff (db : Db) (u p : Int) :
    isLiked db u p = true ↔ ∃ l ∈ db.likes, l.user_id = u ∧ l.post_id = p := by
  simp [isLiked, List.any_eq_true]

theorem selectLike_nil_iff (db : Db) (u p : Int) :
    selectLike db u p = [] ↔ isLiked db u p = false := by
  rw [← Bool.not_eq_true, isLiked_iff]
  simp [selectLike, List.filter_eq_nil_iff]

theorem selectLike_head (db : Db) (u p : Int) (r : Like) (rs : List Like)
    (h : selectLike db u p = r :: rs) : r ∈ db.likes ∧ r.user_id = u ∧ r.post_id = p := by
  have hmem : r ∈ selectLike db u p := by rw [h]; simp
  simpa [selectLike, List.mem_filter] using hmem

/-- Unlike first, like second: the four facts of the double toggle. -/
theorem toggleLike_twice_of_liked (db : Db) (u pid : Int) (post : Post) (ps : List Post)
    (r : Like) (rs : List Like) (hpid : pid ≠ 0) (hp : selectPost db pid = post :: ps)
    (hl : selectLike db u pid = r :: rs) (hc : LikesConstraint db) :
    isLiked (toggleLike (toggleLike db noFaults u (some pid)).1 noFaults u (some pid)).1 u pid
        = isLiked db u pid ∧
      (toggleLike (toggleLike db noFaults u (some pid)).1 noFaults u (some pid)).2
        = Reply.ok ⟨isLiked db u pid, countLikes db pid⟩ ∧
      isLiked (toggleLike db noFaults u (some pid)).1 u pid = !isLiked db u pid ∧
      ∀ u2 p2 : Int, (u2, p2) ≠ (u, pid) →
        isLiked (toggleLike db noFaults u (some pid)).1 u2 p2 = isLiked db u2 p2 := by
  obtain ⟨hid, _, hpair⟩ := hc
  obtain ⟨hr, hru, hrp⟩ := selectLike_head db u pid r rs hl
  have injId := List.inj_on_of_nodup_map hid
  have injPair := List.inj_on_of_nodup_map hpair
  have hliked : isLiked db u pid = true := (isLiked_iff db u pid).mpr ⟨r, hr, hru, hrp⟩
  have h1 : toggleLike db noFaults u (some pid)
      = (deleteLikeNotifications (deleteLikeById db r.id) u pid,
         Reply.ok ⟨false, countLikes (deleteLikeById db r.id) pid⟩) :=
    toggleLike_unlike db u pid post ps r rs false hpid hp hl
  have hmem1 : ∀ x, x ∈ (deleteLikeNotifications (deleteLikeById db r.id) u pid).likes ↔
      x ∈ db.likes ∧ x.id ≠ r.id := by
    intro x
    simp [deleteLikeNotifications, deleteLikeById, List.mem_filter]
  have hsel1 : selectLike (deleteLikeNotifications (deleteLikeById db r.id) u pid) u pid = [] := by
    rw [selectLike_nil_iff, ← Bool.not_eq_true, isLiked_iff]
    rintro ⟨x, hx, hxu, hxp⟩
    obtain ⟨hxl, hxid⟩ := (hmem1 x).mp hx
    have hxr : x = r := injPair hxl hr (by simp [hxu, hxp, hru, hrp])
    exact hxid (by rw [hxr])
  have hcount : countLikes (deleteLikeNotifications (deleteLikeById db r.id) u pid) pid + 1
      = countLikes db pid :=
    length_filter_drop_key (fun l : Like => l.id) (fun l => decide (l.post_id = pid)) r
      db.likes hid hr (by simp [hrp])
  have h2 : toggleLike (deleteLikeNotifications (deleteLikeById db r.id) u pid) noFaults u
      (some pid)
      = (insertLikeNotification
          (insertLike (deleteLikeNotifications (deleteLikeById db r.id) u pid) u pid)
          post.user_id u pid,
         Reply.ok ⟨true, countLikes (deleteLikeNotifications (deleteLikeById db r.id) u pid) pid
           + 1⟩) :=
    toggleLike_like _ u pid post ps false hpid hp hsel1
  rw [h1]
  simp only [h2, hcount, hliked]
  refine ⟨?_, trivial, ?_, ?_⟩
  · rw [isLiked_iff]
    exact ⟨⟨db.likesAuto, u, pid⟩,
      by simp [insertLikeNotification, insertLike, deleteLikeNotifications, deleteLikeById],
      rfl, rfl⟩
  · rw [Bool.not_true, ← selectLike_nil_iff]
    exact hsel1
  · intro u2 p2 hne
    rw [Bool.eq_iff_iff, isLiked_iff, isLiked_iff]
    constructor
    · rintro ⟨x, hx, hxu, hxp⟩
      exact ⟨x, ((hmem1 x).mp hx).1, hxu, hxp⟩
    · rintro ⟨x, hx, hxu, hxp⟩
      refine ⟨x, (hmem1 x).mpr ⟨hx, ?_⟩, hxu, hxp⟩
      intro hxid
      have hxr : x = r := injId hx hr hxid
      apply hne
      rw [← hxu, ← hxp, hxr, hru, hrp]

/-- Like first, unlike second: the four facts of the double toggle. -/
theorem toggleLike_twice_of_not_liked (db : Db) (u pid : Int) (post : Post) (ps : List Post)
    (hpid : pid ≠ 0) (hp : selectPost db pid = post :: ps)
    (hl : selectLike db u pid = []) (hc : LikesConstraint db) :
    isLiked (toggleLike (toggleLike db noFaults u (some pid)).1 noFaults u (some pid)).1 u pid
        = isLiked db u pid ∧
      (toggleLike (toggleLike db noFaults u (some pid)).1 noFaults u (some pid)).2
        = Reply.ok ⟨isLiked db u pid, countLikes db pid⟩ ∧
      isLiked (toggleLike db noFaults u (some pid)).1 u pid = !isLiked db u pid ∧
      ∀ u2 p2 : Int, (u2, p2) ≠ (u, pid) →
        isLiked (toggleLike db noFaults u (some pid)).1 u2 p2 = isLiked db u2 p2 := by
  obtain ⟨_, hlt, _⟩ := hc
  have hnot : isLiked db u pid = false := (selectLike_nil_iff db u pid).mp hl
  have h1 : toggleLike db noFaults u (some pid)
      = (insertLikeNotification (insertLike db u pid) post.user_id u pid,
         Reply.ok ⟨true, countLikes db pid + 1⟩) :=
    toggleLike_like db u pid post ps false hpid hp hl
  have hlikes1 : (insertLikeNotification (insertLike db u pid) post.user_id u pid).likes
      = db.likes ++ [⟨db.likesAuto, u, pid⟩] := rfl
  have hsel1 : selectLike (insertLikeNotification (insertLike db u pid) post.user_id u pid) u pid
      = [⟨db.likesAuto, u, pid⟩] := by
    have hl0 : db.likes.filter (fun l => decide (l.user_id = u ∧ l.post_id = pid)) = [] := hl
    unfold selectLike
    rw [hlikes1, List.filter_append, hl0]
    simp
  have hfresh : db.likes.filter (fun l => decide (l.id ≠ db.likesAuto)) = db.likes :=
    filter_key_ne_self (fun l : Like => l.id) db.likesAuto db.likes
      (fun x hx => ne_of_lt (hlt x hx))
  have hback : (deleteLikeById
      (insertLikeNotification (insertLike db u pid) post.user_id u pid) db.likesAuto).likes
      = db.likes := by
    unfold deleteLikeById
    simp only [hlikes1]
    rw [List.filter_append, hfresh]
    simp
  have h2 := toggleLike_unlike
    (insertLikeNotification (insertLike db u pid) post.user_id u pid) u pid post ps
    ⟨db.likesAuto, u, pid⟩ [] false hpid hp hsel1
  have hcount : countLikes (deleteLikeById
      (insertLikeNotification (insertLike db u pid) post.user_id u pid) db.likesAuto) pid
      = countLikes db pid := by
    unfold countLikes
    rw [hback]
  rw [h1]
  refine ⟨?_, ?_, ?_, ?_⟩
  · have h2db := congrArg Prod.fst h2
    simp only [noFaults] at h2db ⊢
    rw [h2db, Bool.eq_iff_iff, isLiked_iff, isLiked_iff]
    have hl2 : (deleteLikeNotifications (deleteLikeById
        (insertLikeNotification (insertLike db u pid) post.user_id u pid) db.likesAuto)
        u pid).likes = db.likes := hback
    simp only [Bool.false_eq_true, if_false, hl2]
  · have h2r := congrArg Prod.snd h2
    simp only [noFaults] at h2r ⊢
    rw [h2r, hcount, hnot]
  · rw [hnot, Bool.not_false, isLiked_iff]
    exact ⟨⟨db.likesAuto, u, pid⟩, by simp [hlikes1], rfl, rfl⟩
  · intro u2 p2 hne
    rw [Bool.eq_iff_iff, isLiked_iff, isLiked_iff]
    simp only [hlikes1, List.mem_append, List.mem_singleton]
    constructor
    · rintro ⟨x, hx | hx, hxu, hxp⟩
      · exact ⟨x, hx, hxu, hxp⟩
      · exfalso
        apply hne
        rw [← hxu, ← hxp, hx]
    · rintro ⟨x, hx, hxu, hxp⟩
      exact ⟨x, Or.inl hx, hxu, hxp⟩

/-! ## The like toggle -/

/-- C1: on a store that satisfies the constraints of table likes, for a user u and an
existing post pid, two toggleLike calls in sequence restore the liked status of (u, pid)
and the second call reports the original liked status and the like count the post had
before the first call; one call flips the liked status of (u, pid) and of no other pair. -/
theorem toggleLike_twice_restores (db : Db) (u pid : Int) (hpid : pid ≠ 0)
    (hpost : postExists db pid = true) (hc : LikesConstraint db) :
    isLiked (toggleLike (toggleLike db noFaults u (some pid)).1 noFaults u (some pid)).1 u pid
        = isLiked db u pid ∧
      (toggleLike (toggleLike db noFaults u (some pid)).1 noFaults u (some pid)).2
        = Reply.ok ⟨isLiked db u pid, countLikes db pid⟩ ∧
      isLiked (toggleLike db noFaults u (some pid)).1 u pid = !isLiked db u pid ∧
      ∀ u2 p2 : Int, (u2, p2) ≠ (u, pid) →
        isLiked (toggleLike db noFaults u (some pid)).1 u2 p2 = isLiked db u2 p2 := by
  obtain ⟨post, ps, hp⟩ := exists_selectPost db pid hpost
  cases hl : selectLike db u pid with
  | nil => exact toggleLike_twice_of_not_liked db u pid post ps hpid hp hl hc
  | cons r rs => exact toggleLike_twice_of_liked db u pid post ps r rs hpid hp hl hc

theorem toggleLike_twice_restores_witness :
    ((10 : Int) ≠ 0 ∧ postExists db1 10 = true ∧ LikesConstraint db1) ∧
      (isLiked (toggleLike (toggleLike db1 noFaults 1 (some 10)).1 noFaults 1 (some 10)).1 1 10
          = isLiked db1 1 10 ∧
        (toggleLike (toggleLike db1 noFaults 1 (some 10)).1 noFaults 1 (some 10)).2
          = Reply.ok ⟨isLiked db1 1 10, countLikes db1 10⟩ ∧
        isLiked (toggleLike db1 noFaults 1 (some 10)).1 1 10 = !isLiked db1 1 10 ∧
        ∀ u2 p2 : Int, (u2, p2) ≠ (1, 10) →
          isLiked (toggleLike db1 noFaults 1 (some 10)).1 u2 p2 = isLiked db1 u2 p2) :=
  ⟨⟨by decide, by decide, by decide⟩,
    toggleLike_twice_restores db1 1 10 (by decide) (by decide) (by decide)⟩

/-- When the post exists and the write to likes resolves, the reply is a success that
carries the flipped status and the count taken from the store the handler leaves. -/
theorem toggleLike_reply_ok (db : Db) (u pid : Int) (nf : Bool) (hpid : pid ≠ 0)
    (hpost : postExists db pid = true) :
    (toggleLike db ⟨false, nf⟩ u (some pid)).2
      = Reply.ok ⟨!isLiked db u pid, countLikes (toggleLike db ⟨false, nf⟩ u (some pid)).1 pid⟩ := by
  obtain ⟨post, ps, hp⟩ := exists_selectPost db pid hpost
  cases hl : selectLike db u pid with
  | nil =>
    have hnot : isLiked db u pid = false := (selectLike_nil_iff db u pid).mp hl
    rw [toggleLike_like db u pid post ps nf hpid hp hl, hnot]
    cases nf
    · simp [countLikes, insertLike, insertLikeNotification, List.filter_append]
    · simp [countLikes, insertLike, List.filter_append]
  | cons r rs =>
    obtain ⟨hr, hru, hrp⟩ := selectLike_head db u pid r rs hl
    have hliked : isLiked db u pid = true := (isLiked_iff db u pid).mpr ⟨r, hr, hru, hrp⟩
    rw [toggleLike_unlike db u pid post ps r rs nf hpid hp hl, hliked]
    cases nf
    · simp [countLikes, deleteLikeNotifications]
    · simp

/-- The count the handler reads after its write: one more than before on a like and, the
ids of table likes being a key, one less on an unlike. -/
theorem toggleLike_count_step (db : Db) (u pid : Int) (hpid : pid ≠ 0)
    (hpost : postExists db pid = true) :
    (toggleLike db noFaults u (some pid)).2
        = Reply.ok ⟨!isLiked db u pid, countLikes (toggleLike db noFaults u (some pid)).1 pid⟩ ∧
      (isLiked db u pid = false →
        countLikes (toggleLike db noFaults u (some pid)).1 pid = countLikes db pid + 1) ∧
      (isLiked db u pid = true → (db.likes.map (fun l => l.id)).Nodup →
        countLikes (toggleLike db noFaults u (some pid)).1 pid + 1 = countLikes db pid) := by
  refine ⟨toggleLike_reply_ok db u pid false hpid hpost, ?_, ?_⟩
  · intro hnot
    obtain ⟨post, ps, hp⟩ := exists_selectPost db pid hpost
    have hl : selectLike db u pid = [] := (selectLike_nil_iff db u pid).mpr hnot
    have h1 : toggleLike db noFaults u (some pid) = _ :=
      toggleLike_like db u pid post ps false hpid hp hl
    rw [h1]
    exact countLikes_insertLike db u pid
  · intro hliked hid
    obtain ⟨post, ps, hp⟩ := exists_selectPost db pid hpost
    cases hl : selectLike db u pid with
    | nil =>
      rw [(selectLike_nil_iff db u pid).mp hl] at hliked
      exact absurd hliked (by decide)
    | cons r rs =>
      obtain ⟨hr, _, hrp⟩ := selectLike_head db u pid r rs hl
      have h1 : toggleLike db noFaults u (some pid) = _ :=
        toggleLike_unlike db u pid post ps r rs false hpid hp hl
      rw [h1]
      exact length_filter_drop_key (fun l : Like => l.id) (fun l => decide (l.post_id = pid)) r
        db.likes hid hr (by simp [hrp])

/-- C2: for an existing post pid, toggleLike answers 200 with liked = true exactly when
no Like(u, pid) row existed before the call, and with a likeCount that is the number of
rows of table likes on post pid in the store the call leaves: the number of such rows
before the call plus one on a like and, the ids of table likes being a key, that number
minus one on an unlike. -/
theorem toggleLike_reply_counts (db : Db) (u pid : Int) (hpid : pid ≠ 0)
    (hpost : ∃ p ∈ db.posts, p.id = pid) :
    ∃ liked count, (toggleLike db noFaults u (some pid)).2 = Reply.ok ⟨liked, count⟩ ∧
      (liked = true ↔ ¬ ∃ l ∈ db.likes, l.user_id = u ∧ l.post_id = pid) ∧
      count = ((toggleLike db noFaults u (some pid)).1.likes.filter
          (fun l => decide (l.post_id = pid))).length ∧
      ((¬ ∃ l ∈ db.likes, l.user_id = u ∧ l.post_id = pid) →
        count = (db.likes.filter (fun l => decide (l.post_id = pid))).length + 1) ∧
      ((∃ l ∈ db.likes, l.user_id = u ∧ l.post_id = pid) →
        (db.likes.map (fun l => l.id)).Nodup →
        count + 1 = (db.likes.filter (fun l => decide (l.post_id = pid))).length) := by
  have hex : postExists db pid = true := by
    unfold postExists
    rw [List.any_eq_true]
    obtain ⟨p, hp, hid⟩ := hpost
    exact ⟨p, hp, by simpa using hid⟩
  obtain ⟨hreply, hup, hdown⟩ := toggleLike_count_step db u pid hpid hex
  refine ⟨!isLiked db u pid, countLikes (toggleLike db noFaults u (some pid)).1 pid, hreply,
    ?_, rfl, ?_, ?_⟩
  · rw [← isLiked_iff db u pid]
    cases isLiked db u pid <;> simp
  · intro hnone
    rw [← isLiked_iff db u pid, Bool.not_eq_true] at hnone
    exact hup hnone
  · intro hsome hkey
    rw [← isLiked_iff db u pid] at hsome
    exact hdown hsome hkey

theorem toggleLike_reply_counts_witness :
    ((10 : Int) ≠ 0 ∧ ∃ p ∈ db1.posts, p.id = 10) ∧
      (toggleLike db1 noFaults 2 (some 10)).2 = Reply.ok ⟨true, 3⟩ ∧
      (toggleLike db1 noFaults 3 (some 10)).2 = Reply.ok ⟨false, 1⟩ ∧
      ∃ liked count, (toggleLike db1 noFaults 2 (some 10)).2 = Reply.ok ⟨liked, count⟩ ∧
        (liked = true ↔ ¬ ∃ l ∈ db1.likes, l.user_id = 2 ∧ l.post_id = 10) ∧
        count = ((toggleLike db1 noFaults 2 (some 10)).1.likes.filter
            (fun l => decide (l.post_id = 10))).length ∧
        ((¬ ∃ l ∈ db1.likes, l.user_id = 2 ∧ l.post_id = 10) →
          count = (db1.likes.filter (fun l => decide (l.post_id = 10))).length + 1) ∧
        ((∃ l ∈ db1.likes, l.user_id = 2 ∧ l.post_id = 10) →
          (db1.likes.map (fun l => l.id)).Nodup →
          count + 1 = (db1.likes.filter (fun l => decide (l.post_id = 10))).length) :=
  ⟨⟨by decide, by decide⟩, by decide, by decide,
    toggleLike_reply_counts db1 2 10 (by decide) (by decide)⟩

/-- C3: when the store returns the row post for pid and no Like(u, pid) exists, toggleLike
appends the row Like(u, pid) and appends exactly one notification, owned by the author of
the post, with actor u, kind like, post pid and read = false; every earlier notification
stays as it was. Nothing in the statement asks u to differ from the author. -/
theorem toggleLike_like_notifies (db : Db) (u pid : Int) (post : Post) (hpid : pid ≠ 0)
    (hp : (selectPost db pid).head? = some post) (hl : isLiked db u pid = false) :
    (toggleLike db noFaults u (some pid)).1.likes = db.likes ++ [⟨db.likesAuto, u, pid⟩] ∧
      (toggleLike db noFaults u (some pid)).1.notifications
        = db.notifications ++
          [⟨db.notificationsAuto, post.user_id, u, NotifType.like, some pid, none, false,
            db.clock⟩] ∧
      (toggleLike db noFaults u (some pid)).2 = Reply.ok ⟨true, countLikes db pid + 1⟩ := by
  have hsel : selectLike db u pid = [] := (selectLike_nil_iff db u pid).mpr hl
  cases hps : selectPost db pid with
  | nil => rw [hps] at hp; simp at hp
  | cons p0 ps =>
    rw [hps] at hp
    have hp0 : p0 = post := by simpa using hp
    subst hp0
    have h1 : toggleLike db noFaults u (some pid) = _ :=
      toggleLike_like db u pid p0 ps false hpid hps hsel
    rw [h1]
    exact ⟨rfl, rfl, rfl⟩

theorem toggleLike_like_notifies_witness :
    ((10 : Int) ≠ 0 ∧ (selectPost db1 10).head? = some ⟨10, 2, some "first post", none, 1⟩ ∧ isLiked db1 2 10 = false) ∧
      ((toggleLike db1 noFaults 2 (some 10)).1.likes = db1.likes ++ [⟨db1.likesAuto, 2, 10⟩] ∧
        (toggleLike db1 noFaults 2 (some 10)).1.notifications
          = db1.notifications ++
            [⟨db1.notificationsAuto, 2, 2, NotifType.like, some 10, none, false, db1.clock⟩] ∧
        (toggleLike db1 noFaults 2 (some 10)).2 = Reply.ok ⟨true, countLikes db1 10 + 1⟩) :=
  ⟨⟨by decide, by decide, by decide⟩,
    toggleLike_like_notifies db1 2 10 ⟨10, 2, some "first post", none, 1⟩ (by decide) (by decide)
      (by decide)⟩

/-- C4: when Like(u, pid) exists on an existing post, the unlike leaves no notification of
kind like with actor u and post pid, keeps every notification that has another actor,
another post or another kind, and the notifications it leaves are a sublist of the ones
before (none added, none altered, order kept). -/
theorem toggleLike_unlike_notifications (db : Db) (u pid : Int) (hpid : pid ≠ 0)
    (hpost : postExists db pid = true) (hl : isLiked db u pid = true) :
    (∀ n ∈ (toggleLike db noFaults u (some pid)).1.notifications,
        ¬ (n.type = NotifType.like ∧ n.actor_id = u ∧ n.post_id = some pid)) ∧
      (∀ n ∈ db.notifications,
        (n.actor_id ≠ u ∨ n.post_id ≠ some pid ∨ n.type ≠ NotifType.like) →
          n ∈ (toggleLike db noFaults u (some pid)).1.notifications) ∧
      List.Sublist (toggleLike db noFaults u (some pid)).1.notifications db.notifications := by
  obtain ⟨post, ps, hp⟩ := exists_selectPost db pid hpost
  cases hsel : selectLike db u pid with
  | nil =>
    rw [(selectLike_nil_iff db u pid).mp hsel] at hl
    exact absurd hl (by decide)
  | cons r rs =>
    have h1 : toggleLike db noFaults u (some pid) = _ :=
      toggleLike_unlike db u pid post ps r rs false hpid hp hsel
    rw [h1]
    have hn : (deleteLikeNotifications (deleteLikeById db r.id) u pid).notifications
        = db.notifications.filter (fun n =>
            decide (¬ (n.type = NotifType.like ∧ n.actor_id = u ∧ n.post_id = some pid))) := rfl
    simp only [Bool.false_eq_true, if_false, hn]
    refine ⟨?_, ?_, List.filter_sublist _⟩
    · intro n hmem
      have hkeep := (List.mem_filter.mp hmem).2
      rw [decide_eq_true_eq] at hkeep
      exact hkeep
    · intro n hmem hother
      refine List.mem_filter.mpr ⟨hmem, ?_⟩
      rw [decide_eq_true_eq]
      rintro ⟨ht, ha, hq⟩
      rcases hother with h | h | h
      · exact h ha
      · exact h hq
      · exact h ht

theorem toggleLike_unlike_notifications_witness :
    ((10 : Int) ≠ 0 ∧ postExists db1 10 = true ∧ isLiked db1 1 10 = true) ∧
      ((∀ n ∈ (toggleLike db1 noFaults 1 (some 10)).1.notifications,
          ¬ (n.type = NotifType.like ∧ n.actor_id = 1 ∧ n.post_id = some 10)) ∧
        (∀ n ∈ db1.notifications,
          (n.actor_id ≠ 1 ∨ n.post_id ≠ some 10 ∨ n.type ≠ NotifType.like) →
            n ∈ (toggleLike db1 noFaults 1 (some 10)).1.notifications) ∧
        List.Sublist (toggleLike db1 noFaults 1 (some 10)).1.notifications db1.notifications) :=
  ⟨⟨by decide, by decide, by decide⟩,
    toggleLike_unlike_notifications db1 1 10 (by decide) (by decide) (by decide)⟩

/-- C5, the claim as stated fails: post id 0 references no post of the store, and the
handler answers 400 (invalid post id), not 404. -/
theorem toggleLike_post_zero_not_404 :
    postExists db0 0 = false ∧
      (toggleLike db0 noFaults 1 (some 0)).2 = Reply.error 400 "Invalid post id" ∧
      (toggleLike db0 noFaults 1 (some 0)).2.status ≠ 404 := by
  decide

/-- C5, amended: when pid references no post, toggleLike leaves the whole store as it was
(so no like row and no notification is created), whatever writes would reject; it answers
404 (post not found) when pid is not 0 and 400 (invalid post id) when pid is 0. -/
theorem toggleLike_missing_post (db : Db) (fl : Faults) (u pid : Int)
    (hmiss : postExists db pid = false) :
    (toggleLike db fl u (some pid)).1 = db ∧
      (pid ≠ 0 → (toggleLike db fl u (some pid)).2 = Reply.error 404 "Post not found") ∧
      (pid = 0 → (toggleLike db fl u (some pid)).2 = Reply.error 400 "Invalid post id") := by
  have hsel : selectPost db pid = [] := by
    unfold selectPost
    rw [List.filter_eq_nil_iff]
    intro p hp hpid
    have : postExists db pid = true := by
      unfold postExists
      rw [List.any_eq_true]
      exact ⟨p, hp, hpid⟩
    rw [hmiss] at this
    exact absurd this (by decide)
  by_cases hpid : pid = 0
  · simp [toggleLike, hpid]
  · simp [toggleLike, hpid, hsel]

theorem toggleLike_missing_post_witness :
    postExists db1 12 = false ∧
      ((toggleLike db1 noFaults 1 (some 12)).1 = db1 ∧
        ((12 : Int) ≠ 0 →
          (toggleLike db1 noFaults 1 (some 12)).2 = Reply.error 404 "Post not found") ∧
        ((12 : Int) = 0 →
          (toggleLike db1 noFaults 1 (some 12)).2 = Reply.error 400 "Invalid post id")) :=
  ⟨by decide, toggleLike_missing_post db1 noFaults 1 12 (by decide)⟩

/-- C6: for an existing post, the run in which the notification write rejects sends the
same reply and leaves the same like rows as the run in which it resolves, whether or not
the write to likes rejects; and when only the notification write rejects, the reply is a
success (status 200). -/
theorem toggleLike_notification_fault (db : Db) (u pid : Int) (rf : Bool) (hpid : pid ≠ 0)
    (hpost : postExists db pid = true) :
    (toggleLike db ⟨rf, true⟩ u (some pid)).2 = (toggleLike db ⟨rf, false⟩ u (some pid)).2 ∧
      (toggleLike db ⟨rf, true⟩ u (some pid)).1.likes
        = (toggleLike db ⟨rf, false⟩ u (some pid)).1.likes ∧
      (toggleLike db ⟨false, true⟩ u (some pid)).2.status = 200 := by
  obtain ⟨post, ps, hp⟩ := exists_selectPost db pid hpost
  refine ⟨?_, ?_, ?_⟩
  · unfold toggleLike
    simp only [hpid, if_false, hp]
    cases selectLike db u pid <;> cases rf <;>
      simp [countLikes, deleteLikeNotifications, insertLikeNotification]
  · unfold toggleLike
    simp only [hpid, if_false, hp]
    cases selectLike db u pid <;> cases rf <;>
      simp [deleteLikeNotifications, insertLikeNotification]
  · rw [toggleLike_reply_ok db u pid true hpid hpost]
    rfl

theorem toggleLike_notification_fault_witness :
    ((10 : Int) ≠ 0 ∧ postExists db1 10 = true) ∧
      ((toggleLike db1 ⟨false, true⟩ 1 (some 10)).2
          = (toggleLike db1 ⟨false, false⟩ 1 (some 10)).2 ∧
        (toggleLike db1 ⟨false, true⟩ 1 (some 10)).1.likes
          = (toggleLike db1 ⟨false, false⟩ 1 (some 10)).1.likes ∧
        (toggleLike db1 ⟨false, true⟩ 1 (some 10)).2.status = 200) :=
  ⟨⟨by decide, by decide⟩,
    toggleLike_notification_fault db1 1 10 false (by decide) (by decide)⟩

/-! ## The follow toggle -/

theorem isFollowing_iff (db : Db) (a b : Int) :
    isFollowing db a b = true ↔
      ∃ f ∈ db.followers, f.follower_id = a ∧ f.following_id = b := by
  simp [isFollowing, List.any_eq_true]

theorem selectFollow_nil_iff (db : Db) (a b : Int) :
    selectFollow db a b = [] ↔ isFollowing db a b = false := by
  rw [← Bool.not_eq_true, isFollowing_iff]
  simp [selectFollow, List.filter_eq_nil_iff]

theorem selectFollow_head (db : Db) (a b : Int) (r : Follower) (rs : List Follower)
    (h : selectFollow db a b = r :: rs) :
    r ∈ db.followers ∧ r.follower_id = a ∧ r.following_id = b := by
  have hmem : r ∈ selectFollow db a b := by rw [h]; simp
  simpa [selectFollow, List.mem_filter] using hmem

theorem toggleFollow_follow (db : Db) (a b : Int) (hb0 : b ≠ 0) (hba : b ≠ a)
    (hl : selectFollow db a b = []) :
    toggleFollow db noFaults a (some b)
      = (insertFollowNotification (insertFollow db a b) b a, Reply.ok ⟨true⟩) := by
  unfold toggleFollow
  simp [hb0, hba, hl, noFaults]

theorem toggleFollow_unfollow (db : Db) (a b : Int) (r : Follower) (rs : List Follower)
    (hb0 : b ≠ 0) (hba : b ≠ a) (hl : selectFollow db a b = r :: rs) :
    toggleFollow db noFaults a (some b)
      = (deleteFollowNotifications (deleteFollowById db r.id) a b, Reply.ok ⟨false⟩) := by
  unfold toggleFollow
  simp [hb0, hba, hl, noFaults]

/-- C7: for a target b that is not 0 and not the caller a, on a store that satisfies the
constraints of table followers: if the edge (a, b) exists, toggleFollow answers
following = false, removes the rows of that edge and no other row, and removes the
notifications of kind follow with actor a and owner b and no other; if the edge does not
exist, it answers following = true, appends the row (a, b) and appends one notification
with owner b, actor a, kind follow and read = false. -/
theorem toggleFollow_flips (db : Db) (a b : Int) (hb0 : b ≠ 0) (hba : b ≠ a)
    (hc : FollowersConstraint db) :
    (isFollowing db a b = true →
        (toggleFollow db noFaults a (some b)).2 = Reply.ok ⟨false⟩ ∧
        (toggleFollow db noFaults a (some b)).1.followers
          = db.followers.filter
              (fun f => decide (¬ (f.follower_id = a ∧ f.following_id = b))) ∧
        isFollowing (toggleFollow db noFaults a (some b)).1 a b = false ∧
        (toggleFollow db noFaults a (some b)).1.notifications
          = db.notifications.filter (fun n =>
              decide (¬ (n.type = NotifType.follow ∧ n.actor_id = a ∧ n.user_id = b)))) ∧
      (isFollowing db a b = false →
        (toggleFollow db noFaults a (some b)).2 = Reply.ok ⟨true⟩ ∧
        (toggleFollow db noFaults a (some b)).1.followers
          = db.followers ++ [⟨db.followersAuto, a, b⟩] ∧
        (toggleFollow db noFaults a (some b)).1.notifications
          = db.notifications ++
            [⟨db.notificationsAuto, b, a, NotifType.follow, none, none, false, db.clock⟩]) := by
  obtain ⟨hid, _, hpair⟩ := hc
  have injId := List.inj_on_of_nodup_map hid
  have injPair := List.inj_on_of_nodup_map hpair
  constructor
  · intro hfol
    cases hl : selectFollow db a b with
    | nil =>
      rw [(selectFollow_nil_iff db a b).mp hl] at hfol
      exact absurd hfol (by decide)
    | cons r rs =>
      obtain ⟨hr, hra, hrb⟩ := selectFollow_head db a b r rs hl
      rw [toggleFollow_unfollow db a b r rs hb0 hba hl]
      have hrows : (deleteFollowNotifications (deleteFollowById db r.id) a b).followers
          = db.followers.filter
              (fun f => decide (¬ (f.follower_id = a ∧ f.following_id = b))) := by
        show db.followers.filter (fun f => decide (f.id ≠ r.id)) = _
        apply List.filter_congr
        intro x hx
        rw [decide_eq_decide]
        constructor
        · rintro hne ⟨hxa, hxb⟩
          exact hne (by rw [injPair hx hr (by simp [hxa, hxb, hra, hrb])])
        · intro hne hxid
          apply hne
          rw [injId hx hr hxid]
          exact ⟨hra, hrb⟩
      refine ⟨rfl, hrows, ?_, rfl⟩
      rw [← Bool.not_eq_true, isFollowing_iff, hrows]
      rintro ⟨x, hx, hxa, hxb⟩
      have hkeep := (List.mem_filter.mp hx).2
      rw [decide_eq_true_eq] at hkeep
      exact hkeep ⟨hxa, hxb⟩
  · intro hnot
    have hl : selectFollow db a b = [] := (selectFollow_nil_iff db a b).mpr hnot
    rw [toggleFollow_follow db a b hb0 hba hl]
    exact ⟨rfl, rfl, rfl⟩

theorem toggleFollow_flips_witness :
    ((2 : Int) ≠ 0 ∧ (2 : Int) ≠ 1 ∧ FollowersConstraint db1) ∧
      ((isFollowing db1 1 2 = true →
          (toggleFollow db1 noFaults 1 (some 2)).2 = Reply.ok ⟨false⟩ ∧
          (toggleFollow db1 noFaults 1 (some 2)).1.followers
            = db1.followers.filter
                (fun f => decide (¬ (f.follower_id = 1 ∧ f.following_id = 2))) ∧
          isFollowing (toggleFollow db1 noFaults 1 (some 2)).1 1 2 = false ∧
          (toggleFollow db1 noFaults 1 (some 2)).1.notifications
            = db1.notifications.filter (fun n =>
                decide (¬ (n.type = NotifType.follow ∧ n.actor_id = 1 ∧ n.user_id = 2)))) ∧
        (isFollowing db1 1 2 = false →
          (toggleFollow db1 noFaults 1 (some 2)).2 = Reply.ok ⟨true⟩ ∧
          (toggleFollow db1 noFaults 1 (some 2)).1.followers
            = db1.followers ++ [⟨db1.followersAuto, 1, 2⟩] ∧
          (toggleFollow db1 noFaults 1 (some 2)).1.notifications
            = db1.notifications ++
              [⟨db1.notificationsAuto, 2, 1, NotifType.follow, none, none, false,
                db1.clock⟩])) :=
  ⟨⟨by decide, by decide, by decide⟩, toggleFollow_flips db1 1 2 (by decide) (by decide) (by decide)⟩

/-- C8: toggleFollow of a user on themself answers 400 (invalid target user) and leaves
the whole store as it was, for every store (with or without a self-edge) and whatever
writes would reject. -/
theorem toggleFollow_self_rejected (db : Db) (fl : Faults) (a : Int) :
    toggleFollow db fl a (some a) = (db, Reply.error 400 "Invalid target user") := by
  simp [toggleFollow]

/-- C9, the code at the failing input: user 999 is not in the store, yet the handler
never answers 400 for the target 999, and when its writes resolve it answers
following = true, having created the edge (1, 999) and a notification owned by 999. -/
theorem toggleFollow_missing_user :
    userExists db0 999 = false ∧
      (∀ fl : Faults, (toggleFollow db0 fl 1 (some 999)).2.status ≠ 400) ∧
      (toggleFollow db0 noFaults 1 (some 999)).2 = Reply.ok ⟨true⟩ ∧
      (toggleFollow db0 noFaults 1 (some 999)).1.followers = [⟨1, 1, 999⟩] ∧
      (toggleFollow db0 noFaults 1 (some 999)).1.notifications
        = [⟨1, 999, 1, NotifType.follow, none, none, false, 0⟩] := by
  refine ⟨by decide, ?_, by decide, by decide, by decide⟩
  intro fl
  rcases fl with ⟨_ | _, _ | _⟩ <;> decide

/-- C10, the code at the failing input: when the notification write rejects, the handler
answers 500 although the edge has been written: inserted on a follow (store db0),
deleted on an unfollow (store db1). -/
theorem toggleFollow_notification_fault :
    (isFollowing db0 1 2 = false ∧
        (toggleFollow db0 ⟨false, true⟩ 1 (some 2)).2
          = Reply.error 500 "Error toggling follow" ∧
        isFollowing (toggleFollow db0 ⟨false, true⟩ 1 (some 2)).1 1 2 = true) ∧
      (isFollowing db1 1 2 = true ∧
        (toggleFollow db1 ⟨false, true⟩ 1 (some 2)).2
          = Reply.error 500 "Error toggling follow" ∧
        isFollowing (toggleFollow db1 ⟨false, true⟩ 1 (some 2)).1 1 2 = false) := by
  decide

/-! ## The uniqueness invariant -/

theorem toggleInvariant_of_sublist (db db2 : Db) (hl : List.Sublist db2.likes db.likes)
    (hf : List.Sublist db2.followers db.followers) (h : ToggleInvariant db) :
    ToggleInvariant db2 := by
  obtain ⟨h1, h2, h3⟩ := h
  exact ⟨h1.sublist (hl.map _), h2.sublist (hf.map _), fun f hmem => h3 f (hf.subset hmem)⟩

theorem toggleInvariant_of_eq (db db2 : Db) (hl : db2.likes = db.likes)
    (hf : db2.followers = db.followers) (h : ToggleInvariant db) : ToggleInvariant db2 :=
  toggleInvariant_of_sublist db db2 (hl ▸ List.Sublist.refl _) (hf ▸ List.Sublist.refl _) h

theorem toggleLike_invariant (db : Db) (fl : Faults) (u : Int) (postId : Option Int)
    (h : ToggleInvariant db) : ToggleInvariant (toggleLike db fl u postId).1 := by
  unfold toggleLike
  split
  · exact h
  · rename_i pid
    split
    · exact h
    · split
      · exact h
      · split
        · split
          · exact h
          · apply toggleInvariant_of_sublist db _ _ _ h
            · split <;> simp [deleteLikeById, deleteLikeNotifications, List.filter_sublist]
            · split <;> simp [deleteLikeById, deleteLikeNotifications]
        · rename_i hsel
          split
          · exact h
          · obtain ⟨h1, h2, h3⟩ := h
            have hfresh : (u, pid) ∉ db.likes.map (fun l => (l.user_id, l.post_id)) := by
              intro hmem
              obtain ⟨l, hl, hpair⟩ := List.mem_map.mp hmem
              have hin : l ∈ selectLike db u pid := by
                unfold selectLike
                rw [List.mem_filter]
                refine ⟨hl, ?_⟩
                have hu : l.user_id = u := congrArg Prod.fst hpair
                have hp : l.post_id = pid := congrArg Prod.snd hpair
                simp [hu, hp]
              rw [hsel] at hin
              simp at hin
            have hlikes : ((db.likes ++ [Like.mk db.likesAuto u pid]).map
                (fun l : Like => (l.user_id, l.post_id))).Nodup := by
              rw [List.map_append, List.nodup_append]
              refine ⟨h1, by simp, ?_⟩
              intro a ha hb
              simp at hb
              rw [hb] at ha
              exact hfresh ha
            refine ⟨?_, ?_, ?_⟩
            · split <;> simpa [insertLike, insertLikeNotification] using hlikes
            · split <;> simpa [insertLike, insertLikeNotification] using h2
            · split <;> simpa [insertLike, insertLikeNotification] using h3

theorem toggleFollow_invariant (db : Db) (fl : Faults) (a : Int) (targetUserId : Option Int)
    (h : ToggleInvariant db) : ToggleInvariant (toggleFollow db fl a targetUserId).1 := by
  unfold toggleFollow
  split
  · exact h
  · rename_i b
    split
    · exact h
    · rename_i hguard
      split
      · split
        · exact h
        · apply toggleInvariant_of_sublist db _ _ _ h
          · split <;> simp [deleteFollowById, deleteFollowNotifications]
          · split <;> simp [deleteFollowById, deleteFollowNotifications, List.filter_sublist]
      · rename_i hsel
        split
        · exact h
        · obtain ⟨h1, h2, h3⟩ := h
          have hba : ¬ b = a := fun hb => hguard (Or.inr hb)
          have hfresh : (a, b) ∉ db.followers.map (fun f => (f.follower_id, f.following_id)) := by
            intro hmem
            obtain ⟨f, hf, hpair⟩ := List.mem_map.mp hmem
            have hin : f ∈ selectFollow db a b := by
              unfold selectFollow
              rw [List.mem_filter]
              refine ⟨hf, ?_⟩
              have hu : f.follower_id = a := congrArg Prod.fst hpair
              have hp : f.following_id = b := congrArg Prod.snd hpair
              simp [hu, hp]
            rw [hsel] at hin
            simp at hin
          have hrows : ((db.followers ++ [Follower.mk db.followersAuto a b]).map
              (fun f : Follower => (f.follower_id, f.following_id))).Nodup := by
            rw [List.map_append, List.nodup_append]
            refine ⟨h2, by simp, ?_⟩
            intro x hx hb
            simp at hb
            rw [hb] at hx
            exact hfresh hx
          have hself : ∀ f ∈ db.followers ++ [Follower.mk db.followersAuto a b],
              f.follower_id ≠ f.following_id := by
            intro f hf
            rcases List.mem_append.mp hf with hf | hf
            · exact h3 f hf
            · simp at hf
              rw [hf]
              exact fun hab => hba hab.symm
          refine ⟨?_, ?_, ?_⟩
          · split <;> simpa [insertFollow, insertFollowNotification] using h1
          · split <;> simpa [insertFollow, insertFollowNotification] using hrows
          · split <;> simpa [insertFollow, insertFollowNotification] using hself

theorem addComment_toggles (db : Db) (fl : Faults) (u : Int) (postId : Option Int)
    (content : String) :
    (addComment db fl u postId content).1.likes = db.likes ∧
      (addComment db fl u postId content).1.followers = db.followers := by
  unfold addComment
  repeat' split
  all_goals try dsimp only
  all_goals repeat' split
  all_goals exact ⟨rfl, rfl⟩

theorem deleteComment_toggles (db : Db) (u : Int) (postId commentId : Option Int) :
    (deleteComment db u postId commentId).1.likes = db.likes ∧
      (deleteComment db u postId commentId).1.followers = db.followers := by
  unfold deleteComment
  repeat' split
  all_goals exact ⟨rfl, rfl⟩

theorem createPost_toggles (db : Db) (u : Int) (content image_url : Option String) :
    (createPost db u content image_url).1.likes = db.likes ∧
      (createPost db u content image_url).1.followers = db.followers := by
  unfold createPost
  repeat' split
  all_goals exact ⟨rfl, rfl⟩

theorem updatePost_toggles (db : Db) (u postId : Int) (content : String) :
    (updatePost db u postId content).1.likes = db.likes ∧
      (updatePost db u postId content).1.followers = db.followers := by
  unfold updatePost
  repeat' split
  all_goals exact ⟨rfl, rfl⟩

theorem markRead_toggles (db : Db) (u : Int) (notifId : Option Int) :
    (markRead db u notifId).1.likes = db.likes ∧
      (markRead db u notifId).1.followers = db.followers := by
  unfold markRead
  repeat' split
  all_goals exact ⟨rfl, rfl⟩

theorem getThread_toggles (db : Db) (u : Int) (otherUserId : Option Int) :
    (getThread db u otherUserId).1.likes = db.likes ∧
      (getThread db u otherUserId).1.followers = db.followers := by
  unfold getThread
  repeat' split
  all_goals exact ⟨rfl, rfl⟩

theorem sendMessage_toggles (db : Db) (u : Int) (reciever_id : Option Int) (message : String) :
    (sendMessage db u reciever_id message).1.likes = db.likes ∧
      (sendMessage db u reciever_id message).1.followers = db.followers := by
  unfold sendMessage
  repeat' split
  all_goals exact ⟨rfl, rfl⟩

theorem markMessagesRead_toggles (db : Db) (u : Int) (otherUserId : Option Int) :
    (markMessagesRead db u otherUserId).1.likes = db.likes ∧
      (markMessagesRead db u otherUserId).1.followers = db.followers := by
  unfold markMessagesRead
  repeat' split
  all_goals exact ⟨rfl, rfl⟩

theorem editMessage_toggles (db : Db) (u : Int) (messageId : Option Int) (message : String) :
    (editMessage db u messageId message).1.likes = db.likes ∧
      (editMessage db u messageId message).1.followers = db.followers := by
  unfold editMessage
  repeat' split
  all_goals exact ⟨rfl, rfl⟩

theorem deleteMessage_toggles (db : Db) (u : Int) (messageId : Option Int) :
    (deleteMessage db u messageId).1.likes = db.likes ∧
      (deleteMessage db u messageId).1.followers = db.followers := by
  unfold deleteMessage
  repeat' split
  all_goals exact ⟨rfl, rfl⟩

theorem deleteThread_toggles (db : Db) (u : Int) (otherUserId : Option Int) :
    (deleteThread db u otherUserId).1.likes = db.likes ∧
      (deleteThread db u otherUserId).1.followers = db.followers := by
  unfold deleteThread
  repeat' split
  all_goals exact ⟨rfl, rfl⟩

theorem deletePost_toggles (db : Db) (u postId : Int) :
    List.Sublist (deletePost db u postId).1.likes db.likes ∧
      (deletePost db u postId).1.followers = db.followers := by
  unfold deletePost
  repeat' split
  all_goals first
    | exact ⟨List.Sublist.refl _, rfl⟩
    | exact ⟨List.filter_sublist _, rfl⟩

theorem deleteAccount_toggles (db : Db) (u : Int) :
    List.Sublist (deleteAccount db u).1.likes db.likes ∧
      List.Sublist (deleteAccount db u).1.followers db.followers := by
  unfold deleteAccount
  repeat' split
  all_goals first
    | exact ⟨List.Sublist.refl _, List.Sublist.refl _⟩
    | exact ⟨List.filter_sublist _, List.filter_sublist _⟩

/-- C11: the uniqueness predicate of the toggle relations (one like row per (user, post),
one follow row per ordered (follower, followee), no follow row from a user to themself) is
preserved by every request executed on its own, by any caller, with any parameters and
whichever of its writes reject. -/
theorem step_preserves_toggleInvariant (db : Db) (currentUserId : Int) (op : Op)
    (h : ToggleInvariant db) : ToggleInvariant (step db currentUserId op) := by
  cases op with
  | toggleLike fl postId => exact toggleLike_invariant db fl currentUserId postId h
  | toggleFollow fl targetUserId => exact toggleFollow_invariant db fl currentUserId targetUserId h
  | addComment fl postId content =>
    have hf := addComment_toggles db fl currentUserId postId content
    exact toggleInvariant_of_eq db _ hf.1 hf.2 h
  | deleteComment postId commentId =>
    have hf := deleteComment_toggles db currentUserId postId commentId
    exact toggleInvariant_of_eq db _ hf.1 hf.2 h
  | createPost content image_url =>
    have hf := createPost_toggles db currentUserId content image_url
    exact toggleInvariant_of_eq db _ hf.1 hf.2 h
  | updatePost postId content =>
    have hf := updatePost_toggles db currentUserId postId content
    exact toggleInvariant_of_eq db _ hf.1 hf.2 h
  | deletePost postId =>
    have hf := deletePost_toggles db currentUserId postId
    exact toggleInvariant_of_sublist db _ hf.1 (hf.2 ▸ List.Sublist.refl _) h
  | markRead notifId =>
    have hf := markRead_toggles db currentUserId notifId
    exact toggleInvariant_of_eq db _ hf.1 hf.2 h
  | markAllRead => exact toggleInvariant_of_eq db _ rfl rfl h
  | getThread otherUserId =>
    have hf := getThread_toggles db currentUserId otherUserId
    exact toggleInvariant_of_eq db _ hf.1 hf.2 h
  | sendMessage reciever_id message =>
    have hf := sendMessage_toggles db currentUserId reciever_id message
    exact toggleInvariant_of_eq db _ hf.1 hf.2 h
  | markMessagesRead otherUserId =>
    have hf := markMessagesRead_toggles db currentUserId otherUserId
    exact toggleInvariant_of_eq db _ hf.1 hf.2 h
  | editMessage messageId message =>
    have hf := editMessage_toggles db currentUserId messageId message
    exact toggleInvariant_of_eq db _ hf.1 hf.2 h
  | deleteMessage messageId =>
    have hf := deleteMessage_toggles db currentUserId messageId
    exact toggleInvariant_of_eq db _ hf.1 hf.2 h
  | deleteThread otherUserId =>
    have hf := deleteThread_toggles db currentUserId otherUserId
    exact toggleInvariant_of_eq db _ hf.1 hf.2 h
  | deleteAccount =>
    have hf := deleteAccount_toggles db currentUserId
    exact toggleInvariant_of_sublist db _ hf.1 hf.2 h

theorem step_preserves_toggleInvariant_witness :
    ToggleInvariant db1 ∧ ToggleInvariant (step db1 2 (Op.toggleLike noFaults (some 10))) :=
  ⟨by decide, step_preserves_toggleInvariant db1 2 (Op.toggleLike noFaults (some 10)) (by decide)⟩

/-! ## Two concurrent follow requests -/

/-- For a valid target the follow handler is its check followed by its write. -/
theorem toggleFollow_eq_followWrite (db : Db) (fl : Faults) (a b : Int) (hb0 : b ≠ 0)
    (hba : b ≠ a) :
    toggleFollow db fl a (some b) = followWrite db fl a b (selectFollow db a b) := by
  unfold toggleFollow followWrite
  simp only [hb0, hba, or_self, if_false]

theorem edgeCount_followWrite (db : Db) (fl : Faults) (a b : Int) (rows : List Follower)
    (hfl : rows = [] → isFollowing db a b = true → fl.relationWrite = true)
    (h : edgeCount db a b ≤ 1) : edgeCount (followWrite db fl a b rows).1 a b ≤ 1 := by
  unfold followWrite
  cases rows with
  | cons r rs =>
    have hle : ∀ k : Int, edgeCount (deleteFollowById db k) a b ≤ 1 := by
      intro k
      refine le_trans ?_ h
      unfold edgeCount selectFollow deleteFollowById
      exact ((List.filter_sublist _).filter _).length_le
    simp only
    split
    · exact h
    · split
      · exact hle r.id
      · exact hle r.id
  | nil =>
    simp only
    split
    · exact h
    · rename_i hrel
      have hnot : isFollowing db a b = false := by
        cases hfol : isFollowing db a b with
        | false => rfl
        | true => exact absurd (hfl rfl hfol) hrel
      have hnil : selectFollow db a b = [] := (selectFollow_nil_iff db a b).mpr hnot
      have hone : edgeCount (insertFollow db a b) a b ≤ 1 := by
        have hnil2 : db.followers.filter
            (fun f => decide (f.follower_id = a ∧ f.following_id = b)) = [] := hnil
        unfold edgeCount selectFollow insertFollow
        simp only [List.filter_append, hnil2]
        simp
      split
      · exact hone
      · exact hone

theorem edgeCount_advance (db : Db) (fl : Faults) (a b : Int) (p : Progress)
    (h : edgeCount db a b ≤ 1) : edgeCount (advance db fl a b p).1 a b ≤ 1 := by
  cases p with
  | start => exact h
  | finished reply => exact h
  | checked rows =>
    unfold advance
    apply edgeCount_followWrite db _ a b rows _ h
    intro hrows hfol
    simp [hrows, insertFollowRejected, hfol]

theorem edgeCount_foldl (fl1 fl2 : Faults) (a b : Int) (schedule : List Bool) :
    ∀ s : Race, edgeCount s.db a b ≤ 1 →
      edgeCount (schedule.foldl (fun s who => s.move fl1 fl2 a b who) s).db a b ≤ 1 := by
  induction schedule with
  | nil => intro s h; exact h
  | cons who rest ih =>
    intro s h
    rw [List.foldl_cons]
    apply ih
    unfold Race.move
    split
    · exact edgeCount_advance s.db fl1 a b s.first h
    · exact edgeCount_advance s.db fl2 a b s.second h

/-- C12: two requests toggleFollow(a, b), each a check step followed by a write step, run
under any schedule on a store whose unique index on followers rejects the insert of a pair
that is already there: if the store starts with at most one row (a, b), it holds at most
one after every step, whatever writes reject. Under the schedule check, check, write,
write without rejected writes: when no edge existed, the second insert is rejected, its
request answers 500 and the store is the one the first write left (one edge); when the
edge existed, the second delete changes no follow row, its request answers
following = false and no edge is left. -/
theorem race_keeps_one_edge (db : Db) (fl1 fl2 : Faults) (a b : Int) (schedule : List Bool)
    (h : edgeCount db a b ≤ 1) :
    edgeCount (runRace db fl1 fl2 a b schedule).db a b ≤ 1 ∧
      (isFollowing db a b = false →
        (runRace db noFaults noFaults a b [true, false, true, false]).second
            = Progress.finished (Reply.error 500 "Error toggling follow") ∧
          (runRace db noFaults noFaults a b [true, false, true, false]).db
            = (runRace db noFaults noFaults a b [true, false, true]).db ∧
          edgeCount (runRace db noFaults noFaults a b [true, false, true, false]).db a b = 1) ∧
      (isFollowing db a b = true →
        (runRace db noFaults noFaults a b [true, false, true, false]).second
            = Progress.finished (Reply.ok ⟨false⟩) ∧
          (runRace db noFaults noFaults a b [true, false, true, false]).db.followers
            = (runRace db noFaults noFaults a b [true, false, true]).db.followers ∧
          edgeCount (runRace db noFaults noFaults a b [true, false, true, false]).db a b = 0) := by
  refine ⟨edgeCount_foldl fl1 fl2 a b schedule _ h, ?_, ?_⟩
  · intro hnot
    have hnil : selectFollow db a b = [] := (selectFollow_nil_iff db a b).mpr hnot
    have hnil2 : db.followers.filter
        (fun f => decide (f.follower_id = a ∧ f.following_id = b)) = [] := hnil
    have hnow : isFollowing (insertFollowNotification (insertFollow db a b) b a) a b = true := by
      rw [isFollowing_iff]
      exact ⟨⟨db.followersAuto, a, b⟩, by simp [insertFollowNotification, insertFollow], rfl, rfl⟩
    simp only [runRace, List.foldl_cons, List.foldl_nil, Race.move, advance, if_true, hnil,
      followWrite, noFaults, List.isEmpty_nil, insertFollowRejected, hnot, hnow, Bool.false_or,
      Bool.and_false, Bool.and_true, Bool.false_eq_true, if_false]
    refine ⟨trivial, trivial, ?_⟩
    unfold edgeCount selectFollow insertFollowNotification insertFollow
    simp only [List.filter_append, hnil2]
    simp
  · intro hfol
    cases hsel : selectFollow db a b with
    | nil =>
      rw [(selectFollow_nil_iff db a b).mp hsel] at hfol
      exact absurd hfol (by decide)
    | cons r rs =>
      have hlen : (selectFollow db a b).length ≤ 1 := h
      have hrs : rs = [] := by
        rw [hsel] at hlen
        cases rs with
        | nil => rfl
        | cons x xs => simp at hlen
      subst hrs
      obtain ⟨hr, hra, hrb⟩ := selectFollow_head db a b r [] hsel
      have hgone : selectFollow (deleteFollowById db r.id) a b = [] := by
        have hsel2 : db.followers.filter
            (fun f => decide (f.follower_id = a ∧ f.following_id = b)) = [r] := hsel
        unfold selectFollow deleteFollowById
        simp only
        rw [List.filter_filter]
        rw [List.filter_eq_nil_iff]
        intro x hx hcond
        simp only [Bool.and_eq_true, decide_eq_true_eq] at hcond
        have hxin : x ∈ db.followers.filter
            (fun f => decide (f.follower_id = a ∧ f.following_id = b)) := by
          rw [List.mem_filter]
          exact ⟨hx, by simpa using hcond.1⟩
        rw [hsel2] at hxin
        simp at hxin
        exact hcond.2 (by rw [hxin])
      simp only [runRace, List.foldl_cons, List.foldl_nil, Race.move, advance, if_true, hsel,
        followWrite, noFaults, List.isEmpty_cons, Bool.false_or, Bool.false_and,
        Bool.false_eq_true, if_false]
      refine ⟨trivial, ?_, ?_⟩
      · simp [deleteFollowNotifications, deleteFollowById, List.filter_filter]
      · have hsame : edgeCount (deleteFollowNotifications (deleteFollowById
            (deleteFollowNotifications (deleteFollowById db r.id) a b) r.id) a b) a b
            = (selectFollow (deleteFollowById (deleteFollowById db r.id) r.id) a b).length := rfl
        rw [hsame]
        have hsub : selectFollow (deleteFollowById (deleteFollowById db r.id) r.id) a b = [] := by
          have hs : List.Sublist
              (selectFollow (deleteFollowById (deleteFollowById db r.id) r.id) a b)
              (selectFollow (deleteFollowById db r.id) a b) := by
            unfold selectFollow deleteFollowById
            exact (List.filter_sublist _).filter _
          rw [hgone] at hs
          exact List.sublist_nil.mp hs
        rw [hsub]
        rfl

theorem race_keeps_one_edge_witness :
    edgeCount db1 1 2 ≤ 1 ∧
      (edgeCount (runRace db1 noFaults noFaults 1 2 [true, false, false, true]).db 1 2 ≤ 1 ∧
      (isFollowing db1 1 2 = false →
        (runRace db1 noFaults noFaults 1 2 [true, false, true, false]).second
            = Progress.finished (Reply.error 500 "Error toggling follow") ∧
          (runRace db1 noFaults noFaults 1 2 [true, false, true, false]).db
            = (runRace db1 noFaults noFaults 1 2 [true, false, true]).db ∧
          edgeCount (runRace db1 noFaults noFaults 1 2 [true, false, true, false]).db 1 2 = 1) ∧
      (isFollowing db1 1 2 = true →
        (runRace db1 noFaults noFaults 1 2 [true, false, true, false]).second
            = Progress.finished (Reply.ok ⟨false⟩) ∧
          (runRace db1 noFaults noFaults 1 2 [true, false, true, false]).db.followers
            = (runRace db1 noFaults noFaults 1 2 [true, false, true]).db.followers ∧
          edgeCount (runRace db1 noFaults noFaults 1 2 [true, false, true, false]).db 1 2
            = 0)) :=
  ⟨by decide, race_keeps_one_edge db1 noFaults noFaults 1 2 [true, false, false, true] (by decide)⟩

/-- Without the unique index the bare handler code races: two writes that both saw no
row leave two rows of the pair. -/
theorem followWrite_twice_without_index :
    edgeCount (followWrite (followWrite db0 noFaults 1 2 []).1 noFaults 1 2 []).1 1 2 = 2 := by
  decide

/-! ## Conversations -/

/-- C13, the code at the failing input: in store db2 the thread of users 1 and 2 holds two
messages stamped with the greatest time 5, and the conversations of user 1 show two rows
for partner 2. -/
theorem listConversations_two_rows_for_one_partner :
    listConversations db2 1
        = Reply.ok [⟨3, "u3", "ping", 7, 1⟩, ⟨2, "u2", "hi back", 5, 1⟩, ⟨2, "u2", "cool", 5, 1⟩] ∧
      (rowsFor (listConversations db2 1) 2).length = 2 := by
  decide

/-- C14, the code at the failing input: in store db2 the messages of the thread of users 1
and 2 with the greatest time are number 2 ("hi back") and number 3 ("cool"); the
conversations of user 1 report both for partner 2, the one with the lower id first, not
only the one with the highest id. -/
theorem listConversations_no_tie_break :
    ((db2.messages.filter (betweenUsers 1 2)).filter (fun m => m.created_at = 5)).map
        (fun m => (m.id, m.message)) = [(2, "hi back"), (3, "cool")] ∧
      maxCreatedAt (db2.messages.filter (betweenUsers 1 2)) = 5 ∧
      (rowsFor (listConversations db2 1) 2).map (fun r => r.last_message)
        = ["hi back", "cool"] := by
  decide

theorem mem_conversationJoin (db : Db) (me : Int) (r : ConversationRow)
    (h : r ∈ conversationJoin db me) :
    ∃ c ∈ conv db me, ∃ u ∈ db.users, u.id = c.1 ∧ ∃ lm ∈ db.messages,
      (((lm.sender_id = me ∧ lm.reciever_id = u.id) ∨
          (lm.sender_id = u.id ∧ lm.reciever_id = me)) ∧ lm.created_at = c.2) ∧
        r = ⟨u.id, u.username, lm.message, lm.created_at, unreadCount db me u.id⟩ := by
  unfold conversationJoin at h
  rw [List.mem_flatMap] at h
  obtain ⟨c, hc, h⟩ := h
  rw [List.mem_flatMap] at h
  obtain ⟨u, hu, h⟩ := h
  rw [List.mem_map] at h
  obtain ⟨lm, hlm, hr⟩ := h
  rw [List.mem_filter] at hu hlm
  refine ⟨c, hc, u, hu.1, by simpa using hu.2, lm, hlm.1, by simpa using hlm.2, hr.symm⟩

/-- C15: every row of the conversations of me carries as unread_count the number of
messages of the store whose sender is the partner of the row, whose recipient is me and
which are unread; no other message enters the count. -/
theorem listConversations_unread_count (db : Db) (me : Int) :
    ∃ rows, listConversations db me = Reply.ok rows ∧
      ∀ r ∈ rows, r.unread_count
        = (db.messages.filter (fun m =>
            decide (m.sender_id = r.user_id ∧ m.reciever_id = me ∧ m.is_read = false))).length := by
  refine ⟨_, rfl, ?_⟩
  intro r hr
  rw [List.mem_insertionSort] at hr
  obtain ⟨c, _, u, _, _, lm, _, _, hrow⟩ := mem_conversationJoin db me r hr
  rw [hrow]
  rfl

/-- In a list sorted by creation time, a row stamped earlier stands before a row stamped
later. -/
theorem earlier_stands_before (rows : List Message)
    (hs : List.Sorted (fun x y : Message => x.created_at ≤ y.created_at) rows)
    (a b : Message) (ha : a ∈ rows) (hb : b ∈ rows) (hlt : a.created_at < b.created_at) :
    List.Sublist [a, b] rows := by
  induction rows with
  | nil => simp at ha
  | cons x xs ih =>
    have hrel := (List.sorted_cons.mp hs).1
    have hxs := (List.sorted_cons.mp hs).2
    rcases List.mem_cons.mp ha with hax | hax
    · rcases List.mem_cons.mp hb with hbx | hbx
      · rw [hax, hbx] at hlt
        exact absurd hlt (Nat.lt_irrefl _)
      · rw [hax]
        exact List.Sublist.cons₂ x (List.singleton_sublist.mpr hbx)
    · rcases List.mem_cons.mp hb with hbx | hbx
      · have hle := hrel a hax
        rw [← hbx] at hle
        exact absurd hlt (Nat.not_lt.mpr hle)
      · exact List.Sublist.cons x (ih hxs hax hbx)

/-- A list sorted by creation time that is a rearrangement of a list whose creation times
strictly ascend is that list. -/
theorem eq_of_perm_of_strict_times (rows table : List Message) (hp : List.Perm rows table)
    (hs : List.Sorted (fun x y : Message => x.created_at ≤ y.created_at) rows)
    (ht : List.Sorted (fun x y : Message => x.created_at < y.created_at) table) :
    rows = table := by
  have hne : List.Pairwise (fun x y : Message => x.created_at ≠ y.created_at) table :=
    List.Pairwise.imp (fun h => Nat.ne_of_lt h) ht
  have hne2 : List.Pairwise (fun x y : Message => x.created_at ≠ y.created_at) rows :=
    (List.Perm.pairwise_iff (fun h => Ne.symm h) hp).mpr hne
  have hstrict : List.Sorted (fun x y : Message => x.created_at < y.created_at) rows :=
    List.Pairwise.imp₂ (fun _ _ hle hn => Nat.lt_of_le_of_ne hle hn) hs hne2
  haveI : IsAntisymm Message (fun x y => x.created_at < y.created_at) :=
    ⟨fun _ _ h1 h2 => absurd h1 (Nat.lt_asymm h2)⟩
  exact List.eq_of_perm_of_sorted hp hstrict ht

/-- C16, the claim as stated fails: in store db2 the thread of users 1 and 2 was sent in
the order hello, hi back, cool, the last two within one tick of the clock (time 5). The
rows hello, cool, hi back are the messages of the thread, each once, in ascending order of
creation time, so they are an answer of the query; they are not in send order. -/
theorem getThread_tie_not_send_order :
    db2.messages.filter (fun m =>
        decide ((m.sender_id = 1 ∧ m.reciever_id = 2) ∨ (m.sender_id = 2 ∧ m.reciever_id = 1)))
      = [⟨1, 1, 2, "hello", true, 4⟩, ⟨2, 2, 1, "hi back", false, 5⟩,
          ⟨3, 1, 2, "cool", false, 5⟩] ∧
      ThreadAnswer db2 1 2
        [⟨1, 1, 2, "hello", true, 4⟩, ⟨3, 1, 2, "cool", false, 5⟩,
          ⟨2, 2, 1, "hi back", false, 5⟩] ∧
      ¬ List.Sublist
          [(⟨2, 2, 1, "hi back", false, 5⟩ : Message), ⟨3, 1, 2, "cool", false, 5⟩]
          [⟨1, 1, 2, "hello", true, 4⟩, ⟨3, 1, 2, "cool", false, 5⟩,
            ⟨2, 2, 1, "hi back", false, 5⟩] := by
  decide

/-- C16, amended: the reply of the thread view of me with other is an answer of its
query, and every answer of the query holds the messages of the store whose sender and recipient are the two
users, in either direction, each as often as the table and no other row, in ascending
order of creation time: a message stamped earlier stands before a message stamped later,
and when the creation times of the thread strictly ascend in the order of the table, as
sends at different times leave them, the answer is the thread in send order. -/
theorem getThread_rows (db : Db) (me other : Int) :
    (getThread db me (some other)).2 = Reply.ok (selectThread db me other) ∧
      ThreadAnswer db me other (selectThread db me other) ∧
      (∀ rows, ThreadAnswer db me other rows →
        List.Perm rows
          (db.messages.filter (fun m =>
            decide ((m.sender_id = me ∧ m.reciever_id = other) ∨
              (m.sender_id = other ∧ m.reciever_id = me)))) ∧
        (∀ m, m ∈ rows ↔
          m ∈ db.messages ∧ ((m.sender_id = me ∧ m.reciever_id = other) ∨
            (m.sender_id = other ∧ m.reciever_id = me))) ∧
        List.Sorted (fun x y : Message => x.created_at ≤ y.created_at) rows ∧
        (∀ a ∈ rows, ∀ b ∈ rows, a.created_at < b.created_at → List.Sublist [a, b] rows) ∧
        (List.Sorted (fun x y : Message => x.created_at < y.created_at)
            (db.messages.filter (fun m =>
              decide ((m.sender_id = me ∧ m.reciever_id = other) ∨
                (m.sender_id = other ∧ m.reciever_id = me)))) →
          rows = db.messages.filter (fun m =>
              decide ((m.sender_id = me ∧ m.reciever_id = other) ∨
                (m.sender_id = other ∧ m.reciever_id = me))))) := by
  have hfilter : db.messages.filter (betweenUsers me other)
      = db.messages.filter (fun m =>
          decide ((m.sender_id = me ∧ m.reciever_id = other) ∨
            (m.sender_id = other ∧ m.reciever_id = me))) := rfl
  refine ⟨rfl, ⟨?_, ?_⟩, ?_⟩
  · exact List.perm_insertionSort _ _
  · haveI : IsTotal Message (fun x y => x.created_at ≤ y.created_at) :=
      ⟨fun x y => Nat.le_total x.created_at y.created_at⟩
    haveI : IsTrans Message (fun x y => x.created_at ≤ y.created_at) :=
      ⟨fun _ _ _ hxy hyz => Nat.le_trans hxy hyz⟩
    exact List.sorted_insertionSort _ _
  · rintro rows ⟨hp, hs⟩
    rw [hfilter] at hp
    refine ⟨hp, ?_, hs, ?_, ?_⟩
    · intro m
      rw [hp.mem_iff, List.mem_filter, decide_eq_true_eq]
    · intro a ha b hb hlt
      exact earlier_stands_before rows hs a b ha hb hlt
    · intro ht
      exact eq_of_perm_of_strict_times rows _ hp hs ht

theorem getThread_rows_witness :
    ThreadAnswer db2 1 2
        [⟨1, 1, 2, "hello", true, 4⟩, ⟨3, 1, 2, "cool", false, 5⟩,
          ⟨2, 2, 1, "hi back", false, 5⟩] ∧
      List.Sublist [(⟨1, 1, 2, "hello", true, 4⟩ : Message), ⟨2, 2, 1, "hi back", false, 5⟩]
        [⟨1, 1, 2, "hello", true, 4⟩, ⟨3, 1, 2, "cool", false, 5⟩,
          ⟨2, 2, 1, "hi back", false, 5⟩] ∧
      (getThread db2 1 (some 2)).2
        = Reply.ok [⟨1, 1, 2, "hello", true, 4⟩, ⟨2, 2, 1, "hi back", false, 5⟩,
            ⟨3, 1, 2, "cool", false, 5⟩] :=
  ⟨by decide,
    ((getThread_rows db2 1 2).2.2 _ (by decide)).2.2.2.1
      ⟨1, 1, 2, "hello", true, 4⟩ (by decide) ⟨2, 2, 1, "hi back", false, 5⟩ (by decide)
      (by decide),
    by decide⟩

theorem markUnreadAsRead_messages (db : Db) (partner me : Int) :
    (markUnreadAsRead db partner me).messages
      = db.messages.map (fun m =>
          if m.sender_id = partner ∧ m.reciever_id = me then { m with is_read := true } else m) := by
  unfold markUnreadAsRead
  simp only
  apply List.map_congr_left
  intro m _
  by_cases hc : m.sender_id = partner ∧ m.reciever_id = me
  · rw [if_pos hc]
    by_cases hr : m.is_read = false
    · rw [if_pos ⟨hc.1, hc.2, hr⟩]
    · have hrt : m.is_read = true := by simpa using hr
      rw [if_neg (fun h => hr h.2.2)]
      cases m
      simp only at hrt
      simp [hrt]
  · rw [if_neg hc, if_neg (fun h => hc ⟨h.1, h.2.1⟩)]

theorem markUnreadAsRead_read (db : Db) (partner me : Int) :
    ∀ m ∈ (markUnreadAsRead db partner me).messages,
      m.sender_id = partner → m.reciever_id = me → m.is_read = true := by
  intro m hm hs hrc
  rw [markUnreadAsRead_messages, List.mem_map] at hm
  obtain ⟨m0, _, hm0⟩ := hm
  by_cases hc : m0.sender_id = partner ∧ m0.reciever_id = me
  · rw [if_pos hc] at hm0
    rw [← hm0]
  · rw [if_neg hc] at hm0
    rw [hm0] at hc
    exact absurd ⟨hs, hrc⟩ hc

theorem markUnreadAsRead_idem (db : Db) (partner me : Int) :
    markUnreadAsRead (markUnreadAsRead db partner me) partner me
      = markUnreadAsRead db partner me := by
  have hread := markUnreadAsRead_read db partner me
  have hmsgs : (markUnreadAsRead (markUnreadAsRead db partner me) partner me).messages
      = (markUnreadAsRead db partner me).messages := by
    show ((markUnreadAsRead db partner me).messages.map _) = _
    conv_rhs => rw [← List.map_id (markUnreadAsRead db partner me).messages]
    apply List.map_congr_left
    intro m hm
    have hnot : ¬ (m.sender_id = partner ∧ m.reciever_id = me ∧ m.is_read = false) := by
      rintro ⟨h1, h2, h3⟩
      rw [hread m hm h1 h2] at h3
      exact absurd h3 (by decide)
    rw [if_neg hnot]
    rfl
  have hform : ∀ d : Db, markUnreadAsRead d partner me
      = { d with messages := (markUnreadAsRead d partner me).messages } := fun _ => rfl
  rw [hform (markUnreadAsRead db partner me), hmsgs]

/-- C17: the thread view of me with partner leaves the store with every message from
partner to me read and everything else as it was (the messages from partner to me change
in their read flag only; every other message and every other table is untouched); the
conversations of me then show unread_count 0 in every row for partner; and a second
thread view leaves the store as the first left it. -/
theorem getThread_marks_read (db : Db) (me partner : Int) :
    (getThread db me (some partner)).1
        = { db with
            messages := db.messages.map (fun m =>
              if m.sender_id = partner ∧ m.reciever_id = me then { m with is_read := true }
              else m) } ∧
      (∀ m ∈ (getThread db me (some partner)).1.messages,
        m.sender_id = partner → m.reciever_id = me → m.is_read = true) ∧
      (∀ r ∈ rowsFor (listConversations (getThread db me (some partner)).1 me) partner,
        r.unread_count = 0) ∧
      (getThread (getThread db me (some partner)).1 me (some partner)).1
        = (getThread db me (some partner)).1 := by
  have hstore : (getThread db me (some partner)).1 = markUnreadAsRead db partner me := rfl
  rw [hstore]
  refine ⟨?_, markUnreadAsRead_read db partner me, ?_, ?_⟩
  · have hform : markUnreadAsRead db partner me
        = { db with messages := (markUnreadAsRead db partner me).messages } := rfl
    rw [hform, markUnreadAsRead_messages]
  · intro r hr
    unfold rowsFor listConversations at hr
    simp only [List.mem_filter, List.mem_insertionSort, decide_eq_true_eq] at hr
    obtain ⟨hjoin, hpartner⟩ := hr
    obtain ⟨c, _, u, _, _, lm, _, _, hrow⟩ :=
      mem_conversationJoin (markUnreadAsRead db partner me) me r hjoin
    have huid : u.id = partner := by
      rw [hrow] at hpartner
      exact hpartner
    rw [hrow, huid]
    show (List.filter _ _).length = 0
    rw [List.length_eq_zero, List.filter_eq_nil_iff]
    intro m hm hcond
    simp only [decide_eq_true_eq] at hcond
    have hread := markUnreadAsRead_read db partner me m hm hcond.1 hcond.2.1
    rw [hread] at hcond
    exact absurd hcond.2.2 (by decide)
  · exact markUnreadAsRead_idem db partner me

/-! ## The scenario hello, hi back, cool -/

theorem flatMap_of_nodup_single {α β : Type} [DecidableEq α] (H : α → List β) (p : α) :
    ∀ l : List α, l.Nodup → p ∈ l → (∀ q ∈ l, q ≠ p → H q = []) → l.flatMap H = H p := by
  intro l
  induction l with
  | nil => intro _ hp; simp at hp
  | cons x xs ih =>
    intro hnd hp hH
    rw [List.nodup_cons] at hnd
    rw [List.flatMap_cons]
    by_cases hx : x = p
    · subst hx
      have hrest : xs.flatMap H = [] := by
        rw [List.flatMap_eq_nil_iff]
        intro q hq
        exact hH q (List.mem_cons_of_mem _ hq) (fun hqx => hnd.1 (hqx ▸ hq))
      rw [hrest, List.append_nil]
    · have hpx : p ∈ xs := by
        rcases List.mem_cons.mp hp with h | h
        · exact absurd h.symm hx
        · exact h
      rw [hH x (List.mem_cons_self _ _) hx, List.nil_append]
      exact ih hnd.2 hpx (fun q hq => hH q (List.mem_cons_of_mem _ hq))

/-- The rows of the join for one partner whose users row is unique: one row per message
of the pair stamped with the greatest time of the group. -/
theorem conversationJoin_filter (db : Db) (me p : Int) (u : User)
    (hu : selectUser db p = [u])
    (hp : p ∈ (messagesOf db me).map (partnerId me)) :
    (conversationJoin db me).filter (fun r => decide (r.user_id = p))
      = (db.messages.filter (fun lm =>
          decide ((((lm.sender_id = me ∧ lm.reciever_id = u.id) ∨
            (lm.sender_id = u.id ∧ lm.reciever_id = me)) ∧
            lm.created_at
              = maxCreatedAt ((messagesOf db me).filter (fun m => decide (partnerId me m = p))))))).map
          (fun lm => ⟨u.id, u.username, lm.message, lm.created_at, unreadCount db me u.id⟩) := by
  have hu2 : db.users.filter (fun x => decide (x.id = p)) = [u] := hu
  have huid : u.id = p := by
    have hmem : u ∈ db.users.filter (fun x => decide (x.id = p)) := by rw [hu2]; simp
    simpa using (List.mem_filter.mp hmem).2
  unfold conversationJoin conv
  rw [List.filter_flatMap, List.flatMap_map]
  rw [flatMap_of_nodup_single _ p _ (List.nodup_dedup _) (List.mem_dedup.mpr hp)]
  · simp only [hu2, List.flatMap_cons, List.flatMap_nil, List.append_nil]
    rw [List.filter_eq_self]
    intro r hr
    rw [List.mem_map] at hr
    obtain ⟨lm, _, hrow⟩ := hr
    rw [← hrow]
    simpa using huid
  · intro q _ hqp
    rw [List.filter_eq_nil_iff]
    intro r hr
    rw [List.mem_flatMap] at hr
    obtain ⟨x, hx, hr⟩ := hr
    rw [List.mem_map] at hr
    obtain ⟨lm, _, hrow⟩ := hr
    have hxq : x.id = q := by simpa using (List.mem_filter.mp hx).2
    rw [← hrow]
    simp only [decide_eq_true_eq]
    rw [hxq]
    exact hqp

theorem filter_append_of_left_false {α : Type} (Q : α → Bool) (M L : List α)
    (hM : ∀ m ∈ M, Q m = false) : (M ++ L).filter Q = L.filter Q := by
  rw [List.filter_append]
  have hnil : M.filter Q = [] := by
    rw [List.filter_eq_nil_iff]
    intro m hm hq
    rw [hM m hm] at hq
    exact absurd hq (by decide)
  rw [hnil, List.nil_append]

theorem sendMessage_store (db : Db) (u rid : Int) (message : String) (x : User)
    (hr0 : rid ≠ 0) (hb : blank message = false) (hru : rid ≠ u)
    (hx : selectUser db rid = [x]) :
    (sendMessage db u (some rid) message).1 = insertMessage db u rid (trim message) := by
  unfold sendMessage
  simp [hr0, hb, hru, hx]

theorem helloHiCool_store (db : Db) (a b : Int) (d1 d2 : Nat) (ua ub : User)
    (ha0 : a ≠ 0) (hb0 : b ≠ 0) (hab : a ≠ b)
    (hua : selectUser db a = [ua]) (hub : selectUser db b = [ub]) :
    helloHiCool db a b d1 d2
      = { db with
          messages := db.messages ++
            [⟨db.messagesAuto, a, b, "hello", false, db.clock⟩,
             ⟨db.messagesAuto + 1, b, a, "hi back", false, db.clock + d1⟩,
             ⟨db.messagesAuto + 1 + 1, a, b, "cool", false, db.clock + d1 + d2⟩]
          messagesAuto := db.messagesAuto + 1 + 1 + 1
          clock := db.clock + d1 + d2 } := by
  unfold helloHiCool
  rw [sendMessage_store db a b "hello" ub hb0 (by decide) (Ne.symm hab) hub]
  rw [sendMessage_store (tick (insertMessage db a b (trim "hello")) d1) b a "hi back" ua ha0
    (by decide) hab hua]
  rw [sendMessage_store
    (tick (insertMessage (tick (insertMessage db a b (trim "hello")) d1) b a (trim "hi back")) d2)
    a b "cool" ub hb0 (by decide) (Ne.symm hab) hub]
  have h1 : trim "hello" = "hello" := by decide
  have h2 : trim "hi back" = "hi back" := by decide
  have h3 : trim "cool" = "cool" := by decide
  simp [insertMessage, tick, h1, h2, h3]

theorem join_after_three_sender (D : Db) (a b : Int) (ub : User) (M : List Message)
    (k1 k2 k3 : Int) (t1 t2 t3 : Nat)
    (hD : D.messages = M ++
      [⟨k1, a, b, "hello", false, t1⟩, ⟨k2, b, a, "hi back", false, t2⟩,
       ⟨k3, a, b, "cool", false, t3⟩])
    (hub : selectUser D b = [ub]) (hab : a ≠ b)
    (hnone : ∀ m ∈ M, betweenUsers a b m = false) (h13 : t1 < t3) (h23 : t2 < t3) :
    (conversationJoin D a).filter (fun r => decide (r.user_id = b))
      = [⟨b, ub.username, "cool", t3, 1⟩] := by
  have hub2 : D.users.filter (fun x => decide (x.id = b)) = [ub] := hub
  have huid : ub.id = b := by
    have hmem : ub ∈ D.users.filter (fun x => decide (x.id = b)) := by rw [hub2]; simp
    simpa using (List.mem_filter.mp hmem).2
  have hp : b ∈ (messagesOf D a).map (partnerId a) := by
    rw [List.mem_map]
    refine ⟨⟨k3, a, b, "cool", false, t3⟩, ?_, by simp [partnerId]⟩
    unfold messagesOf
    rw [hD, List.mem_filter]
    exact ⟨by simp, by simp⟩
  rw [conversationJoin_filter D a b ub hub hp]
  unfold messagesOf unreadCount
  rw [hD, huid, List.filter_filter]
  have hn : ∀ m ∈ M, ¬ ((m.sender_id = a ∧ m.reciever_id = b) ∨
      (m.sender_id = b ∧ m.reciever_id = a)) := by
    intro m hm
    have hfalse := hnone m hm
    simpa [betweenUsers] using hfalse
  have hU : (List.filter
      (fun m : Message => decide (m.sender_id = b ∧ m.reciever_id = a ∧ m.is_read = false))
      (M ++ [⟨k1, a, b, "hello", false, t1⟩, ⟨k2, b, a, "hi back", false, t2⟩,
        ⟨k3, a, b, "cool", false, t3⟩])).length = 1 := by
    rw [filter_append_of_left_false _ M _ (fun m hm => by
      have hm2 := hn m hm
      simp only [decide_eq_false_iff_not]
      exact fun h => hm2 (Or.inr ⟨h.1, h.2.1⟩))]
    simp [List.filter_cons, hab, Ne.symm hab]
  have hG : List.filter
      (fun x : Message => decide (partnerId a x = b) &&
        decide (x.sender_id = a ∨ x.reciever_id = a))
      (M ++ [⟨k1, a, b, "hello", false, t1⟩, ⟨k2, b, a, "hi back", false, t2⟩,
        ⟨k3, a, b, "cool", false, t3⟩])
      = [⟨k1, a, b, "hello", false, t1⟩, ⟨k2, b, a, "hi back", false, t2⟩,
        ⟨k3, a, b, "cool", false, t3⟩] := by
    rw [filter_append_of_left_false _ M _ (fun m hm => by
      have hm2 := hn m hm
      rw [Bool.and_eq_false_iff, decide_eq_false_iff_not, decide_eq_false_iff_not]
      by_cases hs : m.sender_id = a
      · left
        intro hpart
        simp only [partnerId, hs, if_true] at hpart
        exact hm2 (Or.inl ⟨hs, hpart⟩)
      · by_cases hr : m.reciever_id = a
        · left
          intro hpart
          simp only [partnerId, hs, if_false] at hpart
          exact hm2 (Or.inr ⟨hpart, hr⟩)
        · right
          exact fun h => h.elim hs hr)]
    simp [List.filter_cons, partnerId, hab, Ne.symm hab]
  have hmax : maxCreatedAt [⟨k1, a, b, "hello", false, t1⟩, ⟨k2, b, a, "hi back", false, t2⟩,
      ⟨k3, a, b, "cool", false, t3⟩] = t3 := by
    simp only [maxCreatedAt, List.map_cons, List.map_nil, List.foldr_cons, List.foldr_nil]
    omega
  rw [hG, hmax]
  have hF : List.filter
      (fun lm : Message => decide (((lm.sender_id = a ∧ lm.reciever_id = b) ∨
        (lm.sender_id = b ∧ lm.reciever_id = a)) ∧ lm.created_at = t3))
      (M ++ [⟨k1, a, b, "hello", false, t1⟩, ⟨k2, b, a, "hi back", false, t2⟩,
        ⟨k3, a, b, "cool", false, t3⟩])
      = [⟨k3, a, b, "cool", false, t3⟩] := by
    rw [filter_append_of_left_false _ M _ (fun m hm => by
      have hm2 := hn m hm
      simp only [decide_eq_false_iff_not]
      exact fun h => hm2 h.1)]
    simp [List.filter_cons, hab, Ne.symm hab, Nat.ne_of_lt h13, Nat.ne_of_lt h23]
  rw [hF]
  simp only [List.map_cons, List.map_nil, hU]

theorem join_after_three_recipient (D : Db) (a b : Int) (ua : User) (M : List Message)
    (k1 k2 k3 : Int) (t1 t2 t3 : Nat)
    (hD : D.messages = M ++
      [⟨k1, a, b, "hello", false, t1⟩, ⟨k2, b, a, "hi back", false, t2⟩,
       ⟨k3, a, b, "cool", false, t3⟩])
    (hua : selectUser D a = [ua]) (hab : a ≠ b)
    (hnone : ∀ m ∈ M, betweenUsers a b m = false) (h13 : t1 < t3) (h23 : t2 < t3) :
    (conversationJoin D b).filter (fun r => decide (r.user_id = a))
      = [⟨a, ua.username, "cool", t3, 2⟩] := by
  have hua2 : D.users.filter (fun x => decide (x.id = a)) = [ua] := hua
  have huid : ua.id = a := by
    have hmem : ua ∈ D.users.filter (fun x => decide (x.id = a)) := by rw [hua2]; simp
    simpa using (List.mem_filter.mp hmem).2
  have hp : a ∈ (messagesOf D b).map (partnerId b) := by
    rw [List.mem_map]
    refine ⟨⟨k3, a, b, "cool", false, t3⟩, ?_, by simp [partnerId, hab]⟩
    unfold messagesOf
    rw [hD, List.mem_filter]
    exact ⟨by simp, by simp⟩
  rw [conversationJoin_filter D b a ua hua hp]
  unfold messagesOf unreadCount
  rw [hD, huid, List.filter_filter]
  have hn : ∀ m ∈ M, ¬ ((m.sender_id = a ∧ m.reciever_id = b) ∨
      (m.sender_id = b ∧ m.reciever_id = a)) := by
    intro m hm
    have hfalse := hnone m hm
    simpa [betweenUsers] using hfalse
  have hU : (List.filter
      (fun m : Message => decide (m.sender_id = a ∧ m.reciever_id = b ∧ m.is_read = false))
      (M ++ [⟨k1, a, b, "hello", false, t1⟩, ⟨k2, b, a, "hi back", false, t2⟩,
        ⟨k3, a, b, "cool", false, t3⟩])).length = 2 := by
    rw [filter_append_of_left_false _ M _ (fun m hm => by
      have hm2 := hn m hm
      simp only [decide_eq_false_iff_not]
      exact fun h => hm2 (Or.inl ⟨h.1, h.2.1⟩))]
    simp [List.filter_cons, hab, Ne.symm hab]
  have hG : List.filter
      (fun x : Message => decide (partnerId b x = a) &&
        decide (x.sender_id = b ∨ x.reciever_id = b))
      (M ++ [⟨k1, a, b, "hello", false, t1⟩, ⟨k2, b, a, "hi back", false, t2⟩,
        ⟨k3, a, b, "cool", false, t3⟩])
      = [⟨k1, a, b, "hello", false, t1⟩, ⟨k2, b, a, "hi back", false, t2⟩,
        ⟨k3, a, b, "cool", false, t3⟩] := by
    rw [filter_append_of_left_false _ M _ (fun m hm => by
      have hm2 := hn m hm
      rw [Bool.and_eq_false_iff, decide_eq_false_iff_not, decide_eq_false_iff_not]
      by_cases hs : m.sender_id = b
      · left
        intro hpart
        simp only [partnerId, hs, if_true] at hpart
        exact hm2 (Or.inr ⟨hs, hpart⟩)
      · by_cases hr : m.reciever_id = b
        · left
          intro hpart
          simp only [partnerId, hs, if_false] at hpart
          exact hm2 (Or.inl ⟨hpart, hr⟩)
        · right
          exact fun h => h.elim hs hr)]
    simp [List.filter_cons, partnerId, hab, Ne.symm hab]
  have hmax : maxCreatedAt [⟨k1, a, b, "hello", false, t1⟩, ⟨k2, b, a, "hi back", false, t2⟩,
      ⟨k3, a, b, "cool", false, t3⟩] = t3 := by
    simp only [maxCreatedAt, List.map_cons, List.map_nil, List.foldr_cons, List.foldr_nil]
    omega
  rw [hG, hmax]
  have hF : List.filter
      (fun lm : Message => decide (((lm.sender_id = b ∧ lm.reciever_id = a) ∨
        (lm.sender_id = a ∧ lm.reciever_id = b)) ∧ lm.created_at = t3))
      (M ++ [⟨k1, a, b, "hello", false, t1⟩, ⟨k2, b, a, "hi back", false, t2⟩,
        ⟨k3, a, b, "cool", false, t3⟩])
      = [⟨k3, a, b, "cool", false, t3⟩] := by
    rw [filter_append_of_left_false _ M _ (fun m hm => by
      have hm2 := hn m hm
      simp only [decide_eq_false_iff_not]
      exact fun h => hm2 (Or.symm h.1))]
    simp [List.filter_cons, hab, Ne.symm hab, Nat.ne_of_lt h13, Nat.ne_of_lt h23]
  rw [hF]
  simp only [List.map_cons, List.map_nil, hU]

theorem rowsFor_of_join (db : Db) (me p : Int) (row : ConversationRow)
    (h : (conversationJoin db me).filter (fun r => decide (r.user_id = p)) = [row]) :
    rowsFor (listConversations db me) p = [row] := by
  unfold rowsFor listConversations
  simp only
  have hperm : List.Perm
      (((conversationJoin db me).insertionSort
        (fun x y => x.last_message_time ≥ y.last_message_time)).filter
          (fun r => decide (r.user_id = p)))
      ((conversationJoin db me).filter (fun r => decide (r.user_id = p))) :=
    (List.perm_insertionSort _ _).filter _
  rw [h] at hperm
  exact List.perm_singleton.mp hperm

/-- C18, the claim as stated fails: users 1 and 2 of store db0 have no messages; after
"hello" from 1, "hi back" from 2 one tick later and "cool" from 1 one more tick later,
the conversations of user 2 show for user 1 the last message "cool" with unread_count 2
("hello" and "cool" are both unread), not 1. -/
theorem helloHiCool_unread_is_two :
    listConversations (helloHiCool db0 1 2 1 1) 2 = Reply.ok [⟨1, "u1", "cool", 2, 2⟩] ∧
      (rowsFor (listConversations (helloHiCool db0 1 2 1 1) 2) 1).map (fun r => r.unread_count)
        ≠ [1] := by
  decide

/-- C18, amended: for distinct users a and b, each with one row in users, with no message
between them in the store: after a sends "hello", b sends "hi back" and, at least one tick
of the clock later, a sends "cool" (no thread view in between), the conversations of a
show for b exactly one row, with last message "cool" (and unread_count 1), and the
conversations of b show for a exactly one row, with last message "cool" and
unread_count 2. -/
theorem helloHiCool_conversations (db : Db) (a b : Int) (d1 d2 : Nat) (ua ub : User)
    (ha0 : a ≠ 0) (hb0 : b ≠ 0) (hab : a ≠ b)
    (hua : selectUser db a = [ua]) (hub : selectUser db b = [ub])
    (hnone : ∀ m ∈ db.messages, betweenUsers a b m = false) (hd2 : 0 < d2) :
    rowsFor (listConversations (helloHiCool db a b d1 d2) a) b
        = [⟨b, ub.username, "cool", db.clock + d1 + d2, 1⟩] ∧
      rowsFor (listConversations (helloHiCool db a b d1 d2) b) a
        = [⟨a, ua.username, "cool", db.clock + d1 + d2, 2⟩] := by
  rw [helloHiCool_store db a b d1 d2 ua ub ha0 hb0 hab hua hub]
  constructor
  · apply rowsFor_of_join
    exact join_after_three_sender _ a b ub db.messages db.messagesAuto (db.messagesAuto + 1)
      (db.messagesAuto + 1 + 1) db.clock (db.clock + d1) (db.clock + d1 + d2) rfl hub hab hnone
      (by omega) (by omega)
  · apply rowsFor_of_join
    exact join_after_three_recipient _ a b ua db.messages db.messagesAuto (db.messagesAuto + 1)
      (db.messagesAuto + 1 + 1) db.clock (db.clock + d1) (db.clock + d1 + d2) rfl hua hab hnone
      (by omega) (by omega)

theorem helloHiCool_conversations_witness :
    ((1 : Int) ≠ 0 ∧ (2 : Int) ≠ 0 ∧ (1 : Int) ≠ 2 ∧ selectUser db1 1 = [⟨1, "u1"⟩] ∧
        selectUser db1 2 = [⟨2, "u2"⟩] ∧ (∀ m ∈ db1.messages, betweenUsers 1 2 m = false) ∧
        0 < 3) ∧
      (rowsFor (listConversations (helloHiCool db1 1 2 0 3) 1) 2
          = [⟨2, "u2", "cool", db1.clock + 0 + 3, 1⟩] ∧
        rowsFor (listConversations (helloHiCool db1 1 2 0 3) 2) 1
          = [⟨1, "u1", "cool", db1.clock + 0 + 3, 2⟩]) :=
  ⟨⟨by decide, by decide, by decide, by decide, by decide, by decide, by decide⟩,
    helloHiCool_conversations db1 1 2 0 3 ⟨1, "u1"⟩ ⟨2, "u2"⟩ (by decide) (by decide) (by decide)
      (by decide) (by decide) (by decide) (by decide)⟩

/-! ## Ownership -/

theorem head_filter_map {α : Type} (p : α → Bool) (f : α → α) (hpf : ∀ x, p (f x) = p x)
    (l : List α) (x : α) (h : (l.filter p).head? = some x) :
    ((l.map f).filter p).head? = some (f x) := by
  have hcomp : (p ∘ f) = p := funext hpf
  rw [List.filter_map, hcomp, List.head?_map, h]
  rfl

/-- C19, the claim as stated fails: in store db2 message 1 was sent by user 1, post 10 was
written by user 2 and comment 1, on post 10, by user 1. An edit of message 1 by user 2
with a blank text and an edit of post 10 by user 1 with a blank content are answered 400,
and a delete of comment 1 by user 2 addressed through post 11 is answered 404; none of
them is answered 403. -/
theorem non_owner_not_always_403 :
    (selectMessage db2 1).head? = some ⟨1, 1, 2, "hello", true, 4⟩ ∧
      editMessage db2 2 (some 1) "  " = (db2, Reply.error 400 "Message text required") ∧
      (selectPost db2 10).head? = some ⟨10, 2, some "first post", none, 1⟩ ∧
      updatePost db2 1 10 " " = (db2, Reply.error 400 "Content is required") ∧
      db2.comments = [⟨1, 1, 10, "nice", 3⟩] ∧
      deleteComment db2 2 (some 11) (some 1) = (db2, Reply.error 404 "Comment not found") := by
  decide

/-- C19, amended: for the message, comment and post rows the store returns for the ids of
the request, a non-blank new text and non-zero post and comment ids in the comment route:
an edit or delete of the message, a delete of the comment and an edit or delete of the post
are answered 403 with the store unchanged when the caller is not the sender or author, and
succeed when the caller is: the edit stores the trimmed text and answers with the updated
row, the delete removes the rows with that id. Before ownership is looked at, so for
every caller: an edit of the message or of the post with a text whose trimmed form is
empty is answered 400, and a delete of the comment addressed through a post that no
comment with that id is on is answered 404, the store unchanged. -/
theorem owner_only_mutations (db : Db) (u mid cid pid postId : Int) (text content : String)
    (msg : Message) (c : Comment) (post : Post)
    (hmsg : (selectMessage db mid).head? = some msg) (htext : blank text = false)
    (hpid : pid ≠ 0) (hcid : cid ≠ 0) (hc : (selectComment db cid pid).head? = some c)
    (hpost : (selectPost db postId).head? = some post) (hcontent : trim content ≠ "") :
    editMessage db u (some mid) text
        = (if msg.sender_id = u then
            (updateMessageText db mid (trim text),
              Reply.ok (some { msg with message := trim text }))
          else (db, Reply.error 403 "Not allowed to edit this message")) ∧
      deleteMessage db u (some mid)
        = (if msg.sender_id = u then (deleteMessageById db mid, Reply.ok "Message deleted")
          else (db, Reply.error 403 "Not allowed to delete this message")) ∧
      selectMessage (deleteMessageById db mid) mid = [] ∧
      deleteComment db u (some pid) (some cid)
        = (if c.user_id = u then
            (deleteCommentById db cid, Reply.ok ⟨"Comment deleted successfully", cid⟩)
          else (db, Reply.error 403 "You are not allowed to delete this comment")) ∧
      selectComment (deleteCommentById db cid) cid pid = [] ∧
      updatePost db u postId content
        = (if post.user_id = u then
            (updatePostContent db postId (trim content),
              Reply.ok (some { post with content := some (trim content) }))
          else (db, Reply.error 403 "You are not allowed to edit this post")) ∧
      deletePost db u postId
        = (if post.user_id = u then (deletePostRows db postId, Reply.ok "Post deleted successfully")
          else (db, Reply.error 403 "You are not allowed to delete this post")) ∧
      selectPost (deletePostRows db postId) postId = [] ∧
      (∀ (v : Int) (t : String), trim t = "" →
        editMessage db v (some mid) t = (db, Reply.error 400 "Message text required") ∧
        updatePost db v postId t = (db, Reply.error 400 "Content is required")) ∧
      (∀ v through : Int, through ≠ 0 →
        (∀ x ∈ db.comments, x.id = cid → x.post_id ≠ through) →
        deleteComment db v (some through) (some cid)
          = (db, Reply.error 404 "Comment not found")) := by
  have hmsgId : msg.id = mid := by
    have hmem : msg ∈ selectMessage db mid := List.mem_of_mem_head? hmsg
    simpa [selectMessage] using (List.mem_filter.mp hmem).2
  have hpostId : post.id = postId := by
    have hmem : post ∈ selectPost db postId := List.mem_of_mem_head? hpost
    simpa [selectPost] using (List.mem_filter.mp hmem).2
  refine ⟨?_, ?_, ?_, ?_, ?_, ?_, ?_, ?_, ?_, ?_⟩
  · have hnew : (selectMessage (updateMessageText db mid (trim text)) mid).head?
        = some { msg with message := trim text } := by
      have h := head_filter_map (fun m : Message => decide (m.id = mid))
        (fun m : Message => if m.id = mid then { m with message := trim text } else m)
        (fun x => by by_cases hx : x.id = mid <;> simp [hx]) db.messages msg hmsg
      dsimp only at h
      rw [if_pos hmsgId] at h
      exact h
    unfold editMessage
    cases hsel : selectMessage db mid with
    | nil => rw [hsel] at hmsg; simp at hmsg
    | cons m0 rest =>
      rw [hsel] at hmsg
      have hm0 : m0 = msg := by simpa using hmsg
      subst hm0
      by_cases hown : m0.sender_id = u
      · simp [htext, hown, hnew, hsel]
      · simp [htext, hown, hsel]
  · unfold deleteMessage
    cases hsel : selectMessage db mid with
    | nil => rw [hsel] at hmsg; simp at hmsg
    | cons m0 rest =>
      rw [hsel] at hmsg
      have hm0 : m0 = msg := by simpa using hmsg
      subst hm0
      by_cases hown : m0.sender_id = u
      · simp [hown, hsel]
      · simp [hown, hsel]
  · unfold selectMessage deleteMessageById
    rw [List.filter_eq_nil_iff]
    intro x hx hid
    have hne := (List.mem_filter.mp hx).2
    simp only [decide_eq_true_eq] at hne hid
    exact hne hid
  · unfold deleteComment
    cases hsel : selectComment db cid pid with
    | nil => rw [hsel] at hc; simp at hc
    | cons c0 rest =>
      rw [hsel] at hc
      have hc0 : c0 = c := by simpa using hc
      subst hc0
      by_cases hown : c0.user_id = u
      · simp [hpid, hcid, hown, hsel]
      · simp [hpid, hcid, hown, hsel]
  · unfold selectComment deleteCommentById
    rw [List.filter_eq_nil_iff]
    intro x hx hid
    have hne := (List.mem_filter.mp hx).2
    simp only [decide_eq_true_eq] at hne hid
    exact hne hid.1
  · have hnew : (selectPost (updatePostContent db postId (trim content)) postId).head?
        = some { post with content := some (trim content) } := by
      have h := head_filter_map (fun p : Post => decide (p.id = postId))
        (fun p : Post => if p.id = postId then { p with content := some (trim content) } else p)
        (fun x => by by_cases hx : x.id = postId <;> simp [hx]) db.posts post hpost
      dsimp only at h
      rw [if_pos hpostId] at h
      exact h
    unfold updatePost
    cases hsel : selectPost db postId with
    | nil => rw [hsel] at hpost; simp at hpost
    | cons p0 rest =>
      rw [hsel] at hpost
      have hp0 : p0 = post := by simpa using hpost
      subst hp0
      by_cases hown : p0.user_id = u
      · simp [hcontent, hown, hnew, hsel]
      · simp [hcontent, hown, hsel]
  · unfold deletePost
    cases hsel : selectPost db postId with
    | nil => rw [hsel] at hpost; simp at hpost
    | cons p0 rest =>
      rw [hsel] at hpost
      have hp0 : p0 = post := by simpa using hpost
      subst hp0
      by_cases hown : p0.user_id = u
      · simp [hown, hsel]
      · simp [hown, hsel]
  · unfold selectPost deletePostRows
    rw [List.filter_eq_nil_iff]
    intro x hx hid
    have hne := (List.mem_filter.mp hx).2
    simp only [decide_eq_true_eq] at hne hid
    exact hne hid
  · intro v t ht
    have hb : blank t = true := by
      unfold blank
      simp [ht]
    constructor
    · unfold editMessage
      dsimp only
      rw [if_pos hb]
    · unfold updatePost
      rw [if_pos ht]
  · intro v through hthrough hnone
    have hsel : selectComment db cid through = [] := by
      unfold selectComment
      rw [List.filter_eq_nil_iff]
      intro x hx hmatch
      simp only [decide_eq_true_eq] at hmatch
      exact hnone x hx hmatch.1 hmatch.2
    unfold deleteComment
    dsimp only
    rw [if_neg (not_or.mpr ⟨hthrough, hcid⟩), hsel]

theorem owner_only_mutations_witness :
    ((selectMessage db2 1).head? = some ⟨1, 1, 2, "hello", true, 4⟩ ∧ blank "ok" = false ∧
        (10 : Int) ≠ 0 ∧ (1 : Int) ≠ 0 ∧
        (selectComment db2 1 10).head? = some ⟨1, 1, 10, "nice", 3⟩ ∧
        (selectPost db2 10).head? = some ⟨10, 2, some "first post", none, 1⟩ ∧
        trim " new " ≠ "") ∧
      editMessage db2 2 (some 1) "ok" = (db2, Reply.error 403 "Not allowed to edit this message") ∧
      (updatePost db2 2 10 " new ").2
        = Reply.ok (some ⟨10, 2, some "new", none, 1⟩) :=
  ⟨⟨by decide, by decide, by decide, by decide, by decide, by decide, by decide⟩,
    (owner_only_mutations db2 2 1 1 10 10 "ok" " new " ⟨1, 1, 2, "hello", true, 4⟩
      ⟨1, 1, 10, "nice", 3⟩ ⟨10, 2, some "first post", none, 1⟩ (by decide) (by decide)
      (by decide) (by decide) (by decide) (by decide) (by decide)).1,
    by decide⟩

/-! ## The read flag of a message -/

theorem toggleLike_messages (db : Db) (fl : Faults) (u : Int) (postId : Option Int) :
    (toggleLike db fl u postId).1.messages = db.messages := by
  unfold toggleLike
  repeat' first | split | dsimp only
  all_goals rfl

theorem toggleFollow_messages (db : Db) (fl : Faults) (u : Int) (targetUserId : Option Int) :
    (toggleFollow db fl u targetUserId).1.messages = db.messages := by
  unfold toggleFollow
  repeat' first | split | dsimp only
  all_goals rfl

theorem addComment_messages (db : Db) (fl : Faults) (u : Int) (postId : Option Int) (content : String) :
    (addComment db fl u postId content).1.messages = db.messages := by
  unfold addComment
  repeat' first | split | dsimp only
  all_goals rfl

theorem deleteComment_messages (db : Db) (u : Int) (postId commentId : Option Int) :
    (deleteComment db u postId commentId).1.messages = db.messages := by
  unfold deleteComment
  repeat' first | split | dsimp only
  all_goals rfl

theorem createPost_messages (db : Db) (u : Int) (content image_url : Option String) :
    (createPost db u content image_url).1.messages = db.messages := by
  unfold createPost
  repeat' first | split | dsimp only
  all_goals rfl

theorem updatePost_messages (db : Db) (u postId : Int) (content : String) :
    (updatePost db u postId content).1.messages = db.messages := by
  unfold updatePost
  repeat' first | split | dsimp only
  all_goals rfl

theorem deletePost_messages (db : Db) (u postId : Int) :
    (deletePost db u postId).1.messages = db.messages := by
  unfold deletePost
  repeat' first | split | dsimp only
  all_goals rfl

theorem markRead_messages (db : Db) (u : Int) (notifId : Option Int) :
    (markRead db u notifId).1.messages = db.messages := by
  unfold markRead
  repeat' first | split | dsimp only
  all_goals rfl

theorem messageTrace_of_sublist (db after : Db) (u : Int)
    (h : List.Sublist after.messages db.messages) : MessageTrace db after u := by
  intro m2 hm2
  exact Or.inr ⟨m2, h.subset hm2, rfl, Or.inl rfl⟩

theorem messageTrace_of_eq (db after : Db) (u : Int) (h : after.messages = db.messages) :
    MessageTrace db after u :=
  messageTrace_of_sublist db after u (h ▸ List.Sublist.refl _)

theorem messageTrace_of_map (db after : Db) (u : Int) (f : Message → Message)
    (hf : ∀ m, (f m).id = m.id ∧
      ((f m).is_read = m.is_read ∨ ((f m).is_read = true ∧ m.reciever_id = u)))
    (h : after.messages = db.messages.map f) : MessageTrace db after u := by
  intro m2 hm2
  rw [h, List.mem_map] at hm2
  obtain ⟨m, hm, hfm⟩ := hm2
  rw [← hfm]
  exact Or.inr ⟨m, hm, (hf m).1, (hf m).2⟩

theorem markUnreadAsRead_trace (db : Db) (other u : Int) :
    MessageTrace db (markUnreadAsRead db other u) u := by
  apply messageTrace_of_map db _ u
    (fun m => if m.sender_id = other ∧ m.reciever_id = u ∧ m.is_read = false
      then { m with is_read := true } else m) _ rfl
  intro m
  dsimp only
  by_cases hcond : m.sender_id = other ∧ m.reciever_id = u ∧ m.is_read = false
  · rw [if_pos hcond]
    exact ⟨rfl, Or.inr ⟨rfl, hcond.2.1⟩⟩
  · rw [if_neg hcond]
    exact ⟨rfl, Or.inl rfl⟩

theorem markAsRead_trace (db : Db) (other u : Int) :
    MessageTrace db (markAsRead db other u) u := by
  apply messageTrace_of_map db _ u
    (fun m => if m.sender_id = other ∧ m.reciever_id = u
      then { m with is_read := true } else m) _ rfl
  intro m
  dsimp only
  by_cases hcond : m.sender_id = other ∧ m.reciever_id = u
  · rw [if_pos hcond]
    exact ⟨rfl, Or.inr ⟨rfl, hcond.2⟩⟩
  · rw [if_neg hcond]
    exact ⟨rfl, Or.inl rfl⟩

theorem updateMessageText_trace (db : Db) (mid u : Int) (text : String) :
    MessageTrace db (updateMessageText db mid text) u := by
  apply messageTrace_of_map db _ u
    (fun m => if m.id = mid then { m with message := text } else m) _ rfl
  intro m
  dsimp only
  by_cases hcond : m.id = mid
  · rw [if_pos hcond]
    exact ⟨rfl, Or.inl rfl⟩
  · rw [if_neg hcond]
    exact ⟨rfl, Or.inl rfl⟩

theorem insertMessage_trace (db : Db) (u rid : Int) (text : String) :
    MessageTrace db (insertMessage db u rid text) u := by
  intro m2 hm2
  have hm : m2 ∈ db.messages ++ [⟨db.messagesAuto, u, rid, text, false, db.clock⟩] := hm2
  rcases List.mem_append.mp hm with h | h
  · exact Or.inr ⟨m2, h, rfl, Or.inl rfl⟩
  · rw [List.mem_singleton] at h
    rw [h]
    exact Or.inl ⟨rfl, rfl⟩

theorem step_messageTrace (db : Db) (u : Int) (op : Op) : MessageTrace db (step db u op) u := by
  cases op with
  | toggleLike fl postId => exact messageTrace_of_eq db _ u (toggleLike_messages db fl u postId)
  | toggleFollow fl targetUserId =>
    exact messageTrace_of_eq db _ u (toggleFollow_messages db fl u targetUserId)
  | addComment fl postId content =>
    exact messageTrace_of_eq db _ u (addComment_messages db fl u postId content)
  | deleteComment postId commentId =>
    exact messageTrace_of_eq db _ u (deleteComment_messages db u postId commentId)
  | createPost content image_url =>
    exact messageTrace_of_eq db _ u (createPost_messages db u content image_url)
  | updatePost postId content =>
    exact messageTrace_of_eq db _ u (updatePost_messages db u postId content)
  | deletePost postId => exact messageTrace_of_eq db _ u (deletePost_messages db u postId)
  | markRead notifId => exact messageTrace_of_eq db _ u (markRead_messages db u notifId)
  | markAllRead => exact messageTrace_of_eq db _ u rfl
  | getThread otherUserId =>
    cases otherUserId with
    | none => exact messageTrace_of_eq db _ u rfl
    | some other => exact markUnreadAsRead_trace db other u
  | sendMessage reciever_id message =>
    show MessageTrace db (sendMessage db u reciever_id message).1 u
    unfold sendMessage
    repeat' split
    all_goals first
      | exact messageTrace_of_eq db _ u rfl
      | exact insertMessage_trace db u _ _
  | markMessagesRead otherUserId =>
    cases otherUserId with
    | none => exact messageTrace_of_eq db _ u rfl
    | some other => exact markAsRead_trace db other u
  | editMessage messageId message =>
    show MessageTrace db (editMessage db u messageId message).1 u
    unfold editMessage
    repeat' split
    all_goals first
      | exact messageTrace_of_eq db _ u rfl
      | exact updateMessageText_trace db _ u _
  | deleteMessage messageId =>
    show MessageTrace db (deleteMessage db u messageId).1 u
    unfold deleteMessage
    repeat' split
    all_goals first
      | exact messageTrace_of_eq db _ u rfl
      | exact messageTrace_of_sublist db _ u (List.filter_sublist _)
  | deleteThread otherUserId =>
    cases otherUserId with
    | none => exact messageTrace_of_eq db _ u rfl
    | some other => exact messageTrace_of_sublist db _ u (List.filter_sublist _)
  | deleteAccount =>
    show MessageTrace db (deleteAccount db u).1 u
    unfold deleteAccount
    repeat' split
    all_goals first
      | exact messageTrace_of_eq db _ u rfl
      | exact messageTrace_of_sublist db _ u (List.filter_sublist _)

theorem updateMessageText_frame (db : Db) (mid : Int) (text : String) :
    (updateMessageText db mid text).messages.map
        (fun m => (m.id, m.sender_id, m.reciever_id, m.is_read, m.created_at))
      = db.messages.map (fun m => (m.id, m.sender_id, m.reciever_id, m.is_read, m.created_at)) ∧
      (updateMessageText db mid text).messages.filter (fun m => decide (m.id ≠ mid))
        = db.messages.filter (fun m => decide (m.id ≠ mid)) := by
  unfold updateMessageText
  simp only
  constructor
  · rw [List.map_map]
    apply List.map_congr_left
    intro m _
    by_cases hm : m.id = mid <;> simp [hm]
  · induction db.messages with
    | nil => rfl
    | cons m ms ih =>
      by_cases hm : m.id = mid
      · simpa [List.filter_cons, hm] using ih
      · simpa [List.filter_cons, hm] using ih

/-- C20: on a store whose message ids are a key, for every request of a caller u: a
message that was read is still read afterwards if it is still there; a message that was
unread and is read afterwards has u as its recipient; and an edit of a message, by
whomever and with whatever text, leaves the id, sender, recipient, read flag and creation
time of every message, every message with another id, and every other table as they
were. -/
theorem read_flag_one_way (db : Db) (u : Int) (op : Op) (hc : MessagesConstraint db) :
    (∀ m ∈ db.messages, ∀ m2 ∈ (step db u op).messages, m2.id = m.id →
        (m.is_read = true → m2.is_read = true) ∧
        (m.is_read = false → m2.is_read = true → m.reciever_id = u)) ∧
      (∀ (messageId : Option Int) (text : String),
        (editMessage db u messageId text).1.messages.map
            (fun m => (m.id, m.sender_id, m.reciever_id, m.is_read, m.created_at))
          = db.messages.map
              (fun m => (m.id, m.sender_id, m.reciever_id, m.is_read, m.created_at)) ∧
        (∀ mid, messageId = some mid →
          (editMessage db u messageId text).1.messages.filter (fun m => decide (m.id ≠ mid))
            = db.messages.filter (fun m => decide (m.id ≠ mid))) ∧
        (editMessage db u messageId text).1
          = { db with messages := (editMessage db u messageId text).1.messages }) := by
  obtain ⟨hid, hlt⟩ := hc
  have inj := List.inj_on_of_nodup_map hid
  constructor
  · intro m hm m2 hm2 hsame
    rcases step_messageTrace db u op m2 hm2 with ⟨hnew, _⟩ | ⟨m0, hm0, hid0, hflag⟩
    · have hlt2 := hlt m hm
      rw [← hsame, hnew] at hlt2
      exact absurd hlt2 (lt_irrefl _)
    · have hmm : m0 = m := inj hm0 hm (by rw [← hid0, hsame])
      subst hmm
      constructor
      · intro hread
        rcases hflag with h | h
        · rw [h, hread]
        · exact h.1
      · intro hunread hread2
        rcases hflag with h | h
        · rw [h, hunread] at hread2
          exact absurd hread2 (by decide)
        · exact h.2
  · intro messageId text
    unfold editMessage
    repeat' first | split | dsimp only
    all_goals first
      | exact ⟨rfl, fun _ _ => rfl, rfl⟩
      | refine ⟨(updateMessageText_frame db _ _).1, ?_, rfl⟩
        intro mid hmid
        cases hmid
        exact (updateMessageText_frame db _ _).2

theorem read_flag_one_way_witness :
    MessagesConstraint db2 ∧
      ((∀ m ∈ db2.messages, ∀ m2 ∈ (step db2 1 (Op.getThread (some 2))).messages,
          m2.id = m.id →
          (m.is_read = true → m2.is_read = true) ∧
          (m.is_read = false → m2.is_read = true → m.reciever_id = 1)) ∧
      (∀ (messageId : Option Int) (text : String),
        (editMessage db2 1 messageId text).1.messages.map
            (fun m => (m.id, m.sender_id, m.reciever_id, m.is_read, m.created_at))
          = db2.messages.map
              (fun m => (m.id, m.sender_id, m.reciever_id, m.is_read, m.created_at)) ∧
        (∀ mid, messageId = some mid →
          (editMessage db2 1 messageId text).1.messages.filter (fun m => decide (m.id ≠ mid))
            = db2.messages.filter (fun m => decide (m.id ≠ mid))) ∧
        (editMessage db2 1 messageId text).1
          = { db2 with messages := (editMessage db2 1 messageId text).1.messages })) :=
  ⟨by decide, read_flag_one_way db2 1 (Op.getThread (some 2)) (by decide)⟩

/-! ## Deleting a thread -/

theorem betweenUsers_comm (a b : Int) (m : Message) : betweenUsers a b m = betweenUsers b a m := by
  unfold betweenUsers
  rw [decide_eq_decide]
  exact Or.comm

/-- C21: after deleteThread(me, partner) no message between the two users remains,
whoever sent it and whether or not it was read; the messages left are the other messages
of the store, unchanged and in their order, and no other table changes; and
deleteThread(partner, me) leaves the same store. -/
theorem deleteThread_purges (db : Db) (me partner : Int) :
    (deleteThread db me (some partner)).2 = Reply.ok "Chat deleted" ∧
      (∀ m ∈ (deleteThread db me (some partner)).1.messages,
        ¬ ((m.sender_id = me ∧ m.reciever_id = partner) ∨
          (m.sender_id = partner ∧ m.reciever_id = me))) ∧
      (deleteThread db me (some partner)).1.messages
        = db.messages.filter (fun m =>
            decide (¬ ((m.sender_id = me ∧ m.reciever_id = partner) ∨
              (m.sender_id = partner ∧ m.reciever_id = me)))) ∧
      (deleteThread db me (some partner)).1
        = { db with messages := (deleteThread db me (some partner)).1.messages } ∧
      (deleteThread db me (some partner)).1 = (deleteThread db partner (some me)).1 := by
  have hmsgs : (deleteThread db me (some partner)).1.messages
      = db.messages.filter (fun m =>
          decide (¬ ((m.sender_id = me ∧ m.reciever_id = partner) ∨
            (m.sender_id = partner ∧ m.reciever_id = me)))) := by
    show db.messages.filter (fun m => decide (¬ betweenUsers me partner m = true)) = _
    apply List.filter_congr
    intro m _
    simp [betweenUsers]
  refine ⟨rfl, ?_, hmsgs, rfl, ?_⟩
  · intro m hm
    rw [hmsgs] at hm
    have hkeep := (List.mem_filter.mp hm).2
    rw [decide_eq_true_eq] at hkeep
    exact hkeep
  · show deleteMessagesBetween db me partner = deleteMessagesBetween db partner me
    unfold deleteMessagesBetween
    have hfilter : db.messages.filter (fun m => decide (¬ betweenUsers me partner m = true))
        = db.messages.filter (fun m => decide (¬ betweenUsers partner me m = true)) := by
      apply List.filter_congr
      intro m _
      rw [betweenUsers_comm me partner m]
    rw [hfilter]

/-! ## Marking notifications read -/

theorem markNotificationRead_matched (db : Db) (n u : Int) :
    (selectOwnNotification (markNotificationRead db n u) n u).length
      = (selectOwnNotification db n u).length := by
  unfold selectOwnNotification markNotificationRead
  simp only
  rw [List.filter_map, List.length_map]
  congr 1
  apply List.filter_congr
  intro x _
  by_cases hx : x.id = n ∧ x.user_id = u
  · simp only [Function.comp_apply, if_pos hx]
  · simp only [Function.comp_apply, if_neg hx]

theorem markNotificationRead_idem (db : Db) (n u : Int) :
    markNotificationRead (markNotificationRead db n u) n u = markNotificationRead db n u := by
  unfold markNotificationRead
  simp only [List.map_map]
  congr 1
  apply List.map_congr_left
  intro x _
  by_cases hx : x.id = n ∧ x.user_id = u
  · simp only [Function.comp_apply, if_pos hx]
  · simp only [Function.comp_apply, if_neg hx]

theorem markNotificationRead_of_no_match (db : Db) (n u : Int)
    (h : ¬ ∃ x ∈ db.notifications, x.id = n ∧ x.user_id = u) :
    markNotificationRead db n u = db := by
  have hmap : db.notifications.map (fun x =>
      if x.id = n ∧ x.user_id = u then { x with is_read := true } else x) = db.notifications := by
    conv_rhs => rw [← List.map_id db.notifications]
    apply List.map_congr_left
    intro x hx
    rw [if_neg (fun hc => h ⟨x, hx, hc⟩)]
    rfl
  unfold markNotificationRead
  rw [hmap]

/-- C22, the claim as stated fails: no notification of store db3 has id 0, and markRead of
id 0 by user 2 is answered 400 (invalid notification id), not 404. -/
theorem markRead_zero_not_404 :
    (∀ x ∈ db3.notifications, x.id ≠ 0) ∧
      markRead db3 2 (some 0) = (db3, Reply.error 400 "Invalid notification id") ∧
      (markRead db3 2 (some 0)).2.status ≠ 404 := by
  decide

/-- C22, amended: for every store and caller, markRead with id 0 or with an id that is
not a number is answered 400 and leaves the store unchanged; for a notification id n that
is not 0, markRead(u, n) is answered 404 exactly when the store has no notification with
id n owned by u, and then the store is unchanged; otherwise it is answered 200, the store
is the one before with the read flag set on the notifications with id n owned by u and
nothing else changed, whether or not they were read already, and a second call has the
same answer and leaves the same store. -/
theorem markRead_spec (db : Db) (u n : Int) (hn : n ≠ 0) :
    markRead db u (some 0) = (db, Reply.error 400 "Invalid notification id") ∧
      markRead db u none = (db, Reply.error 400 "Invalid notification id") ∧
      ((markRead db u (some n)).2.status = 404 ↔
        ¬ ∃ x ∈ db.notifications, x.id = n ∧ x.user_id = u) ∧
      ((¬ ∃ x ∈ db.notifications, x.id = n ∧ x.user_id = u) →
        markRead db u (some n) = (db, Reply.error 404 "Notification not found or not yours")) ∧
      ((∃ x ∈ db.notifications, x.id = n ∧ x.user_id = u) →
        (markRead db u (some n)).2 = Reply.ok ⟨"Notification marked as read", n⟩ ∧
        (markRead db u (some n)).1
          = { db with
              notifications := db.notifications.map (fun x =>
                if x.id = n ∧ x.user_id = u then { x with is_read := true } else x) } ∧
        (∀ x ∈ (markRead db u (some n)).1.notifications,
          x.id = n → x.user_id = u → x.is_read = true) ∧
        markRead (markRead db u (some n)).1 u (some n) = markRead db u (some n)) := by
  have hlen : (selectOwnNotification db n u).length = 0 ↔
      ¬ ∃ x ∈ db.notifications, x.id = n ∧ x.user_id = u := by
    rw [List.length_eq_zero]
    unfold selectOwnNotification
    rw [List.filter_eq_nil_iff]
    constructor
    · rintro h ⟨x, hx, hc⟩
      exact h x hx (by simpa using hc)
    · intro h x hx hc
      exact h ⟨x, hx, by simpa using hc⟩
  have hmiss : (¬ ∃ x ∈ db.notifications, x.id = n ∧ x.user_id = u) →
      markRead db u (some n) = (db, Reply.error 404 "Notification not found or not yours") := by
    intro h
    unfold markRead
    simp only [hn, if_false, hlen.mpr h, if_true]
    rw [markNotificationRead_of_no_match db n u h]
  have hhit : (∃ x ∈ db.notifications, x.id = n ∧ x.user_id = u) →
      markRead db u (some n)
        = (markNotificationRead db n u, Reply.ok ⟨"Notification marked as read", n⟩) := by
    intro h
    have hpos : ¬ (selectOwnNotification db n u).length = 0 := fun h0 => (hlen.mp h0) h
    unfold markRead
    simp only [hn, if_false, hpos]
  refine ⟨rfl, rfl, ?_, hmiss, ?_⟩
  · constructor
    · intro hstatus hex
      rw [hhit hex] at hstatus
      simp [Reply.status] at hstatus
    · intro h
      rw [hmiss h]
      rfl
  · intro hex
    rw [hhit hex]
    refine ⟨rfl, rfl, ?_, ?_⟩
    · intro x hx hid hown
      have hx2 : x ∈ db.notifications.map (fun y =>
          if y.id = n ∧ y.user_id = u then { y with is_read := true } else y) := hx
      rw [List.mem_map] at hx2
      obtain ⟨y, _, hy⟩ := hx2
      by_cases hc : y.id = n ∧ y.user_id = u
      · rw [if_pos hc] at hy
        rw [← hy]
      · rw [if_neg hc] at hy
        rw [hy] at hc
        exact absurd ⟨hid, hown⟩ hc
    · have hpos : ¬ (selectOwnNotification (markNotificationRead db n u) n u).length = 0 := by
        rw [markNotificationRead_matched]
        exact fun h0 => (hlen.mp h0) hex
      show markRead (markNotificationRead db n u) u (some n) = _
      unfold markRead
      simp only [hn, if_false, hpos, markNotificationRead_idem]

theorem markRead_spec_witness :
    (2 : Int) ≠ 0 ∧
      (markRead db3 2 (some 0) = (db3, Reply.error 400 "Invalid notification id") ∧
        markRead db3 2 none = (db3, Reply.error 400 "Invalid notification id") ∧
        ((markRead db3 2 (some 2)).2.status = 404 ↔
          ¬ ∃ x ∈ db3.notifications, x.id = 2 ∧ x.user_id = 2) ∧
        ((¬ ∃ x ∈ db3.notifications, x.id = 2 ∧ x.user_id = 2) →
          markRead db3 2 (some 2)
            = (db3, Reply.error 404 "Notification not found or not yours")) ∧
        ((∃ x ∈ db3.notifications, x.id = 2 ∧ x.user_id = 2) →
          (markRead db3 2 (some 2)).2 = Reply.ok ⟨"Notification marked as read", 2⟩ ∧
          (markRead db3 2 (some 2)).1
            = { db3 with
                notifications := db3.notifications.map (fun x =>
                  if x.id = 2 ∧ x.user_id = 2 then { x with is_read := true } else x) } ∧
          (∀ x ∈ (markRead db3 2 (some 2)).1.notifications,
            x.id = 2 → x.user_id = 2 → x.is_read = true) ∧
          markRead (markRead db3 2 (some 2)).1 2 (some 2) = markRead db3 2 (some 2))) :=
  ⟨by decide, markRead_spec db3 2 2 (by decide)⟩

theorem markAllNotificationsRead_notifications (db : Db) (u : Int) :
    (markAllNotificationsRead db u).notifications
      = db.notifications.map (fun x =>
          if x.user_id = u then { x with is_read := true } else x) := by
  unfold markAllNotificationsRead
  simp only
  apply List.map_congr_left
  intro x _
  by_cases hown : x.user_id = u
  · rw [if_pos hown]
    by_cases hr : x.is_read = false
    · rw [if_pos ⟨hown, hr⟩]
    · have hrt : x.is_read = true := by simpa using hr
      rw [if_neg (fun h => hr h.2)]
      cases x
      simp only at hrt
      simp [hrt]
  · rw [if_neg hown, if_neg (fun h => hown h.1)]

/-- C23: markAllRead(u) is answered 200 with, as count, the number of notifications owned
by u that were unread before the call (possibly 0); the store it leaves is the one before
with the read flag set on every notification owned by u and nothing else changed, so
every notification owned by u is read and the notifications of other users are as they
were. -/
theorem markAllRead_spec (db : Db) (u : Int) :
    (markAllRead db u).2
        = Reply.ok ⟨"All notifications marked as read",
            (db.notifications.filter
              (fun x => decide (x.user_id = u ∧ x.is_read = false))).length⟩ ∧
      (markAllRead db u).1
        = { db with
            notifications := db.notifications.map (fun x =>
              if x.user_id = u then { x with is_read := true } else x) } ∧
      (∀ x ∈ (markAllRead db u).1.notifications, x.user_id = u → x.is_read = true) ∧
      (∀ x ∈ db.notifications, x.user_id ≠ u → x ∈ (markAllRead db u).1.notifications) := by
  have hstore : (markAllRead db u).1 = markAllNotificationsRead db u := rfl
  have hn := markAllNotificationsRead_notifications db u
  refine ⟨rfl, ?_, ?_, ?_⟩
  · rw [hstore]
    have hform : markAllNotificationsRead db u
        = { db with notifications := (markAllNotificationsRead db u).notifications } := rfl
    rw [hform, hn]
  · intro x hx hown
    rw [hstore, hn, List.mem_map] at hx
    obtain ⟨y, _, hy⟩ := hx
    by_cases hc : y.user_id = u
    · rw [if_pos hc] at hy
      rw [← hy]
    · rw [if_neg hc] at hy
      rw [hy] at hc
      exact absurd hown hc
  · intro x hx hother
    rw [hstore, hn, List.mem_map]
    exact ⟨x, hx, by rw [if_neg hother]⟩

/-! ## The notification list -/

theorem length_filter_key_le_one {α κ : Type} [DecidableEq κ] (key : α → κ) (k : κ) :
    ∀ l : List α, (l.map key).Nodup → (l.filter (fun x => decide (key x = k))).length ≤ 1 := by
  intro l
  induction l with
  | nil => intro _; simp
  | cons a l ih =>
    intro hnd
    rw [List.map_cons, List.nodup_cons] at hnd
    by_cases ha : key a = k
    · have hnil : l.filter (fun x => decide (key x = k)) = [] := by
        rw [List.filter_eq_nil_iff]
        intro x hx hxk
        simp only [decide_eq_true_eq] at hxk
        exact hnd.1 (by rw [ha, ← hxk]; exact List.mem_map_of_mem key hx)
      rw [@List.filter_cons_of_pos α (fun x => decide (key x = k)) a l (by simpa using ha), hnil]
      simp
    · rw [@List.filter_cons_of_neg α (fun x => decide (key x = k)) a l (by simpa using ha)]
      exact ih hnd.2

theorem leftJoin_of_length_le_one {β : Type} (rows : List β) (h : rows.length ≤ 1) :
    leftJoin rows = [rows.head?] := by
  cases rows with
  | nil => rfl
  | cons x xs =>
    cases xs with
    | nil => rfl
    | cons y ys => simp at h

theorem flatMap_eq_map_of_singleton {α β : Type} (f : α → List β) (g : α → β) :
    ∀ l : List α, (∀ x ∈ l, f x = [g x]) → l.flatMap f = l.map g := by
  intro l
  induction l with
  | nil => intro _; rfl
  | cons a l ih =>
    intro h
    rw [List.flatMap_cons, List.map_cons, h a (List.mem_cons_self _ _),
      ih (fun x hx => h x (List.mem_cons_of_mem _ hx))]
    rfl

/-- When the ids of users, posts and comments are keys, the joins of the notifications
query give one row per notification of the owner. -/
theorem notificationJoin_eq_map (db : Db) (u : Int) (hk : JoinKeys db) :
    notificationJoin db u
      = (db.notifications.filter (fun n => decide (n.user_id = u))).map (enrich db) := by
  obtain ⟨hu, hp, hc⟩ := hk
  have hp2 : (db.posts.map (fun p => some p.id)).Nodup := by
    have hmap : db.posts.map (fun p => some p.id) = (db.posts.map (fun p => p.id)).map some := by
      rw [List.map_map]
      rfl
    rw [hmap]
    exact hp.map (Option.some_injective _)
  have hc2 : (db.comments.map (fun c => some c.id)).Nodup := by
    have hmap : db.comments.map (fun c => some c.id)
        = (db.comments.map (fun c => c.id)).map some := by
      rw [List.map_map]
      rfl
    rw [hmap]
    exact hc.map (Option.some_injective _)
  unfold notificationJoin
  apply flatMap_eq_map_of_singleton
  intro n _
  rw [leftJoin_of_length_le_one _ (length_filter_key_le_one (fun a : User => a.id) n.actor_id
      db.users hu),
    leftJoin_of_length_le_one _ (length_filter_key_le_one (fun p : Post => some p.id) n.post_id
      db.posts hp2),
    leftJoin_of_length_le_one _ (length_filter_key_le_one (fun c : Comment => some c.id)
      n.comment_id db.comments hc2)]
  rfl

/-- C24: when the ids of users, posts and comments are keys, listNotifications(u) is
answered 200 with the first 100 rows of the list that holds one row for each notification
owned by u, newest first: every row shows a notification owned by u, the rows are in
descending order of creation time, there are at most 100 (all of them when u owns no more
than 100), and every row is at least as new as every row cut off. A notification whose
actor, post or comment is not in the store keeps its row, with the columns of the missing
partner absent. -/
theorem listNotifications_spec (db : Db) (u : Int) (hk : JoinKeys db) :
    listNotifications db u
        = Reply.ok ((((db.notifications.filter (fun n => decide (n.user_id = u))).map
            (enrich db)).insertionSort (fun x y => x.created_at ≥ y.created_at)).take 100) ∧
      List.Perm
        (((db.notifications.filter (fun n => decide (n.user_id = u))).map
          (enrich db)).insertionSort (fun x y => x.created_at ≥ y.created_at))
        ((db.notifications.filter (fun n => decide (n.user_id = u))).map (enrich db)) ∧
      (∀ rows, listNotifications db u = Reply.ok rows →
        (∀ v ∈ rows, ∃ n ∈ db.notifications, n.user_id = u ∧ v = enrich db n) ∧
        List.Sorted (fun x y : NotificationView => x.created_at ≥ y.created_at) rows ∧
        rows.length
          = min 100 (db.notifications.filter (fun n => decide (n.user_id = u))).length ∧
        (∀ v ∈ rows, ∀ w ∈ (((db.notifications.filter (fun n => decide (n.user_id = u))).map
            (enrich db)).insertionSort (fun x y => x.created_at ≥ y.created_at)).drop 100,
          v.created_at ≥ w.created_at)) ∧
      (∀ n : Notification,
        ((∀ a ∈ db.users, a.id ≠ n.actor_id) →
          (enrich db n).actor_id = none ∧ (enrich db n).actor_username = none) ∧
        ((∀ p ∈ db.posts, some p.id ≠ n.post_id) →
          (enrich db n).post_content = none ∧ (enrich db n).post_image_url = none) ∧
        ((∀ c ∈ db.comments, some c.id ≠ n.comment_id) →
          (enrich db n).comment_content = none) ∧
        (enrich db n).id = n.id ∧ (enrich db n).type = n.type ∧
        (enrich db n).is_read = n.is_read ∧ (enrich db n).created_at = n.created_at) := by
  haveI : IsTotal NotificationView (fun x y => x.created_at ≥ y.created_at) :=
    ⟨fun x y => Nat.le_total y.created_at x.created_at⟩
  haveI : IsTrans NotificationView (fun x y => x.created_at ≥ y.created_at) :=
    ⟨fun _ _ _ hxy hyz => Nat.le_trans hyz hxy⟩
  have hreply : listNotifications db u
      = Reply.ok ((((db.notifications.filter (fun n => decide (n.user_id = u))).map
          (enrich db)).insertionSort (fun x y => x.created_at ≥ y.created_at)).take 100) := by
    unfold listNotifications
    rw [notificationJoin_eq_map db u hk]
  have hperm := List.perm_insertionSort (fun x y : NotificationView => x.created_at ≥ y.created_at)
    ((db.notifications.filter (fun n => decide (n.user_id = u))).map (enrich db))
  have hsorted := List.sorted_insertionSort
    (fun x y : NotificationView => x.created_at ≥ y.created_at)
    ((db.notifications.filter (fun n => decide (n.user_id = u))).map (enrich db))
  refine ⟨hreply, hperm, ?_, ?_⟩
  · intro rows hrows
    rw [hreply] at hrows
    have hr : rows = (((db.notifications.filter (fun n => decide (n.user_id = u))).map
        (enrich db)).insertionSort (fun x y => x.created_at ≥ y.created_at)).take 100 := by
      injection hrows with h
      exact h.symm
    subst hr
    refine ⟨?_, ?_, ?_, ?_⟩
    · intro v hv
      have hv2 := hperm.subset ((List.take_sublist _ _).subset hv)
      rw [List.mem_map] at hv2
      obtain ⟨n, hn, hnv⟩ := hv2
      rw [List.mem_filter] at hn
      exact ⟨n, hn.1, by simpa using hn.2, hnv.symm⟩
    · exact List.Pairwise.sublist (List.take_sublist _ _) hsorted
    · rw [List.length_take, hperm.length_eq, List.length_map]
    · intro v hv w hw
      have hsplit := hsorted
      rw [← List.take_append_drop 100 (((db.notifications.filter
        (fun n => decide (n.user_id = u))).map (enrich db)).insertionSort
          (fun x y => x.created_at ≥ y.created_at))] at hsplit
      exact (List.pairwise_append.mp hsplit).2.2 v hv w hw
  · intro n
    refine ⟨?_, ?_, ?_, rfl, rfl, rfl, rfl⟩
    · intro h
      have hnil : db.users.filter (fun a => decide (a.id = n.actor_id)) = [] := by
        rw [List.filter_eq_nil_iff]
        intro a ha hid
        exact h a ha (by simpa using hid)
      unfold enrich notificationView
      simp [hnil]
    · intro h
      have hnil : db.posts.filter (fun p => decide (some p.id = n.post_id)) = [] := by
        rw [List.filter_eq_nil_iff]
        intro p hp hid
        exact h p hp (by simpa using hid)
      unfold enrich notificationView
      simp [hnil]
    · intro h
      have hnil : db.comments.filter (fun c => decide (some c.id = n.comment_id)) = [] := by
        rw [List.filter_eq_nil_iff]
        intro c hc hid
        exact h c hc (by simpa using hid)
      unfold enrich notificationView
      simp [hnil]

theorem listNotifications_spec_witness :
    JoinKeys db3 ∧
      listNotifications db3 2
        = Reply.ok ((((db3.notifications.filter (fun n => decide (n.user_id = 2))).map
            (enrich db3)).insertionSort (fun x y => x.created_at ≥ y.created_at)).take 100) :=
  ⟨by decide, (listNotifications_spec db3 2 (by decide)).1⟩

/-! ## Comments -/

/-- The store and reply of a comment request that passes the checks, whether or not the
notification write rejects. -/
theorem addComment_store (db : Db) (u pid : Int) (text : String) (nf : Bool) (post : Post)
    (usr : User) (hpid : pid ≠ 0) (htext : trim text ≠ "")
    (hpost : (selectPost db pid).head? = some post)
    (husr : (selectUser db u).head? = some usr) (hc : CommentsConstraint db) :
    addComment db ⟨false, nf⟩ u (some pid) text
      = (if nf then insertComment db u pid (trim text)
          else insertCommentNotification (insertComment db u pid (trim text)) post.user_id u pid
            db.commentsAuto,
         Reply.created ⟨db.commentsAuto, u, usr.username, trim text, db.clock⟩) := by
  have hold : db.comments.filter (fun c => decide (c.id = db.commentsAuto)) = [] := by
    rw [List.filter_eq_nil_iff]
    intro c hmem hid
    simp only [decide_eq_true_eq] at hid
    exact absurd hid (ne_of_lt (hc c hmem))
  cases hsel : selectPost db pid with
  | nil => rw [hsel] at hpost; simp at hpost
  | cons p0 ps =>
    rw [hsel] at hpost
    have hp0 : p0 = post := by simpa using hpost
    subst hp0
    cases hus : selectUser db u with
    | nil => rw [hus] at husr; simp at husr
    | cons u0 us =>
      rw [hus] at husr
      have hu0 : u0 = usr := by simpa using husr
      subst hu0
      have hus2 : db.users.filter (fun x => decide (x.id = u)) = u0 :: us := hus
      have hview : ∀ d : Db, d.users = db.users →
          d.comments = db.comments ++ [⟨db.commentsAuto, u, pid, trim text, db.clock⟩] →
          selectCommentView d db.commentsAuto
            = (u0 :: us).map (fun x =>
                (⟨db.commentsAuto, u, x.username, trim text, db.clock⟩ : CommentView)) := by
        intro d hdu hdc
        unfold selectCommentView
        rw [hdu, hdc, List.filter_append, hold]
        simp [hus2]
      unfold addComment
      simp only [hpid, if_false, htext, hsel]
      cases nf
      · simp only [Bool.false_eq_true, if_false]
        rw [hview (insertCommentNotification (insertComment db u pid (trim text)) p0.user_id u
          pid db.commentsAuto) rfl rfl]
        rfl
      · simp only [if_true]
        rw [hview (insertComment db u pid (trim text)) rfl rfl]
        rfl

/-- C25: for an existing post, a text whose trimmed form is not empty, a caller who has a
row in users and comment ids issued below the counter: addComment is answered 201 with
the new comment (its id, author u, the name of the author, the trimmed text, its
time); it appends that comment (author u, post pid, trimmed text) to the comments and
appends one notification with owner = author of the post, actor u, kind comment, post
pid, comment = the new comment and read = false, whether or not u is the author of the
post; and when the notification write rejects the answer and the comment are the same and
the notifications are unchanged. -/
theorem addComment_spec (db : Db) (u pid : Int) (text : String) (post : Post) (usr : User)
    (hpid : pid ≠ 0) (htext : trim text ≠ "")
    (hpost : (selectPost db pid).head? = some post)
    (husr : (selectUser db u).head? = some usr) (hc : CommentsConstraint db) :
    (addComment db noFaults u (some pid) text).2
        = Reply.created ⟨db.commentsAuto, u, usr.username, trim text, db.clock⟩ ∧
      (addComment db noFaults u (some pid) text).1.comments
        = db.comments ++ [⟨db.commentsAuto, u, pid, trim text, db.clock⟩] ∧
      (addComment db noFaults u (some pid) text).1.notifications
        = db.notifications ++
          [⟨db.notificationsAuto, post.user_id, u, NotifType.comment, some pid,
            some db.commentsAuto, false, db.clock⟩] ∧
      (addComment db ⟨false, true⟩ u (some pid) text).2
        = Reply.created ⟨db.commentsAuto, u, usr.username, trim text, db.clock⟩ ∧
      (addComment db ⟨false, true⟩ u (some pid) text).1.comments
        = db.comments ++ [⟨db.commentsAuto, u, pid, trim text, db.clock⟩] ∧
      (addComment db ⟨false, true⟩ u (some pid) text).1.notifications = db.notifications := by
  have h1 : addComment db noFaults u (some pid) text = _ :=
    addComment_store db u pid text false post usr hpid htext hpost husr hc
  have h2 := addComment_store db u pid text true post usr hpid htext hpost husr hc
  rw [h1, h2]
  exact ⟨rfl, rfl, rfl, rfl, rfl, rfl⟩

theorem addComment_spec_witness :
    ((10 : Int) ≠ 0 ∧ trim " well said " ≠ "" ∧
        (selectPost db3 10).head? = some ⟨10, 2, some "first post", none, 1⟩ ∧
        (selectUser db3 2).head? = some ⟨2, "u2"⟩ ∧ CommentsConstraint db3) ∧
      (addComment db3 noFaults 2 (some 10) " well said ").2
        = Reply.created ⟨2, 2, "u2", "well said", 9⟩ :=
  ⟨⟨by decide, by decide, by decide, by decide, by decide⟩,
    (addComment_spec db3 2 10 " well said " ⟨10, 2, some "first post", none, 1⟩ ⟨2, "u2"⟩
      (by decide) (by decide) (by decide) (by decide) (by decide)).1⟩

theorem deleteComment_by_author (db : Db) (u pid cid : Int) (c : Comment)
    (hpid : pid ≠ 0) (hcid : cid ≠ 0) (hc : (selectComment db cid pid).head? = some c)
    (hown : c.user_id = u) :
    deleteComment db u (some pid) (some cid)
      = (deleteCommentById db cid, Reply.ok ⟨"Comment deleted successfully", cid⟩) := by
  unfold deleteComment
  cases hsel : selectComment db cid pid with
  | nil => rw [hsel] at hc; simp at hc
  | cons c0 rest =>
    rw [hsel] at hc
    have hc0 : c0 = c := by simpa using hc
    subst hc0
    simp [hpid, hcid, hown, hsel]

/-- C26: when the author u deletes the comment c that the store returns for (cid, pid),
the comment ids being a key, the request is answered 200; c is gone, every other comment
is still there and nothing is added; the notifications and every other table are as they
were. In particular, after u has added a comment to an existing post and then deleted it,
the comment-notification that the addition created is still in the store. -/
theorem deleteComment_keeps_notifications (db : Db) (u pid cid : Int) (c : Comment)
    (hpid : pid ≠ 0) (hcid : cid ≠ 0) (hc : (selectComment db cid pid).head? = some c)
    (hown : c.user_id = u) (hkey : (db.comments.map (fun x => x.id)).Nodup) :
    (deleteComment db u (some pid) (some cid)).2
        = Reply.ok ⟨"Comment deleted successfully", cid⟩ ∧
      (deleteComment db u (some pid) (some cid)).1
        = { db with comments := (deleteComment db u (some pid) (some cid)).1.comments } ∧
      (deleteComment db u (some pid) (some cid)).1.notifications = db.notifications ∧
      c ∉ (deleteComment db u (some pid) (some cid)).1.comments ∧
      (∀ x ∈ db.comments, x ≠ c → x ∈ (deleteComment db u (some pid) (some cid)).1.comments) ∧
      List.Sublist (deleteComment db u (some pid) (some cid)).1.comments db.comments ∧
      (∀ (text : String) (post : Post) (usr : User), trim text ≠ "" →
        (selectPost db pid).head? = some post → (selectUser db u).head? = some usr →
        CommentsConstraint db → db.commentsAuto ≠ 0 →
        (deleteComment (addComment db noFaults u (some pid) text).1 u (some pid)
            (some db.commentsAuto)).2
          = Reply.ok ⟨"Comment deleted successfully", db.commentsAuto⟩ ∧
        (deleteComment (addComment db noFaults u (some pid) text).1 u (some pid)
            (some db.commentsAuto)).1.comments = db.comments ∧
        (deleteComment (addComment db noFaults u (some pid) text).1 u (some pid)
            (some db.commentsAuto)).1.notifications
          = db.notifications ++
            [⟨db.notificationsAuto, post.user_id, u, NotifType.comment, some pid,
              some db.commentsAuto, false, db.clock⟩]) := by
  have hcmem : c ∈ selectComment db cid pid := List.mem_of_mem_head? hc
  have hcin : c ∈ db.comments := (List.mem_filter.mp hcmem).1
  have hcid2 : c.id = cid := by
    have h := (List.mem_filter.mp hcmem).2
    simp only [decide_eq_true_eq] at h
    exact h.1
  have inj := List.inj_on_of_nodup_map hkey
  rw [deleteComment_by_author db u pid cid c hpid hcid hc hown]
  refine ⟨rfl, rfl, rfl, ?_, ?_, List.filter_sublist _, ?_⟩
  · intro hmem
    have hne := (List.mem_filter.mp hmem).2
    simp only [decide_eq_true_eq] at hne
    exact hne hcid2
  · intro x hx hxc
    refine List.mem_filter.mpr ⟨hx, ?_⟩
    simp only [decide_eq_true_eq]
    intro hxid
    exact hxc (inj hx hcin (by rw [hxid, hcid2]))
  · intro text post usr htext hpost husr hcc hauto
    have hadd : addComment db noFaults u (some pid) text = _ :=
      addComment_store db u pid text false post usr hpid htext hpost husr hcc
    rw [hadd]
    simp only [Bool.false_eq_true, if_false]
    have hold : db.comments.filter (fun x => decide (x.id = db.commentsAuto ∧ x.post_id = pid))
        = [] := by
      rw [List.filter_eq_nil_iff]
      intro x hx hid
      simp only [decide_eq_true_eq] at hid
      exact absurd hid.1 (ne_of_lt (hcc x hx))
    have hold2 : db.comments.filter (fun x => decide (x.id ≠ db.commentsAuto)) = db.comments := by
      rw [List.filter_eq_self]
      intro x hx
      simp only [decide_eq_true_eq]
      exact ne_of_lt (hcc x hx)
    have hsel : (selectComment
        (insertCommentNotification (insertComment db u pid (trim text)) post.user_id u pid
          db.commentsAuto) db.commentsAuto pid).head?
        = some ⟨db.commentsAuto, u, pid, trim text, db.clock⟩ := by
      show ((db.comments ++ [Comment.mk db.commentsAuto u pid (trim text) db.clock]).filter
        (fun x : Comment => decide (x.id = db.commentsAuto ∧ x.post_id = pid))).head? = _
      rw [List.filter_append, hold]
      simp
    rw [deleteComment_by_author _ u pid db.commentsAuto
      ⟨db.commentsAuto, u, pid, trim text, db.clock⟩ hpid hauto hsel rfl]
    refine ⟨rfl, ?_, rfl⟩
    show (db.comments ++ [Comment.mk db.commentsAuto u pid (trim text) db.clock]).filter
      (fun x : Comment => decide (x.id ≠ db.commentsAuto)) = db.comments
    rw [List.filter_append, hold2]
    simp

theorem deleteComment_keeps_notifications_witness :
    ((10 : Int) ≠ 0 ∧ (1 : Int) ≠ 0 ∧
        (selectComment db3 1 10).head? = some ⟨1, 1, 10, "nice", 4⟩ ∧
        (⟨1, 1, 10, "nice", 4⟩ : Comment).user_id = 1 ∧
        (db3.comments.map (fun x => x.id)).Nodup) ∧
      (deleteComment db3 1 (some 10) (some 1)).1.notifications = db3.notifications :=
  ⟨⟨by decide, by decide, by decide, by decide, by decide⟩,
    (deleteComment_keeps_notifications db3 1 10 1 ⟨1, 1, 10, "nice", 4⟩ (by decide) (by decide)
      (by decide) (by decide) (by decide)).2.2.1⟩

/-! ## Trimmed texts -/

theorem dropWhile_rdropWhile_dropWhile (p : Char → Bool) (l : List Char) :
    (List.rdropWhile p (l.dropWhile p)).dropWhile p = List.rdropWhile p (l.dropWhile p) := by
  obtain ⟨rest, hrest⟩ := List.rdropWhile_prefix p (l := l.dropWhile p)
  cases ht : List.rdropWhile p (l.dropWhile p) with
  | nil => rfl
  | cons x xs =>
    rw [ht] at hrest
    have hhead := List.head?_dropWhile_not p l
    rw [← hrest] at hhead
    simp only [List.cons_append, List.head?_cons] at hhead
    rw [List.dropWhile_cons_of_neg (by simp [hhead])]

theorem trim_data (s : String) :
    (trim s).data = List.rdropWhile isTrimmed (s.data.dropWhile isTrimmed) := rfl

theorem trim_idem (s : String) : trim (trim s) = trim s := by
  have hdata : (trim (trim s)).data = (trim s).data := by
    rw [trim_data (trim s), trim_data s, dropWhile_rdropWhile_dropWhile,
      List.rdropWhile_idempotent]
  exact String.ext hdata

theorem trim_ne_of_not_blank (s : String) (h : blank s = false) : trim s ≠ "" := by
  unfold blank at h
  simp only [decide_eq_false_iff_not, not_or] at h
  exact h.2

theorem blank_of_trim_empty (s : String) (h : trim s = "") : blank s = true := by
  unfold blank
  simp [h]

theorem addComment_comments (db : Db) (fl : Faults) (u : Int) (postId : Option Int)
    (text : String) :
    ∀ c ∈ (addComment db fl u postId text).1.comments,
      c ∈ db.comments ∨ (c.content = trim text ∧ trim text ≠ "") := by
  unfold addComment
  repeat' first | split | dsimp only
  all_goals
    intro c hc
    first
    | exact Or.inl hc
    | simp only [insertComment, insertCommentNotification, List.mem_append,
        List.mem_singleton] at hc
      rcases hc with h | h
      · exact Or.inl h
      · rw [h]
        exact Or.inr ⟨rfl, by assumption⟩

theorem sendMessage_new_messages (db : Db) (u : Int) (reciever_id : Option Int)
    (text : String) :
    ∀ m ∈ (sendMessage db u reciever_id text).1.messages,
      m ∈ db.messages ∨ (m.message = trim text ∧ trim text ≠ "") := by
  intro m hm
  cases reciever_id with
  | none => exact Or.inl hm
  | some rid =>
    unfold sendMessage at hm
    dsimp only at hm
    by_cases hg : rid = 0 ∨ blank text = true
    · rw [if_pos hg] at hm
      exact Or.inl hm
    · have hb : blank text = false := by
        cases hbl : blank text with
        | false => rfl
        | true => exact absurd (Or.inr hbl) hg
      rw [if_neg hg] at hm
      by_cases hs : rid = u
      · rw [if_pos hs] at hm
        exact Or.inl hm
      · rw [if_neg hs] at hm
        cases hsel : selectUser db rid with
        | nil =>
          rw [hsel] at hm
          exact Or.inl hm
        | cons x xs =>
          rw [hsel] at hm
          have hm2 : m ∈ db.messages ++
              [Message.mk db.messagesAuto u rid (trim text) false db.clock] := hm
          rcases List.mem_append.mp hm2 with h | h
          · exact Or.inl h
          · rw [List.mem_singleton] at h
            rw [h]
            exact Or.inr ⟨rfl, trim_ne_of_not_blank text hb⟩

theorem editMessage_new_messages (db : Db) (u : Int) (messageId : Option Int) (text : String) :
    ∀ m ∈ (editMessage db u messageId text).1.messages,
      m ∈ db.messages ∨ (m.message = trim text ∧ trim text ≠ "") := by
  intro m hm
  cases messageId with
  | none => exact Or.inl hm
  | some mid =>
    unfold editMessage at hm
    dsimp only at hm
    by_cases hg : blank text = true
    · rw [if_pos hg] at hm
      exact Or.inl hm
    · have hb : blank text = false := by
        cases hbl : blank text with
        | false => rfl
        | true => exact absurd hbl hg
      rw [if_neg hg] at hm
      cases hsel : selectMessage db mid with
      | nil =>
        rw [hsel] at hm
        exact Or.inl hm
      | cons msg rest =>
        rw [hsel] at hm
        by_cases hown : msg.sender_id ≠ u
        · simp only [if_pos hown] at hm
          exact Or.inl hm
        · simp only [if_neg hown] at hm
          have hm2 : m ∈ db.messages.map (fun m0 : Message =>
              if m0.id = mid then { m0 with message := trim text } else m0) := hm
          rw [List.mem_map] at hm2
          obtain ⟨m0, hm0, hmap⟩ := hm2
          by_cases hid : m0.id = mid
          · rw [if_pos hid] at hmap
            rw [← hmap]
            exact Or.inr ⟨rfl, trim_ne_of_not_blank text hb⟩
          · rw [if_neg hid] at hmap
            rw [← hmap]
            exact Or.inl hm0

theorem sendMessage_comments (db : Db) (u : Int) (reciever_id : Option Int) (text : String) :
    (sendMessage db u reciever_id text).1.comments = db.comments := by
  unfold sendMessage
  repeat' first | split | dsimp only
  all_goals rfl

theorem editMessage_comments (db : Db) (u : Int) (messageId : Option Int) (text : String) :
    (editMessage db u messageId text).1.comments = db.comments := by
  unfold editMessage
  repeat' first | split | dsimp only
  all_goals rfl

theorem blank_text_rejected (db : Db) (fl : Faults) (u : Int)
    (postId reciever_id messageId : Option Int) (text : String) (h : trim text = "") :
    (addComment db fl u postId text).1 = db ∧
      (addComment db fl u postId text).2.status = 400 ∧
      (sendMessage db u reciever_id text).1 = db ∧
      (sendMessage db u reciever_id text).2.status = 400 ∧
      (editMessage db u messageId text).1 = db ∧
      (editMessage db u messageId text).2.status = 400 := by
  have hb : blank text = true := blank_of_trim_empty text h
  refine ⟨?_, ?_, ?_, ?_, ?_, ?_⟩
  · unfold addComment
    cases postId with
    | none => rfl
    | some pid => by_cases hp : pid = 0 <;> simp [hp, h]
  · unfold addComment
    cases postId with
    | none => rfl
    | some pid => by_cases hp : pid = 0 <;> simp [hp, h, Reply.status]
  · unfold sendMessage
    cases reciever_id with
    | none => rfl
    | some rid => simp [hb]
  · unfold sendMessage
    cases reciever_id with
    | none => rfl
    | some rid => simp [hb, Reply.status]
  · unfold editMessage
    cases messageId with
    | none => rfl
    | some mid => simp [hb]
  · unfold editMessage
    cases messageId with
    | none => rfl
    | some mid => simp [hb, Reply.status]

/-- C27: the predicate 'every comment and every message has a non-empty text equal to its
trimmed form' is preserved by addComment, sendMessage and editMessage, for every caller,
parameters and rejected writes. Each of them answers 400 and leaves the store unchanged
when the text is empty or only white space (its trimmed form is empty); and every comment
or message text that one of them writes is the trimmed form of the text of the request. -/
theorem texts_stay_trimmed (db : Db) (fl : Faults) (u : Int)
    (postId reciever_id messageId : Option Int) (text : String) (h : TextsTrimmed db) :
    TextsTrimmed (addComment db fl u postId text).1 ∧
      TextsTrimmed (sendMessage db u reciever_id text).1 ∧
      TextsTrimmed (editMessage db u messageId text).1 ∧
      (trim text = "" →
        (addComment db fl u postId text).1 = db ∧
        (addComment db fl u postId text).2.status = 400 ∧
        (sendMessage db u reciever_id text).1 = db ∧
        (sendMessage db u reciever_id text).2.status = 400 ∧
        (editMessage db u messageId text).1 = db ∧
        (editMessage db u messageId text).2.status = 400) ∧
      (∀ c ∈ (addComment db fl u postId text).1.comments,
        c ∈ db.comments ∨ c.content = trim text) ∧
      (∀ m ∈ (sendMessage db u reciever_id text).1.messages,
        m ∈ db.messages ∨ m.message = trim text) ∧
      (∀ m ∈ (editMessage db u messageId text).1.messages,
        m ∈ db.messages ∨ m.message = trim text) := by
  obtain ⟨hc, hm⟩ := h
  have hnewc := addComment_comments db fl u postId text
  have hnews := sendMessage_new_messages db u reciever_id text
  have hnewe := editMessage_new_messages db u messageId text
  refine ⟨⟨?_, ?_⟩, ⟨?_, ?_⟩, ⟨?_, ?_⟩,
    blank_text_rejected db fl u postId reciever_id messageId text, ?_, ?_, ?_⟩
  · intro c hmem
    rcases hnewc c hmem with hold | ⟨hval, hne⟩
    · exact hc c hold
    · rw [hval]
      exact ⟨hne, trim_idem text⟩
  · rw [addComment_messages]
    exact hm
  · rw [sendMessage_comments]
    exact hc
  · intro m hmem
    rcases hnews m hmem with hold | ⟨hval, hne⟩
    · exact hm m hold
    · rw [hval]
      exact ⟨hne, trim_idem text⟩
  · rw [editMessage_comments]
    exact hc
  · intro m hmem
    rcases hnewe m hmem with hold | ⟨hval, hne⟩
    · exact hm m hold
    · rw [hval]
      exact ⟨hne, trim_idem text⟩
  · exact fun c hmem => (hnewc c hmem).imp id (fun hx => hx.1)
  · exact fun m hmem => (hnews m hmem).imp id (fun hx => hx.1)
  · exact fun m hmem => (hnewe m hmem).imp id (fun hx => hx.1)

theorem texts_stay_trimmed_witness :
    TextsTrimmed db2 ∧
      TextsTrimmed (addComment db2 noFaults 1 (some 10) "  fine  ").1 ∧
      TextsTrimmed (sendMessage db2 1 (some 2) "  see you ").1 ∧
      TextsTrimmed (editMessage db2 1 (some 1) " hello there ").1 :=
  ⟨by decide,
    (texts_stay_trimmed db2 noFaults 1 (some 10) (some 2) (some 1) "  fine  " (by decide)).1,
    by decide, by decide⟩

/-! ## Post content -/

theorem orNull_ne_empty (x : Option String) : orNull x ≠ some "" := by
  unfold orNull
  cases x with
  | none => simp
  | some t =>
    by_cases ht : t = ""
    · simp [ht]
    · simp only [if_neg ht]
      intro h
      exact ht (Option.some.inj h)

theorem hasContent_of_orNull (id u : Int) (content image_url : Option String) (t : Nat)
    (h : ¬ (orNull content = none ∧ orNull image_url = none)) :
    hasContent ⟨id, u, orNull content, orNull image_url, t⟩ = true := by
  unfold hasContent
  simp only [decide_eq_true_eq]
  by_cases hc : orNull content = none
  · right
    exact ⟨fun hi => h ⟨hc, hi⟩, orNull_ne_empty image_url⟩
  · left
    exact ⟨hc, orNull_ne_empty content⟩

theorem updatePost_posts (db : Db) (u postId : Int) (text : String) :
    ∀ p ∈ (updatePost db u postId text).1.posts,
      p ∈ db.posts ∨ (p.content = some (trim text) ∧ trim text ≠ "") := by
  intro p hp
  unfold updatePost at hp
  by_cases hg : trim text = ""
  · rw [if_pos hg] at hp
    exact Or.inl hp
  · rw [if_neg hg] at hp
    cases hsel : selectPost db postId with
    | nil =>
      rw [hsel] at hp
      exact Or.inl hp
    | cons post rest =>
      rw [hsel] at hp
      by_cases hown : post.user_id ≠ u
      · simp only [if_pos hown] at hp
        exact Or.inl hp
      · simp only [if_neg hown] at hp
        have hp2 : p ∈ db.posts.map (fun p0 : Post =>
            if p0.id = postId then { p0 with content := some (trim text) } else p0) := hp
        rw [List.mem_map] at hp2
        obtain ⟨p0, hp0, hmap⟩ := hp2
        by_cases hid : p0.id = postId
        · rw [if_pos hid] at hmap
          rw [← hmap]
          exact Or.inr ⟨rfl, hg⟩
        · rw [if_neg hid] at hmap
          rw [← hmap]
          exact Or.inl hp0

/-- The two branches of createPost in terms of the values it hands to the store, and the
predicate after createPost and updatePost. -/
theorem createPost_branches (db : Db) (u postId : Int) (content image_url : Option String)
    (text : String) (h : PostsHaveContent db) :
    ((orNull content = none ∧ orNull image_url = none) →
        createPost db u content image_url
          = (db, Reply.error 400 "Post must have text or an image")) ∧
      (¬ (orNull content = none ∧ orNull image_url = none) →
        (createPost db u content image_url).2.status = 201 ∧
        (createPost db u content image_url).1.posts
          = db.posts ++ [⟨db.postsAuto, u, orNull content, orNull image_url, db.clock⟩]) ∧
      PostsHaveContent (createPost db u content image_url).1 ∧
      PostsHaveContent (updatePost db u postId text).1 := by
  have hcreate : ¬ (orNull content = none ∧ orNull image_url = none) →
      createPost db u content image_url
        = (insertPost db u (orNull content) (orNull image_url),
            Reply.created (selectPost (insertPost db u (orNull content) (orNull image_url))
              db.postsAuto).head?) := by
    intro hne
    unfold createPost
    rw [if_neg hne]
  refine ⟨?_, ?_, ?_, ?_⟩
  · intro hempty
    unfold createPost
    rw [if_pos hempty]
  · intro hne
    rw [hcreate hne]
    exact ⟨rfl, rfl⟩
  · by_cases hempty : orNull content = none ∧ orNull image_url = none
    · unfold createPost
      rw [if_pos hempty]
      exact h
    · rw [hcreate hempty]
      intro p hp
      have hp2 : p ∈ db.posts ++
          [Post.mk db.postsAuto u (orNull content) (orNull image_url) db.clock] := hp
      rcases List.mem_append.mp hp2 with hold | hnew
      · exact h p hold
      · rw [List.mem_singleton] at hnew
        rw [hnew]
        exact hasContent_of_orNull db.postsAuto u content image_url db.clock hempty
  · intro p hp
    rcases updatePost_posts db u postId text p hp with hold | ⟨hval, hne⟩
    · exact h p hold
    · unfold hasContent
      simp only [decide_eq_true_eq]
      left
      rw [hval]
      exact ⟨by simp, fun hc => hne (Option.some.inj hc)⟩

theorem orNull_eq (x : Option String) : orNull x = if x = some "" then none else x := by
  unfold orNull
  cases x with
  | none => rfl
  | some t =>
    by_cases ht : t = ""
    · simp [ht]
    · have hne : some t ≠ some "" := fun hc => ht (Option.some.inj hc)
      simp only [if_neg ht, if_neg hne]

theorem orNull_none_iff (x : Option String) : orNull x = none ↔ x = none ∨ x = some "" := by
  rw [orNull_eq]
  by_cases hx : x = some ""
  · simp [hx]
  · simp [hx]

theorem hasContent_iff (p : Post) :
    hasContent p = true ↔
      (∃ t, p.content = some t ∧ t ≠ "") ∨ (∃ t, p.image_url = some t ∧ t ≠ "") := by
  have hopt : ∀ x : Option String, (x ≠ none ∧ x ≠ some "") ↔ ∃ t, x = some t ∧ t ≠ "" := by
    intro x
    cases x with
    | none => simp
    | some t => simp
  unfold hasContent
  rw [decide_eq_true_eq, hopt, hopt]

/-- C28: createPost with both content and image empty (absent, or the empty text) is
answered 400 and leaves the store unchanged; with a non-empty content or a non-empty image
it is answered 201 and appends one post of the caller that carries the content and the
image of the request, an empty one stored as absent; and the predicate 'every post has a
non-empty text or a non-empty image' is preserved by createPost and by updatePost, for
every caller and parameters. -/
theorem posts_keep_content (db : Db) (u postId : Int) (content image_url : Option String)
    (text : String) (h : PostsHaveContent db) :
    (((content = none ∨ content = some "") ∧ (image_url = none ∨ image_url = some "")) →
        createPost db u content image_url
          = (db, Reply.error 400 "Post must have text or an image")) ∧
      ((∃ t : String, t ≠ "" ∧ (content = some t ∨ image_url = some t)) →
        (createPost db u content image_url).2.status = 201 ∧
        (createPost db u content image_url).1.posts
          = db.posts ++
            [⟨db.postsAuto, u, if content = some "" then none else content,
              if image_url = some "" then none else image_url, db.clock⟩]) ∧
      PostsHaveContent (createPost db u content image_url).1 ∧
      PostsHaveContent (updatePost db u postId text).1 ∧
      (∀ d : Db, PostsHaveContent d ↔
        ∀ p ∈ d.posts,
          (∃ t, p.content = some t ∧ t ≠ "") ∨ (∃ t, p.image_url = some t ∧ t ≠ "")) := by
  obtain ⟨hreject, haccept, hcreate, hupdate⟩ :=
    createPost_branches db u postId content image_url text h
  refine ⟨?_, ?_, hcreate, hupdate, ?_⟩
  · rintro ⟨hc, hi⟩
    exact hreject ⟨(orNull_none_iff content).mpr hc, (orNull_none_iff image_url).mpr hi⟩
  · rintro ⟨t, ht, hpop⟩
    have hne : ¬ (orNull content = none ∧ orNull image_url = none) := by
      rintro ⟨hc, hi⟩
      rcases hpop with hpop | hpop
      · rcases (orNull_none_iff content).mp hc with hx | hx
        · rw [hpop] at hx
          exact Option.noConfusion hx
        · rw [hpop] at hx
          exact ht (Option.some.inj hx)
      · rcases (orNull_none_iff image_url).mp hi with hx | hx
        · rw [hpop] at hx
          exact Option.noConfusion hx
        · rw [hpop] at hx
          exact ht (Option.some.inj hx)
    obtain ⟨hstatus, hposts⟩ := haccept hne
    rw [orNull_eq content, orNull_eq image_url] at hposts
    exact ⟨hstatus, hposts⟩
  · intro d
    unfold PostsHaveContent
    constructor
    · intro hd p hp
      exact (hasContent_iff p).mp (hd p hp)
    · intro hd p hp
      exact (hasContent_iff p).mpr (hd p hp)

theorem posts_keep_content_witness :
    PostsHaveContent db1 ∧
      ((createPost db1 1 (some "hello") none).2.status = 201 ∧
        (createPost db1 1 (some "hello") none).1.posts
          = db1.posts ++
            [⟨db1.postsAuto, 1, if some "hello" = some "" then none else some "hello",
              if (none : Option String) = some "" then none else none, db1.clock⟩]) ∧
      (createPost db1 1 (some "") (some "/img/b.png")).1.posts
        = db1.posts ++ [⟨db1.postsAuto, 1, none, some "/img/b.png", db1.clock⟩] ∧
      (createPost db1 1 (some "") (some "/img/b.png")).2.status = 201 ∧
      PostsHaveContent (updatePost db1 1 11 " caption ").1 ∧
      createPost db1 1 (some "") none = (db1, Reply.error 400 "Post must have text or an image") :=
  ⟨by decide,
    (posts_keep_content db1 1 11 (some "hello") none " caption " (by decide)).2.1
      ⟨"hello", by decide, Or.inl rfl⟩,
    by decide, by decide,
    (posts_keep_content db1 1 11 (some "hello") none " caption " (by decide)).2.2.2.1,
    by decide⟩

/-! ## The two follow handlers -/

/-- C29: in every run in which the notification write of the first handler resolves (the
write to followers may reject or not), for every store, caller and target the two
handlers registered for the follow route send the same reply and leave the same follow
rows; the second leaves the notifications as they were, and the store the first leaves
differs from the store of the second in the notifications and their counter only. For a
valid target and a resolved write the first appends the follow-notification when no edge
existed and removes the follow-notifications of the pair when one did. -/
theorem follow_handlers_agree (db : Db) (rf : Bool) (a : Int) (targetUserId : Option Int) :
    (toggleFollow db ⟨rf, false⟩ a targetUserId).2
        = (toggleFollowSecond db ⟨rf, false⟩ a targetUserId).2 ∧
      (toggleFollow db ⟨rf, false⟩ a targetUserId).1.followers
        = (toggleFollowSecond db ⟨rf, false⟩ a targetUserId).1.followers ∧
      (toggleFollowSecond db ⟨rf, false⟩ a targetUserId).1.notifications = db.notifications ∧
      { (toggleFollow db ⟨rf, false⟩ a targetUserId).1 with
          notifications := db.notifications
          notificationsAuto := db.notificationsAuto }
        = (toggleFollowSecond db ⟨rf, false⟩ a targetUserId).1 ∧
      (∀ b : Int, b ≠ 0 → b ≠ a →
        (isFollowing db a b = false →
          (toggleFollow db noFaults a (some b)).1.notifications
            = db.notifications ++
              [⟨db.notificationsAuto, b, a, NotifType.follow, none, none, false, db.clock⟩]) ∧
        (isFollowing db a b = true →
          (toggleFollow db noFaults a (some b)).1.notifications
            = db.notifications.filter (fun n =>
                decide (¬ (n.type = NotifType.follow ∧ n.actor_id = a ∧ n.user_id = b))))) := by
  refine ⟨?_, ?_, ?_, ?_, ?_⟩
  · unfold toggleFollow toggleFollowSecond
    cases targetUserId with
    | none => rfl
    | some b =>
      by_cases hg : b = 0 ∨ b = a
      · simp only [if_pos hg]
      · simp only [if_neg hg]
        cases selectFollow db a b <;> cases rf <;> rfl
  · unfold toggleFollow toggleFollowSecond
    cases targetUserId with
    | none => rfl
    | some b =>
      by_cases hg : b = 0 ∨ b = a
      · simp only [if_pos hg]
      · simp only [if_neg hg]
        cases selectFollow db a b <;> cases rf <;> rfl
  · unfold toggleFollowSecond
    cases targetUserId with
    | none => rfl
    | some b =>
      by_cases hg : b = 0 ∨ b = a
      · simp only [if_pos hg]
      · simp only [if_neg hg]
        cases selectFollow db a b <;> cases rf <;> rfl
  · unfold toggleFollow toggleFollowSecond
    cases targetUserId with
    | none => rfl
    | some b =>
      by_cases hg : b = 0 ∨ b = a
      · simp only [if_pos hg]
      · simp only [if_neg hg]
        cases selectFollow db a b <;> cases rf <;> rfl
  · intro b hb0 hba
    constructor
    · intro hnot
      rw [toggleFollow_follow db a b hb0 hba ((selectFollow_nil_iff db a b).mpr hnot)]
      rfl
    · intro hfol
      cases hsel : selectFollow db a b with
      | nil =>
        rw [(selectFollow_nil_iff db a b).mp hsel] at hfol
        exact absurd hfol (by decide)
      | cons r rs =>
        rw [toggleFollow_unfollow db a b r rs hb0 hba hsel]
        rfl

/-! ## The read flags the thread view returns -/

/-- C30: the rows the thread view of me with partner returns are rows of the store as it
was before the call; in particular a message from partner to me that was unread is
returned with its read flag false, while the store after the call holds it with the
flag set. -/
theorem getThread_returns_old_flags (db : Db) (me partner : Int) :
    ∃ rows, (getThread db me (some partner)).2 = Reply.ok rows ∧
      (∀ r ∈ rows, r ∈ db.messages) ∧
      (∀ m ∈ db.messages, m.sender_id = partner → m.reciever_id = me → m.is_read = false →
        m ∈ rows ∧
        { m with is_read := true } ∈ (getThread db me (some partner)).1.messages) := by
  refine ⟨selectThread db me partner, rfl, ?_, ?_⟩
  · intro r hr
    unfold selectThread at hr
    rw [List.mem_insertionSort] at hr
    exact (List.mem_filter.mp hr).1
  · intro m hm hs hr hunread
    constructor
    · unfold selectThread
      rw [List.mem_insertionSort, List.mem_filter]
      refine ⟨hm, ?_⟩
      unfold betweenUsers
      simp [hs, hr]
    · show _ ∈ (markUnreadAsRead db partner me).messages
      unfold markUnreadAsRead
      simp only [List.mem_map]
      exact ⟨m, hm, by rw [if_pos ⟨hs, hr, hunread⟩]⟩

end Evolve
